import Mathlib

/-!
# tsimserver: connection registry (Hub), device selector, command lifecycle

A shallow embedding of `websocket/manager.go` (the Hub with its serialized
event loop and its statistics readers, the read loop and the handlers of a
client session), of `handlers/sms_gateway.go` (`findBestDeviceForSMS`, the
gateway handlers, the validation of a target number and the cost estimate)
and of the submission handlers of `handlers/sms.go` and `handlers/ussd.go`,
followed by theorems about them.

Modelling conventions.

* A Go `*Client` is an address (`Ptr`) into a heap of `Client` objects; the
  Hub's `Clients map[string]*Client` is an association list from identity
  token to address.  Go leaves the iteration order of a map unspecified: the
  model iterates in list order and every theorem is quantified over all
  lists, hence over all orders.
* A buffered channel `chan []byte` is its queue of pending items, its
  capacity and its closed flag.  A send on a closed channel and a second
  `close` panic in Go; a step that panics returns `none`.
* `[]byte` payloads are modelled as `String` (the JSON text).
* The Redis status cache is a total key/value store; expiry is not modelled
  and writes are taken to succeed (the Hub ignores their results).
* The handlers act on a `World`: the store, the Hub, the queue and a log of
  the effects they cause.  What they take from libraries (`json.Marshal`,
  time parsing) is a parameter (`Env`); clock readings and random numbers are
  arguments.
* A `float64` is represented by the rational number it denotes; every
  constant, conversion and multiplication is rounded to the nearest
  `float64`, ties to even.  A Go `int` has 64 bits and wraps around.
-/

namespace TSim

/-! ## Channels -/

/-- Buffered Go channel `chan []byte`: pending items (oldest first),
capacity, closed flag. -/
structure Chan where
  buf : List String
  cap : Nat
  closed : Bool
deriving DecidableEq, Repr

/-- Result of `select { case ch <- m: ... default: ... }`. -/
inductive SendResult where
  | sent (ch : Chan)
  | full
  | panicked
deriving DecidableEq, Repr

/-- Non-blocking send: panics on a closed channel, succeeds when the buffer
has room, otherwise takes the `default` branch. -/
def Chan.trySend (ch : Chan) (m : String) : SendResult :=
  if ch.closed then SendResult.panicked
  else if ch.buf.length < ch.cap then
    SendResult.sent { ch with buf := ch.buf ++ [m] }
  else SendResult.full

/-- Builtin `close(ch)`: panics (`none`) when the channel is closed already. -/
def Chan.close (ch : Chan) : Option Chan :=
  if ch.closed then none else some { ch with closed := true }

/-- Builtin `make(chan []byte, n)`. -/
def Chan.make (n : Nat) : Chan := { buf := [], cap := n, closed := false }

/-! ## Clients and the Hub -/

/-- Address of a `Client` object. -/
abbrev Ptr := Nat

/-- `Client` of `manager.go` (the transport handle, the back pointer to the
Hub and `LastSeen` play no part in the registry operations). -/
structure Client where
  ID : String
  DeviceID : String
  Send : Chan
deriving DecidableEq, Repr

/-- `NewClient`: fresh identity token (supplied by `uuid.New`), empty
device id, open outbound buffer of capacity 256. -/
def NewClient (id : String) : Client :=
  { ID := id, DeviceID := "", Send := Chan.make 256 }

/-- Go `m[k] = v` on an association list. -/
def mapInsert (m : List (String × Ptr)) (k : String) (v : Ptr) : List (String × Ptr) :=
  (k, v) :: m.filter (fun e => decide (e.1 ≠ k))

/-- Go `delete(m, k)`. -/
def mapDelete (m : List (String × Ptr)) (k : String) : List (String × Ptr) :=
  m.filter (fun e => decide (e.1 ≠ k))

/-- Go `_, ok := m[k]`. -/
def mapContains (m : List (String × Ptr)) (k : String) : Bool :=
  m.any (fun e => decide (e.1 = k))

/-- Go `m[k] = v` on the Redis key space (`none` is an absent key). -/
def kvSet (f : String → Option String) (k : String) (v : Option String) :
    String → Option String :=
  fun k' => if k' = k then v else f k'

/-- The Hub together with the objects it points to and the external status
cache: `heap` holds every `Client` object, `Clients` is the registry map,
`deviceStatus` and `deviceConnection` are the Redis keys
`device:status:<id>` and `device:connection:<id>`. -/
structure Hub where
  heap : Ptr → Client
  Clients : List (String × Ptr)
  deviceStatus : String → Option String
  deviceConnection : String → Option String

/-- `NewHub`: empty registry (and an empty cache); no client object has been
created yet, every address holds a blank client. -/
def NewHub : Hub :=
  { heap := fun _ => NewClient "", Clients := [],
    deviceStatus := fun _ => none, deviceConnection := fun _ => none }

/-- Store `c` at address `p`. -/
def Hub.store (h : Hub) (p : Ptr) (c : Client) : Hub :=
  { h with heap := fun q => if q = p then c else h.heap q }

/-- Replace the outbound channel of the client at `p`. -/
def Hub.setSend (h : Hub) (p : Ptr) (ch : Chan) : Hub :=
  h.store p { h.heap p with Send := ch }

/-- `case client := <-h.Register` of `Hub.Run`. -/
def Hub.handleRegister (h : Hub) (p : Ptr) : Hub :=
  let client := h.heap p
  { h with
    Clients := mapInsert h.Clients client.ID p
    deviceConnection := kvSet h.deviceConnection client.DeviceID (some client.ID)
    deviceStatus := kvSet h.deviceStatus client.DeviceID (some "online") }

/-- `case client := <-h.Unregister` of `Hub.Run`. -/
def Hub.handleUnregister (h : Hub) (p : Ptr) : Option Hub :=
  let client := h.heap p
  if mapContains h.Clients client.ID then
    match client.Send.close with
    | none => none
    | some ch =>
      some { (h.setSend p ch) with
        Clients := mapDelete h.Clients client.ID
        deviceConnection := kvSet h.deviceConnection client.DeviceID none
        deviceStatus := kvSet h.deviceStatus client.DeviceID (some "offline") }
  else some h

/-- Body of the `select` shared by `sendToDevice` and the Broadcast case:
enqueue on the client at `p`, or close its channel and delete its entry. -/
def Hub.sendOrEvict (h : Hub) (p : Ptr) (message : String) : Option Hub :=
  let client := h.heap p
  match client.Send.trySend message with
  | SendResult.panicked => none
  | SendResult.sent ch => some (h.setSend p ch)
  | SendResult.full =>
    match client.Send.close with
    | none => none
    | some ch =>
      some { (h.setSend p ch) with Clients := mapDelete h.Clients client.ID }

/-- The `for _, client := range h.Clients` loop of `sendToDevice`: the first
client whose `DeviceID` matches is served and the loop returns. -/
def sendToDeviceLoop (h : Hub) (deviceID message : String) :
    List (String × Ptr) → Option Hub
  | [] => some h
  | e :: rest =>
    if (h.heap e.2).DeviceID = deviceID then h.sendOrEvict e.2 message
    else sendToDeviceLoop h deviceID message rest

/-- `Hub.sendToDevice`. -/
def Hub.sendToDevice (h : Hub) (deviceID message : String) : Option Hub :=
  sendToDeviceLoop h deviceID message h.Clients

/-- The `for _, client := range h.Clients` loop of the Broadcast case.  An
entry deleted before the iteration reaches it is not produced. -/
def broadcastLoop (message : String) : List (String × Ptr) → Hub → Option Hub
  | [], h => some h
  | e :: rest, h =>
    if mapContains h.Clients e.1 then
      match h.sendOrEvict e.2 message with
      | none => none
      | some h' => broadcastLoop message rest h'
    else broadcastLoop message rest h

/-- `case message := <-h.Broadcast` of `Hub.Run`. -/
def Hub.handleBroadcast (h : Hub) (message : String) : Option Hub :=
  broadcastLoop message h.Clients h

/-- `Hub.SendMessageToDevice`: `marshalled` is the result of
`json.Marshal(message)`.  The hand-over on the unbuffered `SendToDevice`
channel is a rendezvous with `Hub.Run`, which then runs `sendToDevice`; the
caller receives `nil`.  The result pairs the Hub after the step with the
returned error (`none` is `nil`). -/
def Hub.SendMessageToDevice (h : Hub) (deviceID : String)
    (marshalled : Except String String) : Option (Hub × Option String) :=
  match marshalled with
  | Except.error err => some (h, some err)
  | Except.ok data =>
    match h.sendToDevice deviceID data with
    | none => none
    | some h' => some (h', none)

/-- `Hub.GetConnectedClientsCount`. -/
def Hub.GetConnectedClientsCount (h : Hub) : Nat := h.Clients.length

/-! ## Persisted records (`models/models.go`)

The tables hold the rows visible through GORM's default scope (rows whose
`deleted_at` is set are hidden by it).  `id` columns are primary keys, so a
join on an `id` matches at most one row.  `int` columns are `Int`,
`time.Time` is a number of time units since the epoch. -/

/-- `Site` (columns used by the selector). -/
structure Site where
  ID : Nat
  Country : String
deriving DecidableEq, Repr

/-- `DeviceGroup` (columns used by the selector). -/
structure DeviceGroup where
  ID : Nat
  SiteID : Nat
  Operator : String
deriving DecidableEq, Repr

/-- `SIMCard` (columns used by the selector and the message handlers). -/
structure SIMCard where
  ID : Nat
  DeviceID : String
  SignalStrength : Int
  IsActive : Bool
  IsEnabled : Bool
  Identifier : String := ""
  IMSI : String := ""
  IMEI : String := ""
  Operator : String := ""
  PhoneNumber : String := ""
  NetworkType : String := ""
  MCC : String := ""
  MNC : String := ""
deriving DecidableEq, Repr

/-- `Device` (columns used by the selector); `SIMCards` is the relation
filled in by `Preload("SIMCards")` and is not a column. -/
structure Device where
  ID : Nat
  DeviceGroupID : Option Nat
  DeviceID : String
  BatteryLevel : Int
  OperatorStatus : String
  SignalStrength : Int
  IsActive : Bool
  IsAvailable : Bool
  LastSeen : Int
  SIMCards : List SIMCard
  DeviceName : String := ""
  Model : String := ""
  AndroidVersion : String := ""
  AppVersion : String := ""
  ConnectKey : String := ""
  SiteName : String := ""
  GroupName : String := ""
deriving DecidableEq, Repr

/-- `Device.IsReadyForSMS`. -/
def Device.IsReadyForSMS (d : Device) : Bool :=
  d.IsActive && d.IsAvailable && decide (d.OperatorStatus = "online") &&
    decide (d.BatteryLevel ≥ 10)

/-- `SMSMessage` (the bookkeeping columns `created_at`, `updated_at`,
`retries` and `max_retries` are left out); `Kind` is the column `type`. -/
structure SMSMessage where
  ID : Nat := 0
  DeviceID : String := ""
  Kind : String := ""
  Target : String := ""
  From : String := ""
  Message : String := ""
  SimSlot : Int := 0
  InternalLogID : Int := 0
  Status : String := ""
  DeliveryReport : String := ""
  ErrorMessage : String := ""
  DeliveredAt : Option Int := none
  Priority : Int := 0
  ScheduledAt : Option Int := none
  IsTestMessage : Bool := false
  AdminUserID : Option Nat := none
  Timestamp : Int := 0
deriving DecidableEq, Repr

/-- `USSDCommand` of `models.go` (without `created_at`, `updated_at`). -/
structure USSDCommand where
  ID : Nat := 0
  DeviceID : String := ""
  USSDCode : String := ""
  SimSlot : Int := 0
  InternalLogID : Int := 0
  Result : String := ""
  Success : Bool := false
  ErrorMessage : String := ""
  Status : String := ""
  Timestamp : Int := 0
deriving DecidableEq, Repr

/-- `DeviceStatus` of `models.go` (without the coordinates and
`created_at`). -/
structure DeviceStatus where
  ID : Nat := 0
  DeviceID : String := ""
  BatteryLevel : Int := 0
  BatteryStatus : String := ""
  Timestamp : Int := 0
deriving DecidableEq, Repr

/-- `Alarm` of `models.go` (without `created_at`, `updated_at`); `Kind` is
the column `type`. -/
structure Alarm where
  ID : Nat := 0
  DeviceID : String := ""
  Kind : String := ""
  AlarmType : String := ""
  Title : String := ""
  Message : String := ""
  Severity : String := ""
  Resolved : Bool := false
  Timestamp : Int := 0
deriving DecidableEq, Repr

/-- The persistence store: its tables in primary-key order, the last value
of each table's `id` sequence, and the error (if any) with which it answers
every operation of a call. -/
structure DB where
  sites : List Site
  device_groups : List DeviceGroup
  devices : List Device
  sim_cards : List SIMCard
  queryError : Option String
  sms_messages : List SMSMessage := []
  ussd_commands : List USSDCommand := []
  device_statuses : List DeviceStatus := []
  alarms : List Alarm := []
  sms_seq : Nat := 0
  ussd_seq : Nat := 0
  sim_seq : Nat := 0
  status_seq : Nat := 0
  alarm_seq : Nat := 0

/-! ## Device selector (`handlers/sms_gateway.go`) -/

/-- `strings.HasPrefix`. -/
def hasPrefix (s pre : String) : Bool := pre.data.isPrefixOf s.data

/-- The `countryMap` literal of `getCountryFromPhoneNumber`, in declaration
order. -/
def countryMap : List (String × String) :=
  [("+90", "TR"), ("+1", "US"), ("+44", "UK"), ("+49", "DE"), ("+33", "FR")]

/-- The `for code, country := range countryMap` loop, run in declaration
order (no dialing code of the table is a prefix of another, so at most one
entry can match a given number). -/
def countryLoop (phoneNumber : String) : List (String × String) → String
  | [] => ""
  | e :: rest =>
    if hasPrefix phoneNumber e.1 then e.2 else countryLoop phoneNumber rest

/-- `getCountryFromPhoneNumber`. -/
def getCountryFromPhoneNumber (phoneNumber : String) : String :=
  if !hasPrefix phoneNumber "+" then "" else countryLoop phoneNumber countryMap

/-- `JOIN device_groups ON devices.device_group_id = device_groups.id`. -/
def DB.groupOf (db : DB) (d : Device) : Option DeviceGroup :=
  match d.DeviceGroupID with
  | none => none
  | some gid => db.device_groups.find? (fun g => decide (g.ID = gid))

/-- `JOIN sites ON device_groups.site_id = sites.id`. -/
def DB.siteOf (db : DB) (g : DeviceGroup) : Option Site :=
  db.sites.find? (fun s => decide (s.ID = g.SiteID))

/-- The `Where` clauses of the device query, on the joined row. -/
def DB.whereClause (db : DB) (country operator : String) (d : Device) : Bool :=
  match db.groupOf d with
  | none => false
  | some g =>
    match db.siteOf g with
    | none => false
    | some s =>
      (d.IsActive == true && d.IsAvailable == true &&
        decide (d.OperatorStatus = "online") && decide (d.BatteryLevel ≥ 10)) &&
      (decide (country = "") || decide (s.Country = country)) &&
      (decide (operator = "") || decide (g.Operator = operator))

/-- Row order requested by
`Order("devices.battery_level DESC, devices.signal_strength DESC, devices.last_seen DESC")`:
`a` may precede `b`. -/
def Device.rankedBefore (a b : Device) : Prop :=
  b.BatteryLevel < a.BatteryLevel ∨
  (a.BatteryLevel = b.BatteryLevel ∧
    (b.SignalStrength < a.SignalStrength ∨
      (a.SignalStrength = b.SignalStrength ∧ b.LastSeen ≤ a.LastSeen)))

instance : DecidableRel Device.rankedBefore := fun a b => by
  unfold Device.rankedBefore
  infer_instance

/-- Strictly greater (battery, signal, lastSeen) key, compared
lexicographically. -/
def Device.keyGreater (a b : Device) : Prop :=
  b.BatteryLevel < a.BatteryLevel ∨
  (a.BatteryLevel = b.BatteryLevel ∧
    (b.SignalStrength < a.SignalStrength ∨
      (a.SignalStrength = b.SignalStrength ∧ b.LastSeen < a.LastSeen)))

instance : DecidableRel Device.keyGreater := fun a b => by
  unfold Device.keyGreater
  infer_instance

/-- `Preload("SIMCards")`: the SIM rows of the device, in stored order. -/
def DB.preload (db : DB) (d : Device) : Device :=
  { d with SIMCards := db.sim_cards.filter (fun s => decide (s.DeviceID = d.DeviceID)) }

/-- The device query: joins, `Where`, `Order`, `Preload`, `Find`.  SQL leaves
the relative order of rows with equal keys open; here they keep their stored
order. -/
def DB.queryDevices (db : DB) (country operator : String) : List Device :=
  ((db.devices.filter (db.whereClause country operator)).insertionSort
    Device.rankedBefore).map db.preload

/-- The SIM condition of the selection loop. -/
def SIMCard.usable (s : SIMCard) : Bool :=
  s.IsActive && s.IsEnabled && decide (s.SignalStrength > 0)

/-- The inner loop `for _, simCard := range device.SIMCards`. -/
def firstUsableSIM : List SIMCard → Option SIMCard
  | [] => none
  | s :: rest => if s.usable then some s else firstUsableSIM rest

/-- The outer loop `for _, device := range devices`. -/
def scanDevices : List Device → Option (Device × SIMCard)
  | [] => none
  | d :: rest =>
    match firstUsableSIM d.SIMCards with
    | some s => some (d, s)
    | none => scanDevices rest

/-- `findBestDeviceForSMS`: the returned `(*Device, *SIMCard, error)`, a nil
pointer or nil error being `none`. -/
def findBestDeviceForSMS (db : DB) (targetNumber country operator : String) :
    Option Device × Option SIMCard × Option String :=
  let country := if country = "" then getCountryFromPhoneNumber targetNumber else country
  match db.queryError with
  | some err => (none, none, some ("failed to query devices: " ++ err))
  | none =>
    match scanDevices (db.queryDevices country operator) with
    | some (d, s) => (some d, some s, none)
    | none => (none, none, some "no available device with active SIM card found")

/-- The outbound buffer of the client at `p` has room for one more item. -/
def Hub.hasRoom (h : Hub) (p : Ptr) : Bool :=
  decide ((h.heap p).Send.buf.length < (h.heap p).Send.cap)

/-- The client with `m` appended to its outbound buffer. -/
def Client.enqueue (c : Client) (m : String) : Client :=
  { c with Send := { c.Send with buf := c.Send.buf ++ [m] } }

/-- The client with its outbound buffer closed. -/
def Client.closeSend (c : Client) : Client :=
  { c with Send := { c.Send with closed := true } }

/-! ## Selector: notions used in the statements -/

/-- Every device row belongs to a group that belongs to a site. -/
def DB.Joined (db : DB) : Prop :=
  ∀ d ∈ db.devices, ∃ g s, db.groupOf d = some g ∧ db.siteOf g = some s

/-- The eligibility constraints: the base conditions, the country (when one
is asked for) matched against the device's site, and the operator (when one
is asked for) matched against the device's group. -/
def DB.Eligible (db : DB) (country operator : String) (d : Device) : Prop :=
  d.IsActive = true ∧ d.IsAvailable = true ∧ d.OperatorStatus = "online" ∧
  d.BatteryLevel ≥ 10 ∧
  (country ≠ "" → ∃ g s, db.groupOf d = some g ∧ db.siteOf g = some s ∧ s.Country = country) ∧
  (operator ≠ "" → ∃ g, db.groupOf d = some g ∧ g.Operator = operator)

/-- The device has a stored SIM with `active && enabled && signalStrength > 0`. -/
def DB.HasUsableSIM (db : DB) (d : Device) : Prop :=
  ∃ s ∈ db.sim_cards, s.DeviceID = d.DeviceID ∧
    s.IsActive = true ∧ s.IsEnabled = true ∧ s.SignalStrength > 0

/-! ## Registry invariants -/

/-- Every registry entry is filed under the identity token of its client. -/
def Hub.KeysMatch (h : Hub) : Prop :=
  ∀ e ∈ h.Clients, (h.heap e.2).ID = e.1

/-- Keys of a Go map are pairwise distinct. -/
def Hub.KeysNodup (h : Hub) : Prop :=
  (h.Clients.map Prod.fst).Nodup

/-- Every registered client has an open outbound channel. -/
def Hub.RegisteredOpen (h : Hub) : Prop :=
  ∀ e ∈ h.Clients, (h.heap e.2).Send.closed = false


/-! ## Concrete states -/

/-- Two registered connections, bound to `DEV1` and `DEV2`, with empty
outbound buffers. -/
def hubTwo : Hub :=
  { heap := fun q =>
      if q = 1 then { ID := "c1", DeviceID := "DEV1", Send := Chan.make 256 }
      else if q = 2 then { ID := "c2", DeviceID := "DEV2", Send := Chan.make 256 }
      else NewClient ""
    Clients := [("c1", 1), ("c2", 2)]
    deviceStatus := fun _ => none
    deviceConnection := fun _ => none }

/-- As `hubTwo`, with the buffer of the `DEV1` connection holding 256 items. -/
def hubFull : Hub :=
  hubTwo.setSend 1 { buf := List.replicate 256 "m", cap := 256, closed := false }

/-- An empty Hub and one client object, freshly made by `NewClient`, at
address 1. -/
def hubFresh : Hub := NewHub.store 1 (NewClient "c1")

/-- A SIM row of device `dev`. -/
def simRow (id : Nat) (dev : String) (signal : Int) (active enabled : Bool) : SIMCard :=
  { ID := id, DeviceID := dev, SignalStrength := signal, IsActive := active,
    IsEnabled := enabled }

/-- A ready device row of group 1. -/
def deviceRow (id : Nat) (dev : String) (battery signal lastSeen : Int) : Device :=
  { ID := id, DeviceGroupID := some 1, DeviceID := dev, BatteryLevel := battery,
    OperatorStatus := "online", SignalStrength := signal, IsActive := true,
    IsAvailable := true, LastSeen := lastSeen, SIMCards := [] }

/-- One Turkish site with one Turkcell group and three ready devices: `TOP`
(battery 99) whose only SIM is inactive, `A` (battery 80, signal 3) and `B`
(battery 95, signal 1), the latter with an unusable SIM stored before a
usable one. -/
def dbRanked : DB :=
  { sites := [{ ID := 1, Country := "TR" }]
    device_groups := [{ ID := 1, SiteID := 1, Operator := "Turkcell" }]
    devices := [deviceRow 1 "A" 80 3 100, deviceRow 2 "B" 95 1 200, deviceRow 3 "TOP" 99 4 300]
    sim_cards := [simRow 1 "A" 3 true true, simRow 2 "TOP" 4 false true,
      simRow 3 "B" 0 true true, simRow 4 "B" 2 true true]
    queryError := none }

/-- Two ready devices with a usable SIM each, at battery 9 and battery 10. -/
def dbBattery : DB :=
  { sites := [{ ID := 1, Country := "TR" }]
    device_groups := [{ ID := 1, SiteID := 1, Operator := "Turkcell" }]
    devices := [deviceRow 1 "NINE" 9 4 100, deviceRow 2 "TEN" 10 1 200]
    sim_cards := [simRow 1 "NINE" 3 true true, simRow 2 "TEN" 3 true true]
    queryError := none }

/-! ## Store operations

`Where(...).First(&row)` returns the first matching row in primary-key
order, `Create` appends a row under the next value of the table's sequence
(filling in the column defaults GORM applies to zero values), `Save` rewrites
the row with the same primary key.  The store answers every operation of a
call, or none (`queryError`). -/

/-- Model of `Where(...).First(&row)` on the rows of one table. -/
def firstRow {α : Type} (err : Option String) (rows : List α) (p : α → Bool) :
    Except String α :=
  match err with
  | some e => Except.error e
  | none =>
    match rows.find? p with
    | some r => Except.ok r
    | none => Except.error "record not found"

/-- Model of `Where("device_id = ? AND internal_log_id = ?", …).First(&sms)`. -/
def DB.firstSMS (db : DB) (deviceID : String) (internalLogID : Int) :
    Except String SMSMessage :=
  firstRow db.queryError db.sms_messages
    (fun r => decide (r.DeviceID = deviceID) && decide (r.InternalLogID = internalLogID))

/-- Model of `Create(&sms)`: the row as written and the store afterwards. -/
def DB.createSMS (db : DB) (sms : SMSMessage) : Except String (DB × SMSMessage) :=
  match db.queryError with
  | some e => Except.error e
  | none =>
    let row : SMSMessage :=
      { sms with
        ID := db.sms_seq + 1
        Status := if sms.Status = "" then "pending" else sms.Status
        Priority := if sms.Priority = 0 then 1 else sms.Priority }
    Except.ok
      ({ db with sms_messages := db.sms_messages ++ [row], sms_seq := db.sms_seq + 1 }, row)

/-- Model of `Save(&sms)` for a row read from the table. -/
def DB.saveSMS (db : DB) (sms : SMSMessage) : Except String DB :=
  match db.queryError with
  | some e => Except.error e
  | none =>
    Except.ok { db with
      sms_messages := db.sms_messages.map (fun r => if r.ID = sms.ID then sms else r) }

/-- Model of `Where("device_id = ? AND internal_log_id = ?", …).First(&ussd)`. -/
def DB.firstUSSD (db : DB) (deviceID : String) (internalLogID : Int) :
    Except String USSDCommand :=
  firstRow db.queryError db.ussd_commands
    (fun r => decide (r.DeviceID = deviceID) && decide (r.InternalLogID = internalLogID))

/-- Model of `Create(&ussd)`. -/
def DB.createUSSD (db : DB) (ussd : USSDCommand) : Except String (DB × USSDCommand) :=
  match db.queryError with
  | some e => Except.error e
  | none =>
    let row : USSDCommand := { ussd with ID := db.ussd_seq + 1 }
    Except.ok
      ({ db with ussd_commands := db.ussd_commands ++ [row], ussd_seq := db.ussd_seq + 1 },
        row)

/-- Model of `Save(&ussd)` for a row read from the table. -/
def DB.saveUSSD (db : DB) (ussd : USSDCommand) : Except String DB :=
  match db.queryError with
  | some e => Except.error e
  | none =>
    Except.ok { db with
      ussd_commands := db.ussd_commands.map (fun r => if r.ID = ussd.ID then ussd else r) }

/-- Model of `Where("device_id = ?", …).First(&device)`. -/
def DB.firstDeviceByID (db : DB) (deviceID : String) : Except String Device :=
  firstRow db.queryError db.devices (fun d => decide (d.DeviceID = deviceID))

/-- Model of `Where("connect_key = ?", …).First(&device)`. -/
def DB.firstDeviceByKey (db : DB) (connectKey : String) : Except String Device :=
  firstRow db.queryError db.devices (fun d => decide (d.ConnectKey = connectKey))

/-- Model of `Save(&device)` for a row read from the table. -/
def DB.saveDevice (db : DB) (device : Device) : Except String DB :=
  match db.queryError with
  | some e => Except.error e
  | none =>
    Except.ok { db with
      devices := db.devices.map (fun r => if r.ID = device.ID then device else r) }

/-- Model of `Where("device_id = ? AND id = ?", …).First(&simCard)`. -/
def DB.firstSIM (db : DB) (deviceID : String) (id : Int) : Except String SIMCard :=
  firstRow db.queryError db.sim_cards
    (fun r => decide (r.DeviceID = deviceID) && decide ((r.ID : Int) = id))

/-- Model of `Save(&simCard)` for a row read from the table. -/
def DB.saveSIM (db : DB) (sim : SIMCard) : Except String DB :=
  match db.queryError with
  | some e => Except.error e
  | none =>
    Except.ok { db with
      sim_cards := db.sim_cards.map (fun r => if r.ID = sim.ID then sim else r) }

/-- Model of `Create(&simCard)`; `is_enabled` has the column default `true`,
which GORM applies to the zero value. -/
def DB.createSIM (db : DB) (sim : SIMCard) : Except String DB :=
  match db.queryError with
  | some e => Except.error e
  | none =>
    let row : SIMCard :=
      { sim with ID := db.sim_seq + 1, IsEnabled := true }
    Except.ok { db with sim_cards := db.sim_cards ++ [row], sim_seq := db.sim_seq + 1 }

/-- Model of `Where("device_id = ?", deviceID).Delete(&models.SIMCard{})`
(a soft delete: the rows leave the visible table); its result is ignored. -/
def DB.deleteSIMs (db : DB) (deviceID : String) : DB :=
  match db.queryError with
  | some _ => db
  | none => { db with sim_cards := db.sim_cards.filter (fun r => decide (r.DeviceID ≠ deviceID)) }

/-- Model of `Create(&status)`. -/
def DB.createStatus (db : DB) (st : DeviceStatus) : Except String DB :=
  match db.queryError with
  | some e => Except.error e
  | none =>
    Except.ok { db with
      device_statuses := db.device_statuses ++ [{ st with ID := db.status_seq + 1 }]
      status_seq := db.status_seq + 1 }

/-- Model of `Create(&alarm)`. -/
def DB.createAlarm (db : DB) (a : Alarm) : Except String DB :=
  match db.queryError with
  | some e => Except.error e
  | none =>
    Except.ok { db with
      alarms := db.alarms ++ [{ a with ID := db.alarm_seq + 1 }]
      alarm_seq := db.alarm_seq + 1 }

/-! ## Frames, effects and the world of the handlers -/

/-- The values the handlers pass to `json.Marshal`: frames for a device and
messages for the event queue. -/
inductive Frame where
  | authResponse (success : Bool) (siteName groupName deviceName : String)
  | sendSMSCommand (target : String) (simSlot : Int) (message : String) (internalLogID : Int)
  | gatewaySMS (target message : String) (simSlot : Int) (internalLogID : Nat)
  | ussdCommand (ussdCode : String) (simSlot : Int) (internalLogID : Int)
  | discoverPhoneNumber (simSlot : Int) (ussdCode : String) (internalLogID : Int)
  | queueSMSCommand (deviceID target message : String) (simSlot internalLogID : Int)
  | queueUSSDCommand (deviceID ussdCode : String) (simSlot internalLogID : Int)
  | queueIncomingSMS (deviceID sender message : String) (timestamp : Int)
  | queueAlarm (deviceID alarmType message severity : String)
  | queueDeliveryReport (messageID : Nat) (deviceID target status deliveryReport
      errorMessage : String) (deliveredAt : Option Int) (isTestMessage : Bool)
      (timestamp : Int)
deriving DecidableEq, Repr

/-- What the handlers take from their surroundings: `json.Marshal` on the
frames (it cannot fail on them) and `time.Parse(time.RFC3339, ·)`. -/
structure Env where
  jsonMarshal : Frame → String
  parseRFC3339 : String → Option Int

/-- Calls a handler makes to its collaborators, in the order it makes them:
writes to the command tables, hand-overs to the Hub, queue publishes. -/
inductive Effect where
  | createSMS (row : SMSMessage)
  | saveSMS (row : SMSMessage)
  | createUSSD (row : USSDCommand)
  | saveUSSD (row : USSDCommand)
  | hubSend (deviceID : String) (frame : Frame)
  | publish (queue : String) (frame : Frame)
deriving DecidableEq, Repr

/-- Everything the handlers act on: the store, the Hub (`handlers.Hub`),
whether `wsHub` of `sms_gateway.go` has been pointed at it by
`InitializeWebSocketHub`, the error (if any) of the queue channel, and the
log of effects so far. -/
structure World where
  db : DB
  hub : Hub
  wsHub : Bool
  queueError : Option String
  trace : List Effect

/-- The effect is a hand-over to the Hub. -/
def Effect.isHubSend : Effect → Bool
  | Effect.hubSend _ _ => true
  | _ => false

/-- Append an effect to the log. -/
def World.log (w : World) (e : Effect) : World := { w with trace := w.trace ++ [e] }

/-- Model of `queue.PublishMessage`. -/
def World.publish (w : World) (queue : String) (frame : Frame) : World × Option String :=
  match w.queueError with
  | some e => (w, some ("failed to publish message: " ++ e))
  | none => (w.log (Effect.publish queue frame), none)

/-- A call of `Hub.SendMessageToDevice` on `handlers.Hub` (or on `wsHub`
when it is set). -/
def World.hubSendMessageToDevice (env : Env) (w : World) (deviceID : String)
    (frame : Frame) : Option (World × Option String) :=
  match w.hub.SendMessageToDevice deviceID (Except.ok (env.jsonMarshal frame)) with
  | none => none
  | some (hub', err) =>
    some (({ w with hub := hub' } : World).log (Effect.hubSend deviceID frame), err)

/-- The call `database.DB.Create(&sms)`. -/
def World.createSMS (w : World) (sms : SMSMessage) : Except String (World × SMSMessage) :=
  match w.db.createSMS sms with
  | Except.error e => Except.error e
  | Except.ok (db', row) =>
    Except.ok (({ w with db := db' } : World).log (Effect.createSMS row), row)

/-- The call `database.DB.Save(&sms)`; on failure the world is unchanged. -/
def World.saveSMS (w : World) (sms : SMSMessage) : Except String World :=
  match w.db.saveSMS sms with
  | Except.error e => Except.error e
  | Except.ok db' => Except.ok (({ w with db := db' } : World).log (Effect.saveSMS sms))

/-- The call `database.DB.Save(&sms)` with its result ignored. -/
def World.saveSMSIgnored (w : World) (sms : SMSMessage) : World :=
  match w.saveSMS sms with
  | Except.error _ => w
  | Except.ok w' => w'

/-- The call `database.DB.Create(&ussd)`. -/
def World.createUSSD (w : World) (ussd : USSDCommand) :
    Except String (World × USSDCommand) :=
  match w.db.createUSSD ussd with
  | Except.error e => Except.error e
  | Except.ok (db', row) =>
    Except.ok (({ w with db := db' } : World).log (Effect.createUSSD row), row)

/-- The call `database.DB.Save(&ussd)`; on failure the world is unchanged. -/
def World.saveUSSD (w : World) (ussd : USSDCommand) : Except String World :=
  match w.db.saveUSSD ussd with
  | Except.error e => Except.error e
  | Except.ok db' => Except.ok (({ w with db := db' } : World).log (Effect.saveUSSD ussd))

/-- The call `database.DB.Save(&ussd)` with its result ignored. -/
def World.saveUSSDIgnored (w : World) (ussd : USSDCommand) : World :=
  match w.saveUSSD ussd with
  | Except.error _ => w
  | Except.ok w' => w'

/-! ## HTTP handlers (`handlers/sms.go`, `handlers/ussd.go`, `handlers/sms_gateway.go`)

A handler takes the parsed request body (`none` when `BodyParser` fails),
the clock reading and, where it draws one, the value of `rand.Intn(999999)`;
it returns the HTTP status of its response and the world afterwards, or
`none` when the Hub panics. -/

/-- `strings.ReplaceAll(s, string(c), "")` on the characters of `s`. -/
def removeChar (c : Char) (s : List Char) : List Char :=
  s.filter (fun x => !(x == c))

/-- `len(s)`: the length in bytes. -/
def byteLen (s : List Char) : Nat := (s.map (fun c => c.utf8Size)).sum

/-- `isValidPhoneNumber`. -/
def isValidPhoneNumber (phoneNumber : String) : Bool :=
  let cleaned := removeChar ')' (removeChar '(' (removeChar '-'
    (removeChar ' ' phoneNumber.data)))
  if ['+'].isPrefixOf cleaned && decide (byteLen cleaned ≥ 11) then
    (cleaned.drop 1).all (fun char => !(decide (char < '0') || decide (char > '9')))
  else false

/-- Request body of `SendSMSViaGateway`. -/
structure SMSSendRequest where
  Target : String
  Message : String
  Country : String := ""
  Operator : String := ""
  Priority : Int := 0
  ScheduledAt : String := ""
  IsTestMessage : Bool := false
deriving DecidableEq, Repr

/-- Request body of `SendSMS` and of `SendTestSMS`. -/
structure SMSRequest where
  DeviceID : String
  Target : String
  Message : String
  SimSlot : Int := 0
deriving DecidableEq, Repr

/-- Request body of `SendUSSD` and of `DiscoverPhoneNumber`. -/
structure USSDRequest where
  DeviceID : String
  USSDCode : String
  SimSlot : Int := 0
deriving DecidableEq, Repr

/-- Request body of `ProcessDeliveryReport`. -/
structure DeliveryReportBody where
  DeviceID : String
  InternalLogID : Int
  Status : String
  DeliveryReport : String := ""
  ErrorMessage : String := ""
  Timestamp : Int := 0
deriving DecidableEq, Repr

/-- `sendSMSToDevice`. -/
def sendSMSToDevice (env : Env) (w : World) (deviceID : String) (smsMessage : SMSMessage) :
    Option (World × Option String) :=
  if !w.wsHub then some (w, some "WebSocket hub not initialized")
  else
    w.hubSendMessageToDevice env deviceID
      (Frame.gatewaySMS smsMessage.Target smsMessage.Message smsMessage.SimSlot smsMessage.ID)

/-- The tail shared by `SendSMSViaGateway` and `SendTestSMS`: send the
created record to the device, then write `failed` or `sent`. -/
def sendAndMark (env : Env) (w : World) (deviceID : String) (smsMessage : SMSMessage)
    (okCode : Nat) : Option (Nat × World) :=
  match sendSMSToDevice env w deviceID smsMessage with
  | none => none
  | some (w', some err) =>
    some (500, w'.saveSMSIgnored { smsMessage with Status := "failed", ErrorMessage := err })
  | some (w', none) =>
    some (okCode, w'.saveSMSIgnored { smsMessage with Status := "sent" })

/-- `SendSMSViaGateway`; `userID` is `c.Locals("user_id")`. -/
def SendSMSViaGateway (env : Env) (w : World) (now : Int) (userID : Option Nat)
    (body : Option SMSSendRequest) : Option (Nat × World) :=
  match body with
  | none => some (400, w)
  | some req =>
    if !isValidPhoneNumber req.Target then some (400, w)
    else
      let priority := if req.Priority = 0 then 1 else req.Priority
      let adminUserID := if req.IsTestMessage then userID else none
      match findBestDeviceForSMS w.db req.Target req.Country req.Operator with
      | (_, _, some _) => some (503, w)
      | (some device, some simCard, none) =>
        let scheduledAt :=
          if req.ScheduledAt ≠ "" then env.parseRFC3339 req.ScheduledAt else none
        let smsMessage : SMSMessage :=
          { DeviceID := device.DeviceID, Kind := "outgoing", Target := req.Target,
            Message := req.Message, SimSlot := (simCard.ID : Int), Status := "pending",
            Priority := priority, ScheduledAt := scheduledAt,
            IsTestMessage := req.IsTestMessage, AdminUserID := adminUserID,
            Timestamp := now }
        match w.createSMS smsMessage with
        | Except.error _ => some (500, w)
        | Except.ok (w1, row) => sendAndMark env w1 device.DeviceID row 200
      | _ => none

/-- `SendTestSMS`. -/
def SendTestSMS (env : Env) (w : World) (now : Int) (userID : Option Nat)
    (body : Option SMSRequest) : Option (Nat × World) :=
  match body with
  | none => some (400, w)
  | some req =>
    match userID with
    | none => some (401, w)
    | some uid =>
      match w.db.firstDeviceByID req.DeviceID with
      | Except.error _ => some (404, w)
      | Except.ok device =>
        if !device.IsReadyForSMS then some (400, w)
        else
          let testMessage : SMSMessage :=
            { DeviceID := device.DeviceID, Kind := "outgoing", Target := req.Target,
              Message := "[TEST] " ++ req.Message, SimSlot := req.SimSlot,
              Status := "pending", Priority := 5, IsTestMessage := true,
              AdminUserID := some uid, Timestamp := now }
          match w.createSMS testMessage with
          | Except.error _ => some (500, w)
          | Except.ok (w1, row) => sendAndMark env w1 device.DeviceID row 200

/-- `SendSMS`; `rnd` is the value of `rand.Intn(999999)`. -/
def SendSMS (env : Env) (w : World) (now : Int) (rnd : Nat) (body : Option SMSRequest) :
    Option (Nat × World) :=
  match body with
  | none => some (400, w)
  | some smsReq =>
    let internalLogID : Int := (rnd : Int) + 100000
    let sms : SMSMessage :=
      { DeviceID := smsReq.DeviceID, Kind := "outgoing", Target := smsReq.Target,
        Message := smsReq.Message, SimSlot := smsReq.SimSlot,
        InternalLogID := internalLogID, Status := "pending", Timestamp := now }
    match w.createSMS sms with
    | Except.error _ => some (500, w)
    | Except.ok (w1, row) =>
      match w1.hubSendMessageToDevice env smsReq.DeviceID
          (Frame.sendSMSCommand smsReq.Target smsReq.SimSlot smsReq.Message internalLogID) with
      | none => none
      | some (w2, some err) =>
        some (500, w2.saveSMSIgnored { row with Status := "failed", ErrorMessage := err })
      | some (w2, none) =>
        some (201, (w2.publish "sms_queue"
          (Frame.queueSMSCommand smsReq.DeviceID smsReq.Target smsReq.Message
            smsReq.SimSlot internalLogID)).1)

/-- `SendUSSD`; `rnd` is the value of `rand.Intn(999999)`. -/
def SendUSSD (env : Env) (w : World) (now : Int) (rnd : Nat) (body : Option USSDRequest) :
    Option (Nat × World) :=
  match body with
  | none => some (400, w)
  | some ussdReq =>
    let internalLogID : Int := (rnd : Int) + 100000
    let ussd : USSDCommand :=
      { DeviceID := ussdReq.DeviceID, USSDCode := ussdReq.USSDCode,
        SimSlot := ussdReq.SimSlot, InternalLogID := internalLogID, Status := "pending",
        Timestamp := now }
    match w.createUSSD ussd with
    | Except.error _ => some (500, w)
    | Except.ok (w1, row) =>
      match w1.hubSendMessageToDevice env ussdReq.DeviceID
          (Frame.ussdCommand ussdReq.USSDCode ussdReq.SimSlot internalLogID) with
      | none => none
      | some (w2, some err) =>
        some (500, w2.saveUSSDIgnored { row with Status := "failed", ErrorMessage := err })
      | some (w2, none) =>
        some (201, (w2.publish "ussd_queue"
          (Frame.queueUSSDCommand ussdReq.DeviceID ussdReq.USSDCode ussdReq.SimSlot
            internalLogID)).1)

/-- `DiscoverPhoneNumber`; `rnd` is the value of `rand.Intn(999999)`. -/
def DiscoverPhoneNumber (env : Env) (w : World) (rnd : Nat) (body : Option USSDRequest) :
    Option (Nat × World) :=
  match body with
  | none => some (400, w)
  | some phoneReq =>
    let internalLogID : Int := (rnd : Int) + 100000
    match w.hubSendMessageToDevice env phoneReq.DeviceID
        (Frame.discoverPhoneNumber phoneReq.SimSlot phoneReq.USSDCode internalLogID) with
    | none => none
    | some (w1, some _) => some (500, w1)
    | some (w1, none) => some (201, w1)

/-- The assignments `ProcessDeliveryReport` makes to the record it found. -/
def DeliveryReportBody.applyTo (dlr : DeliveryReportBody) (smsMessage : SMSMessage)
    (now : Int) : SMSMessage :=
  { smsMessage with
    Status := dlr.Status
    DeliveryReport := dlr.DeliveryReport
    ErrorMessage := dlr.ErrorMessage
    DeliveredAt := if dlr.Status = "delivered" then some now else smsMessage.DeliveredAt }

/-- `ProcessDeliveryReport`; the publish it starts in a goroutine is taken
to run at once. -/
def ProcessDeliveryReport (w : World) (now : Int) (body : Option DeliveryReportBody) :
    Nat × World :=
  match body with
  | none => (400, w)
  | some dlr =>
    match w.db.firstSMS dlr.DeviceID dlr.InternalLogID with
    | Except.error _ => (404, w)
    | Except.ok smsMessage =>
      let updated : SMSMessage := dlr.applyTo smsMessage now
      match w.saveSMS updated with
      | Except.error _ => (500, w)
      | Except.ok w1 =>
        (200, (w1.publish "deliveryreport"
          (Frame.queueDeliveryReport updated.ID dlr.DeviceID updated.Target dlr.Status
            dlr.DeliveryReport dlr.ErrorMessage updated.DeliveredAt updated.IsTestMessage
            dlr.Timestamp)).1)

/-! ## Client session (`websocket/manager.go`)

A handler of the read path acts on the client at address `p`; the message
body is `none` when `json.Unmarshal` fails on it.  The result is the world
afterwards and the returned error (`none` is `nil`), or `none` when the
handler panics. -/

/-- `types.AuthRequest`. -/
structure AuthRequest where
  ConnectKey : String
deriving DecidableEq, Repr

/-- `types.SIMCardInfo`. -/
structure SIMCardInfo where
  Identifier : String := ""
  IMSI : String := ""
  IMEI : String := ""
  Operator : String := ""
  PhoneNumber : String := ""
  SignalStrength : Int := 0
  NetworkType : String := ""
  MCC : String := ""
  MNC : String := ""
  IsActive : Bool := false
deriving DecidableEq, Repr

/-- `types.DeviceRegistrationPayload` (without the coordinates). -/
structure DeviceRegistrationPayload where
  DeviceID : String
  DeviceName : String := ""
  Model : String := ""
  AndroidVersion : String := ""
  AppVersion : String := ""
  BatteryLevel : Int := 0
  BatteryStatus : String := ""
  Timestamp : Int := 0
  SIMCards : List SIMCardInfo := []
deriving DecidableEq, Repr

/-- `types.IncomingSMS`. -/
structure IncomingSMS where
  From : String
  Message : String
  Timestamp : Int := 0
deriving DecidableEq, Repr

/-- `types.SMSDeliveryReport`. -/
structure SMSDeliveryReport where
  ID : Int
  Stat : String
  SimSlot : Int := 0
  Sub : Int := 0
  Dlvrd : Int := 0
  SubmitDate : String := ""
  DoneDate : String := ""
  Err : String := ""
  Text : String := ""
deriving DecidableEq, Repr

/-- `types.USSDResult`. -/
structure USSDResult where
  InternalLogID : Int
  Success : Bool
  Result : String := ""
  ErrorMessage : String := ""
  Timestamp : Int := 0
deriving DecidableEq, Repr

/-- `types.PhoneNumberResult`. -/
structure PhoneNumberResult where
  InternalLogID : Int
  Success : Bool
  PhoneNumber : String := ""
  ErrorMessage : String := ""
  Timestamp : Int := 0
deriving DecidableEq, Repr

/-- `types.ClientAlarm`. -/
structure ClientAlarm where
  AlarmType : String
  Message : String
  Timestamp : Int := 0
deriving DecidableEq, Repr

/-- An inbound frame as `handleMessage` sees it: an envelope that does not
decode, or its type tag with the decoded body. -/
inductive Inbound where
  | malformed
  | auth (data : Option AuthRequest)
  | deviceRegistration (data : Option DeviceRegistrationPayload)
  | deviceStatus (data : Option DeviceRegistrationPayload)
  | incomingSMS (data : Option IncomingSMS)
  | smsDeliveryReport (data : Option SMSDeliveryReport)
  | ussdResult (data : Option USSDResult)
  | phoneNumberResult (data : Option PhoneNumberResult)
  | alarm (data : Option ClientAlarm)
  | unknown (tag : String)
deriving DecidableEq, Repr

/-- The error `json.Unmarshal` returns. -/
def unmarshalError : String := "json: cannot unmarshal"

/-- `Client.sendMessage`. -/
def World.clientSendMessage (env : Env) (w : World) (p : Ptr) (message : Frame) :
    Option (World × Option String) :=
  match (w.hub.heap p).Send.trySend (env.jsonMarshal message) with
  | SendResult.panicked => none
  | SendResult.sent ch => some ({ w with hub := w.hub.setSend p ch }, none)
  | SendResult.full => some (w, some "client send channel is full")

/-- `Client.handleAuth`. -/
def World.handleAuth (env : Env) (w : World) (p : Ptr) (now : Int)
    (data : Option AuthRequest) : Option (World × Option String) :=
  match data with
  | none => some (w, some unmarshalError)
  | some authReq =>
    match w.db.queryError with
    | some err => some (w, some err)
    | none =>
      match w.db.devices.find? (fun d => decide (d.ConnectKey = authReq.ConnectKey)) with
      | none => w.clientSendMessage env p (Frame.authResponse false "" "" "")
      | some device =>
        let w1 : World :=
          { w with hub := w.hub.store p { w.hub.heap p with DeviceID := device.DeviceID } }
        let w2 : World :=
          match w1.db.saveDevice { device with LastSeen := now } with
          | Except.error _ => w1
          | Except.ok db' => { w1 with db := db' }
        w2.clientSendMessage env p
          (Frame.authResponse true device.SiteName device.GroupName device.DeviceName)

/-- `Client.updateSIMCards`: the loop over the reported SIM cards. -/
def createSIMs (deviceID : String) : List SIMCardInfo → DB → Except String DB
  | [], db => Except.ok db
  | simInfo :: rest, db =>
    match db.createSIM
        { ID := 0, DeviceID := deviceID, SignalStrength := simInfo.SignalStrength,
          IsActive := simInfo.IsActive, IsEnabled := false,
          Identifier := simInfo.Identifier, IMSI := simInfo.IMSI, IMEI := simInfo.IMEI,
          Operator := simInfo.Operator, PhoneNumber := simInfo.PhoneNumber,
          NetworkType := simInfo.NetworkType, MCC := simInfo.MCC, MNC := simInfo.MNC } with
    | Except.error e => Except.error e
    | Except.ok db' => createSIMs deviceID rest db'

/-- `Client.updateSIMCards`. -/
def updateSIMCards (db : DB) (deviceID : String) (simCards : List SIMCardInfo) :
    Except String DB :=
  createSIMs deviceID simCards (db.deleteSIMs deviceID)

/-- `Client.saveDeviceStatus`. -/
def saveDeviceStatus (db : DB) (payload : DeviceRegistrationPayload) : Except String DB :=
  db.createStatus
    { DeviceID := payload.DeviceID, BatteryLevel := payload.BatteryLevel,
      BatteryStatus := payload.BatteryStatus, Timestamp := payload.Timestamp }

/-- Put the outcome of a sequence of store calls back into the world: the
store reached, and the error if one was returned. -/
def World.withStore (w : World) (r : Except String DB) : World × Option String :=
  match r with
  | Except.error e => (w, some e)
  | Except.ok db' => ({ w with db := db' }, none)

/-- `Client.handleDeviceRegistration`. -/
def World.handleDeviceRegistration (w : World) (now : Int)
    (data : Option DeviceRegistrationPayload) : World × Option String :=
  match data with
  | none => (w, some unmarshalError)
  | some payload =>
    match w.db.firstDeviceByID payload.DeviceID with
    | Except.error e => (w, some e)
    | Except.ok device =>
      match w.db.saveDevice
          { device with
            DeviceName := payload.DeviceName, Model := payload.Model,
            AndroidVersion := payload.AndroidVersion, AppVersion := payload.AppVersion,
            LastSeen := now } with
      | Except.error e => (w, some e)
      | Except.ok db1 =>
        match updateSIMCards db1 payload.DeviceID payload.SIMCards with
        | Except.error e => ({ w with db := db1 }, some e)
        | Except.ok db2 =>
          match saveDeviceStatus db2 payload with
          | Except.error e => ({ w with db := db2 }, some e)
          | Except.ok db3 => ({ w with db := db3 }, none)

/-- `Client.handleDeviceStatus`. -/
def World.handleDeviceStatus (w : World) (data : Option DeviceRegistrationPayload) :
    World × Option String :=
  match data with
  | none => (w, some unmarshalError)
  | some payload =>
    match updateSIMCards w.db payload.DeviceID payload.SIMCards with
    | Except.error e => (w, some e)
    | Except.ok db1 =>
      match saveDeviceStatus db1 payload with
      | Except.error e => ({ w with db := db1 }, some e)
      | Except.ok db2 => ({ w with db := db2 }, none)

/-- `Client.handleIncomingSMS`. -/
def World.handleIncomingSMS (w : World) (p : Ptr) (data : Option IncomingSMS) :
    World × Option String :=
  match data with
  | none => (w, some unmarshalError)
  | some incomingSMS =>
    match w.createSMS
        { DeviceID := (w.hub.heap p).DeviceID, Kind := "incoming",
          From := incomingSMS.From, Message := incomingSMS.Message,
          Timestamp := incomingSMS.Timestamp } with
    | Except.error e => (w, some e)
    | Except.ok (w1, _) =>
      w1.publish "sms_queue"
        (Frame.queueIncomingSMS (w.hub.heap p).DeviceID incomingSMS.From incomingSMS.Message
          incomingSMS.Timestamp)

/-- The `fmt.Sprintf` of `handleSMSDeliveryReport`. -/
def deliveryReportText (dlr : SMSDeliveryReport) : String :=
  "sub:" ++ toString dlr.Sub ++ " dlvrd:" ++ toString dlr.Dlvrd ++ " submit_date:" ++
    dlr.SubmitDate ++ " done_date:" ++ dlr.DoneDate ++ " stat:" ++ dlr.Stat ++ " err:" ++
    dlr.Err

/-- `Client.handleSMSDeliveryReport`. -/
def World.handleSMSDeliveryReport (w : World) (p : Ptr) (data : Option SMSDeliveryReport) :
    World × Option String :=
  match data with
  | none => (w, some unmarshalError)
  | some dlr =>
    match w.db.firstSMS (w.hub.heap p).DeviceID dlr.ID with
    | Except.error e => (w, some e)
    | Except.ok sms =>
      match w.saveSMS
          { sms with Status := dlr.Stat, DeliveryReport := deliveryReportText dlr } with
      | Except.error e => (w, some e)
      | Except.ok w1 => (w1, none)

/-- `Client.handleUSSDResult`. -/
def World.handleUSSDResult (w : World) (p : Ptr) (data : Option USSDResult) :
    World × Option String :=
  match data with
  | none => (w, some unmarshalError)
  | some ussdResult =>
    match w.db.firstUSSD (w.hub.heap p).DeviceID ussdResult.InternalLogID with
    | Except.error e => (w, some e)
    | Except.ok ussd =>
      match w.saveUSSD
          { ussd with
            Success := ussdResult.Success, Result := ussdResult.Result,
            ErrorMessage := ussdResult.ErrorMessage, Status := "completed",
            Timestamp := ussdResult.Timestamp } with
      | Except.error e => (w, some e)
      | Except.ok w1 => (w1, none)

/-- `Client.handlePhoneNumberResult`. -/
def World.handlePhoneNumberResult (w : World) (p : Ptr) (data : Option PhoneNumberResult) :
    World × Option String :=
  match data with
  | none => (w, some unmarshalError)
  | some phoneResult =>
    match w.db.firstSIM (w.hub.heap p).DeviceID phoneResult.InternalLogID with
    | Except.error e => (w, some e)
    | Except.ok simCard =>
      if phoneResult.Success then
        w.withStore (w.db.saveSIM { simCard with PhoneNumber := phoneResult.PhoneNumber })
      else (w, none)

/-- `Client.handleClientAlarm`. -/
def World.handleClientAlarm (w : World) (p : Ptr) (data : Option ClientAlarm) :
    World × Option String :=
  match data with
  | none => (w, some unmarshalError)
  | some clientAlarm =>
    match w.db.createAlarm
        { DeviceID := (w.hub.heap p).DeviceID, Kind := "client",
          AlarmType := clientAlarm.AlarmType, Message := clientAlarm.Message,
          Severity := "medium", Timestamp := clientAlarm.Timestamp } with
    | Except.error e => (w, some e)
    | Except.ok db1 =>
      ({ w with db := db1 } : World).publish "alarm_queue"
        (Frame.queueAlarm (w.hub.heap p).DeviceID clientAlarm.AlarmType clientAlarm.Message
          "medium")

/-- `Client.handleMessage`. -/
def World.handleMessage (env : Env) (w : World) (p : Ptr) (now : Int) (msg : Inbound) :
    Option (World × Option String) :=
  match msg with
  | Inbound.malformed => some (w, some unmarshalError)
  | Inbound.auth data => w.handleAuth env p now data
  | Inbound.deviceRegistration data => some (w.handleDeviceRegistration now data)
  | Inbound.deviceStatus data => some (w.handleDeviceStatus data)
  | Inbound.incomingSMS data => some (w.handleIncomingSMS p data)
  | Inbound.smsDeliveryReport data => some (w.handleSMSDeliveryReport p data)
  | Inbound.ussdResult data => some (w.handleUSSDResult p data)
  | Inbound.phoneNumberResult data => some (w.handlePhoneNumberResult p data)
  | Inbound.alarm data => some (w.handleClientAlarm p data)
  | Inbound.unknown _ => some (w, none)

/-- The frame is an `auth` message. -/
def Inbound.isAuth : Inbound → Bool
  | Inbound.auth _ => true
  | _ => false

/-- The read loop of `ReadPump` over the frames received before the read
error that ends it: every frame is handled, a handler's error is logged and
dropped. -/
def World.handleMessages (env : Env) (p : Ptr) : World → List (Int × Inbound) → Option World
  | w, [] => some w
  | w, (now, msg) :: rest =>
    match w.handleMessage env p now msg with
    | none => none
    | some (w', _) => World.handleMessages env p w' rest

/-! ## Lifecycle of the SMS records -/

/-- The calls that create or update SMS command records: the three
submission handlers, a delivery report arriving on the connection at address
`p`, and a delivery report arriving over HTTP. -/
inductive LifecycleEvent where
  | sendSMS (now : Int) (rnd : Nat) (body : Option SMSRequest)
  | sendSMSViaGateway (now : Int) (userID : Option Nat) (body : Option SMSSendRequest)
  | sendTestSMS (now : Int) (userID : Option Nat) (body : Option SMSRequest)
  | deviceReport (p : Ptr) (data : Option SMSDeliveryReport)
  | httpReport (now : Int) (body : Option DeliveryReportBody)
deriving DecidableEq, Repr

/-- The status string a delivery report carries. -/
def LifecycleEvent.reported : LifecycleEvent → Option String
  | LifecycleEvent.deviceReport _ (some dlr) => some dlr.Stat
  | LifecycleEvent.httpReport _ (some dlr) => some dlr.Status
  | _ => none

/-- One call, on the world it finds (`none` when the Hub panics). -/
def World.lifecycleStep (env : Env) (w : World) : LifecycleEvent → Option World
  | LifecycleEvent.sendSMS now rnd body => (SendSMS env w now rnd body).map Prod.snd
  | LifecycleEvent.sendSMSViaGateway now userID body =>
    (SendSMSViaGateway env w now userID body).map Prod.snd
  | LifecycleEvent.sendTestSMS now userID body =>
    (SendTestSMS env w now userID body).map Prod.snd
  | LifecycleEvent.deviceReport p data => some (w.handleSMSDeliveryReport p data).1
  | LifecycleEvent.httpReport now body => some (ProcessDeliveryReport w now body).2

/-- A sequence of calls, one after the other. -/
def World.lifecycleRun (env : Env) : World → List LifecycleEvent → Option World
  | w, [] => some w
  | w, e :: rest =>
    match w.lifecycleStep env e with
    | none => none
    | some w' => World.lifecycleRun env w' rest

/-- Every SMS record has a status that `ok` admits. -/
def DB.StatusOK (ok : String → Prop) (db : DB) : Prop := ∀ r ∈ db.sms_messages, ok r.Status

/-- Every row of the SMS table was numbered by the table's sequence. -/
def DB.SMSSeqOK (db : DB) : Prop := ∀ r ∈ db.sms_messages, r.ID ≤ db.sms_seq

/-- `getCountryFromPhoneNumber` with the `range` over `countryMap` producing
the entries in the order `order`. -/
def getCountryFromPhoneNumberIn (order : List (String × String)) (phoneNumber : String) :
    String :=
  if !hasPrefix phoneNumber "+" then "" else countryLoop phoneNumber order

/-! ## Concrete worlds -/

/-- The `type` tag of a frame. -/
def Frame.tag : Frame → String
  | Frame.authResponse _ _ _ _ => "auth_response"
  | Frame.sendSMSCommand _ _ _ _ => "send_sms"
  | Frame.gatewaySMS _ _ _ _ => "send_sms"
  | Frame.ussdCommand _ _ _ => "ussd_command"
  | Frame.discoverPhoneNumber _ _ _ => "discover_phone_number"
  | Frame.queueSMSCommand _ _ _ _ _ => "send_sms"
  | Frame.queueUSSDCommand _ _ _ _ => "ussd_command"
  | Frame.queueIncomingSMS _ _ _ _ => "incoming_sms"
  | Frame.queueAlarm _ _ _ _ => "alarm"
  | Frame.queueDeliveryReport _ _ _ _ _ _ _ _ _ => "delivery_report"

/-- Surroundings for the concrete runs: a frame is rendered as its tag and
no time string parses. -/
def sampleEnv : Env := { jsonMarshal := Frame.tag, parseRFC3339 := fun _ => none }

/-- The store `dbBattery`, an empty Hub and `wsHub` pointing at it. -/
def worldNoConnection : World :=
  { db := dbBattery, hub := NewHub, wsHub := true, queueError := none, trace := [] }

/-- One ready device `DEV1` with connect-key `K1` and a usable SIM, and a
second device `DEV2` with connect-key `K2`. -/
def dbKeys : DB :=
  { sites := [{ ID := 1, Country := "TR" }]
    device_groups := [{ ID := 1, SiteID := 1, Operator := "Turkcell" }]
    devices := [{ deviceRow 1 "DEV1" 80 3 100 with
        ConnectKey := "K1", DeviceName := "one", SiteName := "site", GroupName := "group" },
      { deviceRow 2 "DEV2" 70 3 100 with ConnectKey := "K2", DeviceName := "two" }]
    sim_cards := [simRow 1 "DEV1" 3 true true]
    queryError := none }

/-- The store `dbKeys`, the Hub `hubTwo` (whose connection at address 1 is
bound to `DEV1`) and `wsHub` pointing at it. -/
def worldConnected : World :=
  { db := dbKeys, hub := hubTwo, wsHub := true, queueError := none, trace := [] }

/-- An SMS record for `DEV1` in state `sent` under the internal log id
100007. -/
def smsOneSent : SMSMessage :=
  { ID := 1, DeviceID := "DEV1", Kind := "outgoing", Target := "+905551112233",
    Message := "hi", InternalLogID := 100007, Status := "sent", Priority := 1 }

/-- A gateway request for the number `+905551112233`. -/
def requestHi : SMSSendRequest := { Target := "+905551112233", Message := "hi" }

/-- A submission through `SendSMS` for `DEV1` (its internal log id is
100007) followed by a report from the connection of `DEV1` with the status
string `DELIVRD`. -/
def eventsDelivrd : List LifecycleEvent :=
  [LifecycleEvent.sendSMS 5 7
      (some { DeviceID := "DEV1", Target := "+905551112233", Message := "hi" }),
    LifecycleEvent.deviceReport 1 (some { ID := 100007, Stat := "DELIVRD" })]

/-- The delivery report for `smsOneSent` with status `delivered`. -/
def reportDelivered : DeliveryReportBody :=
  { DeviceID := "DEV1", InternalLogID := 100007, Status := "delivered" }

/-- The world `worldConnected` with the record `smsOneSent` in its store. -/
def worldOneSent : World :=
  { worldConnected with db := { dbKeys with sms_messages := [smsOneSent], sms_seq := 1 } }

/-- The store `dbKeys` and a Hub in which the client at address 1, fresh
from `NewClient`, has just been registered. -/
def worldRegistered : World :=
  { db := dbKeys, hub := hubFresh.handleRegister 1, wsHub := false, queueError := none,
    trace := [] }

/-! ## Statistics readers (`websocket/manager.go`) -/

/-- Go `devices[k] = true` on a `map[string]bool`, kept as the list of its
keys. -/
def setInsert (m : List String) (k : String) : List String :=
  if k ∈ m then m else m ++ [k]

/-- Go `deviceStats[k]++` on a `map[string]int` (an absent key reads 0). -/
def countIncr : List (String × Nat) → String → List (String × Nat)
  | [], k => [(k, 1)]
  | e :: rest, k => if e.1 = k then (e.1, e.2 + 1) :: rest else e :: countIncr rest k

/-- Go `v, ok := m[k]` on a `map[string]int` (`none` when `ok` is false). -/
def countLookup (m : List (String × Nat)) (k : String) : Option Nat :=
  (m.find? (fun e => decide (e.1 = k))).map Prod.snd

/-- `Hub.GetActiveChannelsCount`. -/
def Hub.GetActiveChannelsCount (h : Hub) : Nat :=
  (h.Clients.foldl (fun devices e =>
    if (h.heap e.2).DeviceID ≠ "" then setInsert devices (h.heap e.2).DeviceID
    else devices) []).length

/-- `Hub.GetChannelStats`. -/
def Hub.GetChannelStats (h : Hub) : List (String × Nat) :=
  h.Clients.foldl (fun deviceStats e =>
    if (h.heap e.2).DeviceID ≠ "" then countIncr deviceStats (h.heap e.2).DeviceID
    else deviceStats) []

/-- The device ids the registered connections are bound to, one per
connection (the empty string for a connection that has not authenticated). -/
def Hub.boundDeviceIDs (h : Hub) : List String :=
  h.Clients.map (fun e => (h.heap e.2).DeviceID)

/-- The connection part of `WebSocketHandler` (`handlers/websocket.go`):
`client := NewClient(conn, Hub)` puts a new client object (at address `p`,
with the identity token `id` drawn by `uuid.New`) on the heap and
`Hub.Register <- client` hands it to `Hub.Run`. -/
def World.connect (w : World) (p : Ptr) (id : String) : World :=
  { w with hub := (w.hub.store p (NewClient id)).handleRegister p }

/-- The store `dbKeys` and an empty Hub. -/
def worldEmptyHub : World :=
  { db := dbKeys, hub := NewHub, wsHub := false, queueError := none, trace := [] }

/-! ## Cost estimate (`handlers/sms_gateway.go`) -/

/-- A Go `int` (64 bits) holding the mathematical value `x`: arithmetic wraps
around. -/
def wrapInt (x : Int) : Int := (x + 2 ^ 63) % 2 ^ 64 - 2 ^ 63

/-- Round to the nearest integer, ties to the even one. -/
def roundHalfEven (y : ℚ) : Int :=
  let f := ⌊y⌋
  if y - f < 1 / 2 then f
  else if 1 / 2 < y - f then f + 1
  else if f % 2 = 0 then f else f + 1

/-- The `float64` nearest to the number `x` (IEEE 754 binary64, round to
nearest, ties to even), given as the rational number it denotes: `x` is
scaled into the binade `[2^52, 2^53)`, rounded to an integer significand and
scaled back.  This is the value of a constant or of `float64(i)` with the
value `x`, and the result of a `float64` operation whose exact result is
`x`.  Exponent range is not modelled: the values met here lie between
`2^-5` and `2^62`, far from overflow and from the subnormal range. -/
def float64 (x : ℚ) : ℚ :=
  if x = 0 then 0
  else
    let e := Int.log 2 |x| - 52
    (roundHalfEven (x / 2 ^ e) : ℚ) * 2 ^ e

/-- `calculateSMSCost`.  `/` on Go integers truncates toward zero; the
returned `float64` is given as the rational number it denotes. -/
def calculateSMSCost (target : String) (messageLength : Int) : ℚ :=
  let units := Int.tdiv (wrapInt (messageLength + 159)) 160
  let baseCost : ℚ := float64 0.05
  let baseCost :=
    if hasPrefix target "+" && !hasPrefix target "+90" then float64 (baseCost * float64 3.0)
    else baseCost
  float64 (float64 (units : ℚ) * baseCost)

/-- The cost as the specification words it, in exact arithmetic:
`units * base * m` with `units = ceil(n / 160)`, `base = 0.05`, and `m = 1`
for a target that starts with `+90`, `m = 3` for another one. -/
def exactSMSCost (target : String) (n : Int) : ℚ :=
  ((⌈(n : ℚ) / 160⌉ : Int) : ℚ) * (5 / 100) * (if hasPrefix target "+90" then 1 else 3)

/-- The string `cleaned` that `isValidPhoneNumber` computes from its
argument: spaces, `-`, `(` and `)` removed. -/
def cleanedPhoneNumber (phoneNumber : String) : String :=
  ⟨removeChar ')' (removeChar '(' (removeChar '-' (removeChar ' ' phoneNumber.data)))⟩

/-- ASCII decimal digit. -/
def isASCIIDigit (c : Char) : Prop := '0' ≤ c ∧ c ≤ '9'

/-- A ready device with a usable SIM that belongs to no device group
(`device_group_id` is NULL), in a store that also holds a site and a group. -/
def dbUngrouped : DB :=
  { sites := [{ ID := 1, Country := "TR" }]
    device_groups := [{ ID := 1, SiteID := 1, Operator := "Turkcell" }]
    devices := [{ deviceRow 1 "LONE" 80 3 100 with DeviceGroupID := none }]
    sim_cards := [simRow 1 "LONE" 3 true true]
    queryError := none }

/-! ## Records touched by the handlers of a session -/

/-- Primary keys: within a table the `id` values are pairwise distinct. -/
def DB.PrimaryKeys (db : DB) : Prop :=
  (db.devices.map (fun r => r.ID)).Nodup ∧ (db.sim_cards.map (fun r => r.ID)).Nodup ∧
  (db.sms_messages.map (fun r => r.ID)).Nodup ∧ (db.ussd_commands.map (fun r => r.ID)).Nodup

/-- The rows of the device-keyed tables that belong to devices other than
`key`, table by table and in stored order. -/
def DB.rowsOfOthers (db : DB) (key : String) :
    List Device × List SIMCard × List SMSMessage × List USSDCommand × List DeviceStatus ×
      List Alarm :=
  (db.devices.filter (fun r => decide (r.DeviceID ≠ key)),
    db.sim_cards.filter (fun r => decide (r.DeviceID ≠ key)),
    db.sms_messages.filter (fun r => decide (r.DeviceID ≠ key)),
    db.ussd_commands.filter (fun r => decide (r.DeviceID ≠ key)),
    db.device_statuses.filter (fun r => decide (r.DeviceID ≠ key)),
    db.alarms.filter (fun r => decide (r.DeviceID ≠ key)))

/-- The device id a frame carries in its payload: that of a decoded
`device_registration` or `device_status` body, empty for every other frame. -/
def Inbound.payloadDeviceID : Inbound → String
  | Inbound.deviceRegistration (some payload) => payload.DeviceID
  | Inbound.deviceStatus (some payload) => payload.DeviceID
  | _ => ""

/-! ## The read loop (`Client.ReadPump`) -/

/-- What `c.Conn.ReadMessage()` returns: a frame, read at the clock reading
`now`, or an error. -/
inductive ReadResult where
  | frame (now : Int) (msg : Inbound)
  | error (err : String)
deriving DecidableEq, Repr

/-- The session of the client at one address: the world it acts on, its
`LastSeen`, the lines `ReadPump` and `handleMessage` wrote with `log.Printf`,
and whether the deferred function of `ReadPump` has sent the client on
`Hub.Unregister` and has closed the transport. -/
structure Session where
  world : World
  LastSeen : Int
  logs : List String
  unregisterSent : Bool
  connClosed : Bool

/-- The line the `default` branch of `handleMessage` logs. -/
def unknownTypeLog : Inbound → List String
  | Inbound.unknown tag => ["Unknown message type: " ++ tag]
  | _ => []

/-- The line `ReadPump` logs for the error `handleMessage` returned. -/
def handlerErrorLog (id : String) : Option String → List String
  | none => []
  | some err => ["Error handling message from client " ++ id ++ ": " ++ err]

/-- `Client.ReadPump` for the client at address `p`, run over the results
of its successive `ReadMessage` calls; when the results are used up the loop
is waiting in `ReadMessage`.  A read error leaves the loop and runs the
deferred function: the client goes to `Hub.Run` on `Unregister` and the
transport is closed. -/
def ReadPump (env : Env) (p : Ptr) : Session → List ReadResult → Option Session
  | s, [] => some s
  | s, ReadResult.error err :: _ =>
    match s.world.hub.handleUnregister p with
    | none => none
    | some hub' =>
      some { s with
        world := { s.world with hub := hub' }
        logs := s.logs ++
          ["WebSocket read error for client " ++ (s.world.hub.heap p).ID ++ ": " ++ err]
        unregisterSent := true
        connClosed := true }
  | s, ReadResult.frame now msg :: rest =>
    match s.world.handleMessage env p now msg with
    | none => none
    | some (w', err) =>
      ReadPump env p
        { s with
          world := w'
          LastSeen := now
          logs := s.logs ++ unknownTypeLog msg ++
            handlerErrorLog (s.world.hub.heap p).ID err } rest

/-- The type tag of the frame is not one `handleMessage` knows. -/
def Inbound.isUnknown : Inbound → Bool
  | Inbound.unknown _ => true
  | _ => false

/-- The envelope of the frame, or its body, does not decode. -/
def Inbound.undecodable : Inbound → Bool
  | Inbound.malformed => true
  | Inbound.auth none => true
  | Inbound.deviceRegistration none => true
  | Inbound.deviceStatus none => true
  | Inbound.incomingSMS none => true
  | Inbound.smsDeliveryReport none => true
  | Inbound.ussdResult none => true
  | Inbound.phoneNumberResult none => true
  | Inbound.alarm none => true
  | _ => false

/-- The frame has a known type and a body that decodes. -/
def Inbound.wellFormed (msg : Inbound) : Bool := !msg.isUnknown && !msg.undecodable

/-- The handler of the frame publishes to the event queue. -/
def Inbound.publishes : Inbound → Bool
  | Inbound.incomingSMS _ => true
  | Inbound.alarm _ => true
  | _ => false

/-- A session on `worldRegistered`, about to read its first frame. -/
def sessionStart : Session :=
  { world := worldRegistered, LastSeen := 0, logs := [], unregisterSent := false,
    connClosed := false }

/-! ## The event loop of the Hub as a step function -/

/-- What `Hub.Run` receives on its four channels, and the assignment
`c.DeviceID = device.DeviceID` a handshake makes on a client. -/
inductive HubEvent where
  | register (p : Ptr)
  | unregister (p : Ptr)
  | broadcast (message : String)
  | sendToDevice (deviceID message : String)
  | bind (p : Ptr) (deviceID : String)
deriving DecidableEq, Repr

/-- One iteration of the `select` of `Hub.Run` (`none` when it panics). -/
def Hub.step (h : Hub) : HubEvent → Option Hub
  | HubEvent.register p => some (h.handleRegister p)
  | HubEvent.unregister p => h.handleUnregister p
  | HubEvent.broadcast message => h.handleBroadcast message
  | HubEvent.sendToDevice deviceID message => h.sendToDevice deviceID message
  | HubEvent.bind p deviceID => some (h.store p { h.heap p with DeviceID := deviceID })

/-- The iterations of `Hub.Run` over a sequence of events. -/
def Hub.run : Hub → List HubEvent → Option Hub
  | h, [] => some h
  | h, ev :: rest =>
    match h.step ev with
    | none => none
    | some h' => Hub.run h' rest

/-- The client an event registers. -/
def HubEvent.registered : HubEvent → Option Ptr
  | HubEvent.register p => some p
  | _ => none

/-- The Hub `NewHub` returns, on a heap where the client object at address
`p` is the one `NewClient` makes with the identity token `ident p`: no client
is registered and every outbound buffer is empty and open. -/
def hubOf (ident : Ptr → String) : Hub :=
  { NewHub with heap := fun p => NewClient (ident p) }

/-- Identity tokens for the concrete runs: `p` letters `c`. -/
def tokenOf (p : Ptr) : String := ⟨List.replicate p 'c'⟩

/-- Two registrations, a handshake, a directed send, a broadcast and the
unregistration of the first client. -/
def eventsTwoClients : List HubEvent :=
  [HubEvent.register 1, HubEvent.register 2, HubEvent.bind 1 "DEV1",
    HubEvent.sendToDevice "DEV1" "m", HubEvent.broadcast "b", HubEvent.unregister 1]

/-- The Hub `hubFull` after a further message for `DEV1`: the connection at
address 1, whose buffer was full, has been evicted and its buffer closed. -/
def hubEvicted : Hub := (hubFull.sendToDevice "DEV1" "x").getD hubFull

/-- A session of the client at address 1 of `hubEvicted`. -/
def sessionEvicted : Session :=
  { world := { worldConnected with hub := hubEvicted }, LastSeen := 0, logs := [],
    unregisterSent := false, connClosed := false }

/-- An `alarm` frame. -/
def alarmLowBattery : Inbound :=
  Inbound.alarm (some { AlarmType := "low_battery", Message := "battery at 5" })

/-- A `device_status` frame that names the device `DEV1` and reports no SIM
card. -/
def statusOfDEV1 : Inbound := Inbound.deviceStatus (some { DeviceID := "DEV1" })

/-! ## Buffer-lifetime invariant -/

/-- The buffer-lifetime invariant of the Hub, for client objects with the
identity tokens `ident` of which those in `seen` have been registered: every
client object carries its token, every registry entry is filed under the
token of its client and belongs to a client that was registered, the keys of
the registry are distinct, every outbound buffer has capacity 256 and holds
at most 256 items, and a buffer is closed exactly when its client was
registered and is no longer in the registry. -/
structure Hub.Lifetime (ident : Ptr → String) (seen : Ptr → Prop) (h : Hub) : Prop where
  ids : ∀ p, (h.heap p).ID = ident p
  entries : ∀ e ∈ h.Clients, e.1 = ident e.2 ∧ seen e.2
  nodup : h.KeysNodup
  cap : ∀ p, (h.heap p).Send.cap = 256 ∧ (h.heap p).Send.buf.length ≤ 256
  closed : ∀ p, (h.heap p).Send.closed = true ↔ (seen p ∧ ∀ e ∈ h.Clients, e.2 ≠ p)

/-- The world `worldRegistered` with the store answering every operation
with an error. -/
def worldStoreDown : World :=
  { worldRegistered with db := { dbKeys with queryError := some "connection refused" } }

/-- The HTTP delivery report for `smsOneSent` with the status string
`DELIVRD`. -/
def reportDELIVRD : DeliveryReportBody :=
  { DeviceID := "DEV1", InternalLogID := 100007, Status := "DELIVRD" }

/-! ## Serialized traces of operations on the registry -/

/-- An operation of one of the concurrent units: an event handled by
`Hub.Run`, a frame handled by the read loop of the session at address `p`
(a handshake when the frame is `auth`), or a read of the statistics. -/
inductive Operation where
  | hub (ev : HubEvent)
  | frame (p : Ptr) (now : Int) (msg : Inbound)
  | stats
deriving DecidableEq, Repr

/-- One operation run to its end (`none` when it panics); a read of the
statistics changes nothing. -/
def World.operate (env : Env) (w : World) : Operation → Option World
  | Operation.hub ev =>
    match w.hub.step ev with
    | none => none
    | some hub' => some { w with hub := hub' }
  | Operation.frame p now msg =>
    match w.handleMessage env p now msg with
    | none => none
    | some (w', _) => some w'
  | Operation.stats => some w

/-- A serialized trace: the operations one after the other. -/
def World.operateAll (env : Env) : World → List Operation → Option World
  | w, [] => some w
  | w, op :: rest =>
    match w.operate env op with
    | none => none
    | some w' => World.operateAll env w' rest

/-- After the registration that leads to `worldRegistered`: the handshake
of the connection at address 1 with the connect-key of `DEV1`, then 256
messages for `DEV1`, none of which is taken from the buffer of the
connection. -/
def operationsFillBuffer : List Operation :=
  Operation.frame 1 5 (Inbound.auth (some { ConnectKey := "K1" })) ::
    List.replicate 256 (Operation.hub (HubEvent.sendToDevice "DEV1" "m"))

/-! ## Channel and map lemmas -/

theorem Chan.trySend_of_room (ch : Chan) (m : String) (hopen : ch.closed = false)
    (hroom : ch.buf.length < ch.cap) :
    ch.trySend m = SendResult.sent { ch with buf := ch.buf ++ [m] } := by
  simp [Chan.trySend, hopen, hroom]

theorem Chan.trySend_of_full (ch : Chan) (m : String) (hopen : ch.closed = false)
    (hfull : ch.cap ≤ ch.buf.length) : ch.trySend m = SendResult.full := by
  simp [Chan.trySend, hopen, Nat.not_lt.mpr hfull]

theorem Chan.close_of_open (ch : Chan) (hopen : ch.closed = false) :
    ch.close = some { ch with closed := true } := by
  simp [Chan.close, hopen]

theorem mapContains_iff (m : List (String × Ptr)) (k : String) :
    mapContains m k = true ↔ ∃ e ∈ m, e.1 = k := by
  simp [mapContains]

theorem mapContains_mapDelete (m : List (String × Ptr)) (k : String) :
    mapContains (mapDelete m k) k = false := by
  rw [Bool.eq_false_iff]
  intro hc
  obtain ⟨e, he, hk⟩ := (mapContains_iff _ _).mp hc
  simp [mapDelete, List.mem_filter] at he
  exact he.2 hk

theorem mapDelete_of_not_contains (m : List (String × Ptr)) (k : String)
    (hk : mapContains m k = false) : mapDelete m k = m := by
  unfold mapDelete
  rw [List.filter_eq_self]
  intro e he
  have : ¬ e.1 = k := fun hek => by
    have := (mapContains_iff m k).mpr ⟨e, he, hek⟩
    simp [hk] at this
  simpa using this

theorem mapDelete_mapInsert (m : List (String × Ptr)) (k : String) (v : Ptr)
    (hk : mapContains m k = false) : mapDelete (mapInsert m k v) k = m := by
  have h1 := mapDelete_of_not_contains m k hk
  unfold mapDelete at h1
  simp only [mapDelete, mapInsert, List.filter_cons, List.filter_filter, Bool.and_self,
    ne_eq, not_true_eq_false, decide_False, Bool.false_eq_true, if_false]
  exact h1

theorem mapContains_mapInsert (m : List (String × Ptr)) (k : String) (v : Ptr) :
    mapContains (mapInsert m k v) k = true := by
  simp [mapContains, mapInsert]

/-! ## One step on one connection -/

theorem Hub.sendOrEvict_of_room (h : Hub) (p : Ptr) (m : String)
    (hopen : (h.heap p).Send.closed = false)
    (hroom : (h.heap p).Send.buf.length < (h.heap p).Send.cap) :
    h.sendOrEvict p m =
      some (h.setSend p { (h.heap p).Send with buf := (h.heap p).Send.buf ++ [m] }) := by
  simp [Hub.sendOrEvict, Chan.trySend_of_room _ m hopen hroom]

theorem Hub.sendOrEvict_of_full (h : Hub) (p : Ptr) (m : String)
    (hopen : (h.heap p).Send.closed = false)
    (hfull : (h.heap p).Send.cap ≤ (h.heap p).Send.buf.length) :
    h.sendOrEvict p m =
      some { (h.setSend p { (h.heap p).Send with closed := true }) with
        Clients := mapDelete h.Clients (h.heap p).ID } := by
  simp [Hub.sendOrEvict, Chan.trySend_of_full _ m hopen hfull, Chan.close_of_open _ hopen]

theorem Hub.sendOrEvict_total (h : Hub) (p : Ptr) (m : String)
    (hopen : (h.heap p).Send.closed = false) : ∃ h', h.sendOrEvict p m = some h' := by
  by_cases hroom : (h.heap p).Send.buf.length < (h.heap p).Send.cap
  · exact ⟨_, h.sendOrEvict_of_room p m hopen hroom⟩
  · exact ⟨_, h.sendOrEvict_of_full p m hopen (Nat.not_lt.mp hroom)⟩

/-- The loop of `sendToDevice` serves the first entry bound to the device. -/
theorem sendToDeviceLoop_first (h : Hub) (d m : String) (pre post : List (String × Ptr))
    (e : String × Ptr) (hpre : ∀ x ∈ pre, (h.heap x.2).DeviceID ≠ d)
    (hbound : (h.heap e.2).DeviceID = d) :
    sendToDeviceLoop h d m (pre ++ e :: post) = h.sendOrEvict e.2 m := by
  induction pre with
  | nil => simp [sendToDeviceLoop, hbound]
  | cons x xs ih =>
    have hx : (h.heap x.2).DeviceID ≠ d := hpre x (List.mem_cons_self _ _)
    simp only [List.cons_append, sendToDeviceLoop, hx, if_false]
    exact ih (fun y hy => hpre y (List.mem_cons_of_mem _ hy))

/-- Without an entry bound to the device the loop changes nothing. -/
theorem sendToDeviceLoop_no_match (h : Hub) (d m : String) (l : List (String × Ptr))
    (hno : ∀ x ∈ l, (h.heap x.2).DeviceID ≠ d) : sendToDeviceLoop h d m l = some h := by
  induction l with
  | nil => rfl
  | cons x xs ih =>
    have hx : (h.heap x.2).DeviceID ≠ d := hno x (List.mem_cons_self _ _)
    simp only [sendToDeviceLoop, hx, if_false]
    exact ih (fun y hy => hno y (List.mem_cons_of_mem _ hy))

/-- Split a list at the first entry bound to the device. -/
theorem exists_first_bound (h : Hub) (d : String) (l : List (String × Ptr)) :
    (∀ x ∈ l, (h.heap x.2).DeviceID ≠ d) ∨
    ∃ pre e post, l = pre ++ e :: post ∧ (∀ x ∈ pre, (h.heap x.2).DeviceID ≠ d) ∧
      (h.heap e.2).DeviceID = d := by
  induction l with
  | nil => left; simp
  | cons x xs ih =>
    by_cases hx : (h.heap x.2).DeviceID = d
    · right; exact ⟨[], x, xs, rfl, by simp, hx⟩
    · rcases ih with hno | ⟨pre, e, post, hsplit, hpre, hb⟩
      · left
        intro y hy
        rcases List.mem_cons.mp hy with rfl | hy
        · exact hx
        · exact hno y hy
      · right
        refine ⟨x :: pre, e, post, by simp [hsplit], ?_, hb⟩
        intro y hy
        rcases List.mem_cons.mp hy with rfl | hy
        · exact hx
        · exact hpre y hy

/-- On a registry whose connections are open `sendToDevice` does not panic. -/
theorem Hub.sendToDevice_total (h : Hub) (hopen : h.RegisteredOpen) (d m : String) :
    ∃ h', h.sendToDevice d m = some h' := by
  unfold Hub.sendToDevice
  rcases exists_first_bound h d h.Clients with hno | ⟨pre, e, post, hsplit, hpre, hb⟩
  · exact ⟨h, sendToDeviceLoop_no_match h d m _ hno⟩
  · rw [hsplit, sendToDeviceLoop_first h d m pre post e hpre hb]
    exact h.sendOrEvict_total e.2 m (hopen e (by simp [hsplit]))

/-- Deleting the key of an entry of a map removes exactly that entry. -/
theorem mapDelete_split (pre post : List (String × Ptr)) (e : String × Ptr)
    (hnodup : ((pre ++ e :: post).map Prod.fst).Nodup) :
    mapDelete (pre ++ e :: post) e.1 = pre ++ post := by
  have hnd : ∀ x ∈ pre ++ post, x.1 ≠ e.1 := by
    intro x hx hxe
    rw [List.map_append, List.map_cons, List.nodup_append] at hnodup
    obtain ⟨_, hpost, hdisj⟩ := hnodup
    rcases List.mem_append.mp hx with hx | hx
    · exact hdisj (List.mem_map_of_mem Prod.fst hx) (by rw [hxe]; exact List.mem_cons_self _ _)
    · exact (List.nodup_cons.mp hpost).1 (hxe ▸ List.mem_map_of_mem Prod.fst hx)
  have hpre : pre.filter (fun x => decide (x.1 ≠ e.1)) = pre :=
    List.filter_eq_self.mpr (fun x hx => by simpa using hnd x (List.mem_append_left _ hx))
  have hpost : post.filter (fun x => decide (x.1 ≠ e.1)) = post :=
    List.filter_eq_self.mpr (fun x hx => by simpa using hnd x (List.mem_append_right _ hx))
  unfold mapDelete
  rw [List.filter_append, List.filter_cons, hpre, hpost]
  simp

/-- Two entries of a map with the same key are the same entry. -/
theorem entry_eq_of_key_eq (m : List (String × Ptr)) (hnodup : (m.map Prod.fst).Nodup)
    (x y : String × Ptr) (hx : x ∈ m) (hy : y ∈ m) (hxy : x.1 = y.1) : x = y :=
  List.inj_on_of_nodup_map hnodup hx hy hxy

/-- What one `select` does to the Hub, for a client with an open buffer. -/
theorem Hub.sendOrEvict_spec (h : Hub) (p : Ptr) (m : String)
    (hopen : (h.heap p).Send.closed = false) :
    ∃ h1, h.sendOrEvict p m = some h1 ∧
      (∀ q, q ≠ p → h1.heap q = h.heap q) ∧
      h1.heap p = (if h.hasRoom p then (h.heap p).enqueue m else (h.heap p).closeSend) ∧
      h1.Clients = (if h.hasRoom p then h.Clients else mapDelete h.Clients (h.heap p).ID) ∧
      h1.deviceStatus = h.deviceStatus ∧ h1.deviceConnection = h.deviceConnection := by
  by_cases hroom : (h.heap p).Send.buf.length < (h.heap p).Send.cap
  · have hB : h.hasRoom p = true := by simp [Hub.hasRoom, hroom]
    refine ⟨_, h.sendOrEvict_of_room p m hopen hroom, ?_, ?_, ?_, rfl, rfl⟩
    · intro q hq; simp [Hub.setSend, Hub.store, hq]
    · simp [hB, Hub.setSend, Hub.store, Client.enqueue]
    · simp [hB, Hub.setSend, Hub.store]
  · have hB : h.hasRoom p = false := by simp [Hub.hasRoom, hroom]
    refine ⟨_, h.sendOrEvict_of_full p m hopen (Nat.not_lt.mp hroom), ?_, ?_, ?_, rfl, rfl⟩
    · intro q hq; simp [Hub.setSend, Hub.store, hq]
    · simp [hB, Hub.setSend, Hub.store, Client.closeSend]
    · simp [hB]

/-- The room test reads only the client it is asked about. -/
theorem Hub.hasRoom_congr (h g : Hub) (p : Ptr) (hp : g.heap p = h.heap p) :
    g.hasRoom p = h.hasRoom p := by
  unfold Hub.hasRoom; rw [hp]

/-- The Broadcast loop over a duplicate-free list `l` of registry entries
whose clients are filed under their own tokens and have open buffers: it
does not panic, serves every client of `l` (enqueue when there is room,
close otherwise), deletes exactly the entries of `l` without room and leaves
everything else alone. -/
theorem broadcastLoop_spec (msg : String) (l : List (String × Ptr)) :
    ∀ h : Hub, h.KeysNodup → l.Nodup → (∀ e ∈ l, e ∈ h.Clients) →
      (∀ e ∈ l, (h.heap e.2).ID = e.1) → (∀ e ∈ l, (h.heap e.2).Send.closed = false) →
      ∃ h', broadcastLoop msg l h = some h' ∧
        h'.Clients = h.Clients.filter (fun x => !(decide (x ∈ l) && !h.hasRoom x.2)) ∧
        (∀ e ∈ l, h'.heap e.2 =
          if h.hasRoom e.2 then (h.heap e.2).enqueue msg else (h.heap e.2).closeSend) ∧
        (∀ q, (∀ e ∈ l, e.2 ≠ q) → h'.heap q = h.heap q) ∧
        h'.deviceStatus = h.deviceStatus ∧ h'.deviceConnection = h.deviceConnection := by
  induction l with
  | nil =>
    intro h _ _ _ _ _
    exact ⟨h, rfl, by simp, by simp, fun _ _ => rfl, rfl, rfl⟩
  | cons e rest ih =>
    intro h hnodup hl hsub hkey hopen
    have hemem : e ∈ h.Clients := hsub e (List.mem_cons_self _ _)
    have hec : mapContains h.Clients e.1 = true := (mapContains_iff _ _).mpr ⟨e, hemem, rfl⟩
    have herest : e ∉ rest := (List.nodup_cons.mp hl).1
    have hrest : rest.Nodup := (List.nodup_cons.mp hl).2
    have hne1 : ∀ r ∈ rest, r.1 ≠ e.1 := by
      intro r hr h1
      have : r = e := entry_eq_of_key_eq h.Clients hnodup r e
        (hsub r (List.mem_cons_of_mem _ hr)) hemem h1
      exact herest (this ▸ hr)
    have hne2 : ∀ r ∈ rest, r.2 ≠ e.2 := by
      intro r hr h2
      apply hne1 r hr
      rw [← hkey r (List.mem_cons_of_mem _ hr), ← hkey e (List.mem_cons_self _ _), h2]
    have hekey := hkey e (List.mem_cons_self _ _)
    obtain ⟨h1, hstep, hheap, hheape, hcl, hs1, hc1⟩ :=
      h.sendOrEvict_spec e.2 msg (hopen e (List.mem_cons_self _ _))
    rw [hekey] at hcl
    have hcl' : h1.Clients = h.Clients.filter (fun x => h.hasRoom e.2 || decide (x.1 ≠ e.1)) := by
      rw [hcl]
      cases h.hasRoom e.2 <;> simp [mapDelete]
    have hnodup1 : h1.KeysNodup := by
      unfold Hub.KeysNodup
      rw [hcl']
      exact List.Nodup.sublist (List.Sublist.map _ (List.filter_sublist _)) hnodup
    obtain ⟨h', hrun, hC, hH, hO, hs, hc⟩ := ih h1 hnodup1 hrest
      (fun r hr => by
        rw [hcl', List.mem_filter]
        exact ⟨hsub r (List.mem_cons_of_mem _ hr), by simp [hne1 r hr]⟩)
      (fun r hr => by rw [hheap _ (hne2 r hr)]; exact hkey r (List.mem_cons_of_mem _ hr))
      (fun r hr => by rw [hheap _ (hne2 r hr)]; exact hopen r (List.mem_cons_of_mem _ hr))
    refine ⟨h', by simp only [broadcastLoop, hec, hstep, if_true]; exact hrun, ?_, ?_, ?_,
      hs.trans hs1, hc.trans hc1⟩
    · rw [hC, hcl', List.filter_filter]
      apply List.filter_congr
      intro x hx
      by_cases hxe : x = e
      · subst hxe
        cases h.hasRoom x.2 <;> simp [herest]
      · have hx1 : x.1 ≠ e.1 := fun h1 =>
          hxe (entry_eq_of_key_eq h.Clients hnodup x e hx hemem h1)
        by_cases hxr : x ∈ rest
        · have hh := Hub.hasRoom_congr h h1 x.2 (hheap _ (hne2 x hxr))
          simp [hxe, hxr, hx1, hh]
        · simp [hxe, hxr, hx1]
    · intro r hr
      rcases List.mem_cons.mp hr with rfl | hr
      · rw [hO r.2 (fun y hy => hne2 y hy), hheape]
      · rw [hH r hr, Hub.hasRoom_congr h h1 r.2 (hheap _ (hne2 r hr)), hheap _ (hne2 r hr)]
    · intro q hq
      rw [hO q (fun y hy => hq y (List.mem_cons_of_mem _ hy))]
      exact hheap q (fun hqe => hq e (List.mem_cons_self _ _) hqe.symm)

/-! ## Connection registry: claims -/

/-- C1 (amended): on a Hub whose registered connections have open buffers,
`SendMessageToDevice` hands every serialised payload to the Hub loop, which
runs `sendToDevice` without panicking, and the caller receives a nil error,
also when no connection is bound to the device (the Hub is then left
unchanged); the only error it returns is the serialisation error. -/
theorem SendMessageToDevice_returns_nil_after_handover (h : Hub) (hopen : h.RegisteredOpen)
    (d : String) :
    (∀ data, ∃ h', h.sendToDevice d data = some h' ∧
      h.SendMessageToDevice d (Except.ok data) = some (h', none)) ∧
    (∀ data, (∀ e ∈ h.Clients, (h.heap e.2).DeviceID ≠ d) →
      h.SendMessageToDevice d (Except.ok data) = some (h, none)) ∧
    (∀ err, h.SendMessageToDevice d (Except.error err) = some (h, some err)) := by
  refine ⟨fun data => ?_, fun data hno => ?_, fun err => rfl⟩
  · obtain ⟨h', hh'⟩ := h.sendToDevice_total hopen d data
    exact ⟨h', hh', by simp [Hub.SendMessageToDevice, hh']⟩
  · have := sendToDeviceLoop_no_match h d data h.Clients hno
    simp [Hub.SendMessageToDevice, Hub.sendToDevice, this]

/-- C1 witness: the amended statement at `hubTwo` and device `DEV1`. -/
theorem SendMessageToDevice_returns_nil_after_handover_witness :
    hubTwo.RegisteredOpen ∧
    ((∀ data, ∃ h', hubTwo.sendToDevice "DEV1" data = some h' ∧
      hubTwo.SendMessageToDevice "DEV1" (Except.ok data) = some (h', none)) ∧
    (∀ data, (∀ e ∈ hubTwo.Clients, (hubTwo.heap e.2).DeviceID ≠ "DEV1") →
      hubTwo.SendMessageToDevice "DEV1" (Except.ok data) = some (hubTwo, none)) ∧
    (∀ err, hubTwo.SendMessageToDevice "DEV1" (Except.error err) =
      some (hubTwo, some err))) :=
  have hopen : hubTwo.RegisteredOpen := by
    intro e he
    simp [hubTwo] at he
    rcases he with rfl | rfl <;> simp [hubTwo, Chan.make]
  ⟨hopen, SendMessageToDevice_returns_nil_after_handover hubTwo hopen "DEV1"⟩

/-- C1 counterexample: on the empty Hub no connection is bound to `DEV1`,
yet `SendMessageToDevice("DEV1", …)` returns a nil error. -/
theorem SendMessageToDevice_unknown_device_nil_error :
    (∀ e ∈ NewHub.Clients, (NewHub.heap e.2).DeviceID ≠ "DEV1") ∧
    (NewHub.SendMessageToDevice "DEV1" (Except.ok "hi")).map Prod.snd = some none := by
  refine ⟨?_, rfl⟩
  intro e he
  simp [NewHub] at he

/-- C2: when exactly one registered connection (at address `p`) is bound to
device `d`, its buffer is open and has room for two more items, two
successive `sendToDevice` steps for `d` both succeed and leave that buffer
equal to its previous contents followed by `m1` then `m2`; the registry map,
the client's other fields, every other client object and the status cache
are unchanged. -/
theorem sendToDevice_twice_keeps_call_order (h : Hub) (d m1 m2 k : String) (p : Ptr)
    (hmem : (k, p) ∈ h.Clients)
    (hbound : (h.heap p).DeviceID = d)
    (huniq : ∀ e ∈ h.Clients, (h.heap e.2).DeviceID = d → e.2 = p)
    (hopen : (h.heap p).Send.closed = false)
    (hroom : (h.heap p).Send.buf.length + 2 ≤ (h.heap p).Send.cap) :
    ∃ h1 h2, h.sendToDevice d m1 = some h1 ∧ h1.sendToDevice d m2 = some h2 ∧
      (h2.heap p).Send.buf = (h.heap p).Send.buf ++ [m1, m2] ∧
      h2.Clients = h.Clients ∧
      (h2.heap p).Send.closed = false ∧ (h2.heap p).Send.cap = (h.heap p).Send.cap ∧
      (h2.heap p).ID = (h.heap p).ID ∧ (h2.heap p).DeviceID = d ∧
      (∀ q, q ≠ p → h2.heap q = h.heap q) ∧
      h2.deviceStatus = h.deviceStatus ∧ h2.deviceConnection = h.deviceConnection := by
  -- the first entry bound to `d` is at address `p`
  have hfirst : ∀ (g : Hub), g.Clients = h.Clients →
      (∀ q, (g.heap q).DeviceID = (h.heap q).DeviceID) → ∀ m,
      g.sendToDevice d m = g.sendOrEvict p m := by
    intro g hgc hgd m
    unfold Hub.sendToDevice
    rcases exists_first_bound g d g.Clients with hno | ⟨pre, e, post, hsplit, hpre, hb⟩
    · exact absurd (by rw [hgd, hbound]) (hno (k, p) (hgc ▸ hmem))
    · have hep : e.2 = p :=
        huniq e (by rw [← hgc, hsplit]; simp) (by rw [← hgd]; exact hb)
      rw [hsplit, sendToDeviceLoop_first g d m pre post e hpre hb, hep]
  have hroom1 : (h.heap p).Send.buf.length < (h.heap p).Send.cap := by omega
  have e1 := (hfirst h rfl (fun _ => rfl) m1).trans
    (h.sendOrEvict_of_room p m1 hopen hroom1)
  have hdev : ∀ q, ((h.setSend p { (h.heap p).Send with
      buf := (h.heap p).Send.buf ++ [m1] }).heap q).DeviceID = (h.heap q).DeviceID := by
    intro q
    by_cases hq : q = p
    · subst hq; simp [Hub.setSend, Hub.store]
    · simp [Hub.setSend, Hub.store, hq]
  have e2 := (hfirst (h.setSend p { (h.heap p).Send with
      buf := (h.heap p).Send.buf ++ [m1] }) rfl hdev m2).trans
    (Hub.sendOrEvict_of_room _ p m2 (by simp [Hub.setSend, Hub.store, hopen])
      (by simp [Hub.setSend, Hub.store]; omega))
  refine ⟨_, _, e1, e2, ?_, rfl, ?_, ?_, ?_, ?_, ?_, rfl, rfl⟩
  · simp [Hub.setSend, Hub.store]
  · simp [Hub.setSend, Hub.store, hopen]
  · simp [Hub.setSend, Hub.store]
  · simp [Hub.setSend, Hub.store]
  · simp [Hub.setSend, Hub.store, hbound]
  · intro q hq
    simp [Hub.setSend, Hub.store, hq]

/-- C2 witness: two sends to `DEV1` on `hubTwo`. -/
theorem sendToDevice_twice_keeps_call_order_witness :
    ∃ h1 h2, hubTwo.sendToDevice "DEV1" "a" = some h1 ∧ h1.sendToDevice "DEV1" "b" = some h2 ∧
      (h2.heap 1).Send.buf = (hubTwo.heap 1).Send.buf ++ ["a", "b"] ∧
      h2.Clients = hubTwo.Clients ∧
      (h2.heap 1).Send.closed = false ∧ (h2.heap 1).Send.cap = (hubTwo.heap 1).Send.cap ∧
      (h2.heap 1).ID = (hubTwo.heap 1).ID ∧ (h2.heap 1).DeviceID = "DEV1" ∧
      (∀ q, q ≠ 1 → h2.heap q = hubTwo.heap q) ∧
      h2.deviceStatus = hubTwo.deviceStatus ∧
      h2.deviceConnection = hubTwo.deviceConnection :=
  sendToDevice_twice_keeps_call_order hubTwo "DEV1" "a" "b" "c1" 1
    (by simp [hubTwo]) rfl
    (by
      intro e he
      simp [hubTwo] at he
      rcases he with rfl | rfl <;> simp [hubTwo])
    rfl (by simp [hubTwo, Chan.make])

/-- C3: when the connection matched for device `d` (the first registry entry
bound to `d`) has an open outbound buffer of the capacity `NewClient` gives
it, holding 256 items, the `sendToDevice` step removes exactly that entry
from the registry and closes its buffer; the message is enqueued nowhere:
the buffer's contents, every other client object and the status cache are
unchanged. -/
theorem sendToDevice_full_buffer_evicts (h : Hub) (d m : String)
    (pre post : List (String × Ptr)) (e : String × Ptr)
    (hsplit : h.Clients = pre ++ e :: post)
    (hpre : ∀ x ∈ pre, (h.heap x.2).DeviceID ≠ d)
    (hbound : (h.heap e.2).DeviceID = d)
    (hnodup : h.KeysNodup) (hkey : (h.heap e.2).ID = e.1)
    (hopen : (h.heap e.2).Send.closed = false)
    (hcap : (h.heap e.2).Send.cap = (NewClient e.1).Send.cap)
    (hfull : (h.heap e.2).Send.buf.length = 256) :
    ∃ h', h.sendToDevice d m = some h' ∧
      h'.Clients = pre ++ post ∧
      (h'.heap e.2).Send.closed = true ∧
      (h'.heap e.2).Send.buf = (h.heap e.2).Send.buf ∧
      (h'.heap e.2).ID = (h.heap e.2).ID ∧ (h'.heap e.2).DeviceID = d ∧
      (∀ q, q ≠ e.2 → h'.heap q = h.heap q) ∧
      h'.deviceStatus = h.deviceStatus ∧ h'.deviceConnection = h.deviceConnection := by
  have hle : (h.heap e.2).Send.cap ≤ (h.heap e.2).Send.buf.length := by
    rw [hcap, hfull]; simp [NewClient, Chan.make]
  have e0 : h.sendToDevice d m = h.sendOrEvict e.2 m := by
    unfold Hub.sendToDevice
    rw [hsplit, sendToDeviceLoop_first h d m pre post e hpre hbound]
  have e1 := e0.trans (h.sendOrEvict_of_full e.2 m hopen hle)
  refine ⟨_, e1, ?_, ?_, ?_, ?_, ?_, ?_, rfl, rfl⟩
  · show mapDelete h.Clients (h.heap e.2).ID = pre ++ post
    rw [hkey, hsplit]
    exact mapDelete_split pre post e (by rw [← hsplit]; exact hnodup)
  · simp [Hub.setSend, Hub.store]
  · simp [Hub.setSend, Hub.store]
  · simp [Hub.setSend, Hub.store]
  · simp [Hub.setSend, Hub.store, hbound]
  · intro q hq
    simp [Hub.setSend, Hub.store, hq]

/-- C3 witness: a send to `DEV1` on `hubFull`, whose `DEV1` connection holds
256 items. -/
theorem sendToDevice_full_buffer_evicts_witness :
    ∃ h', hubFull.sendToDevice "DEV1" "x" = some h' ∧
      h'.Clients = [] ++ [("c2", 2)] ∧
      (h'.heap 1).Send.closed = true ∧
      (h'.heap 1).Send.buf = (hubFull.heap 1).Send.buf ∧
      (h'.heap 1).ID = (hubFull.heap 1).ID ∧ (h'.heap 1).DeviceID = "DEV1" ∧
      (∀ q, q ≠ 1 → h'.heap q = hubFull.heap q) ∧
      h'.deviceStatus = hubFull.deviceStatus ∧
      h'.deviceConnection = hubFull.deviceConnection :=
  sendToDevice_full_buffer_evicts hubFull "DEV1" "x" [] [("c2", 2)] ("c1", 1)
    rfl (by simp) rfl (by unfold Hub.KeysNodup; decide)
    rfl rfl rfl (List.length_replicate 256 "m")

/-- C4: when the registry holds no entry under the identity token of the
client at `p` and that client's buffer is open, `Register` followed by
`Unregister` succeeds, restores the registry map (so from an empty registry
`GetConnectedClientsCount` is 0 again), closes the client's buffer and
leaves the status cache recording its device id as `offline`. -/
theorem register_then_unregister_restores (h : Hub) (p : Ptr)
    (hfresh : mapContains h.Clients (h.heap p).ID = false)
    (hopen : (h.heap p).Send.closed = false) :
    ∃ h', (h.handleRegister p).handleUnregister p = some h' ∧
      h'.Clients = h.Clients ∧
      (h.Clients = [] → h'.GetConnectedClientsCount = 0) ∧
      (h'.heap p).Send.closed = true ∧
      h'.deviceStatus (h.heap p).DeviceID = some "offline" := by
  have hc : mapContains (h.handleRegister p).Clients ((h.handleRegister p).heap p).ID = true :=
    mapContains_mapInsert _ _ _
  have hcl : ((h.handleRegister p).heap p).Send.close =
      some { (h.heap p).Send with closed := true } := Chan.close_of_open _ hopen
  have hd : mapDelete (h.handleRegister p).Clients ((h.handleRegister p).heap p).ID =
      h.Clients := mapDelete_mapInsert _ _ _ hfresh
  refine ⟨_, by simp only [Hub.handleUnregister, hc, hcl, if_true]; rfl, hd, ?_, ?_, ?_⟩
  · intro hempty
    show (mapDelete (h.handleRegister p).Clients ((h.handleRegister p).heap p).ID).length = 0
    rw [hd, hempty]; rfl
  · simp [Hub.setSend, Hub.store]
  · simp [kvSet, Hub.handleRegister]

/-- C4 witness: registering and unregistering the fresh client of
`hubFresh`. -/
theorem register_then_unregister_restores_witness :
    ∃ h', (hubFresh.handleRegister 1).handleUnregister 1 = some h' ∧
      h'.Clients = hubFresh.Clients ∧
      (hubFresh.Clients = [] → h'.GetConnectedClientsCount = 0) ∧
      (h'.heap 1).Send.closed = true ∧
      h'.deviceStatus (hubFresh.heap 1).DeviceID = some "offline" :=
  register_then_unregister_restores hubFresh 1 rfl rfl

/-- C5: `Unregister` is idempotent: a second `Unregister` of the same client
returns the state the first one produced (registry, client objects with
their closed flags, and status cache); unregistering a client that is not in
the registry changes nothing; and the first `Unregister` of a client whose
buffer is open does not panic. -/
theorem handleUnregister_idempotent (h : Hub) (p : Ptr) :
    (∀ h1, h.handleUnregister p = some h1 → h1.handleUnregister p = some h1) ∧
    (mapContains h.Clients (h.heap p).ID = false → h.handleUnregister p = some h) ∧
    ((h.heap p).Send.closed = false → ∃ h1, h.handleUnregister p = some h1) := by
  have hnot : ∀ g : Hub, mapContains g.Clients (g.heap p).ID = false →
      g.handleUnregister p = some g := by
    intro g hg
    simp [Hub.handleUnregister, hg]
  refine ⟨?_, hnot h, ?_⟩
  · intro h1 hh1
    by_cases hc : mapContains h.Clients (h.heap p).ID = true
    · cases hcl : (h.heap p).Send.close with
      | none => simp [Hub.handleUnregister, hc, hcl] at hh1
      | some ch =>
        simp only [Hub.handleUnregister, hc, hcl, if_true, Option.some.injEq] at hh1
        subst hh1
        apply hnot
        simpa [Hub.setSend, Hub.store] using mapContains_mapDelete h.Clients (h.heap p).ID
    · have hc' : mapContains h.Clients (h.heap p).ID = false := by simpa using hc
      rw [hnot h hc'] at hh1
      cases hh1
      exact hnot h hc'
  · intro hopen
    by_cases hc : mapContains h.Clients (h.heap p).ID = true
    · exact ⟨_, by simp only [Hub.handleUnregister, hc, Chan.close_of_open _ hopen, if_true]; rfl⟩
    · exact ⟨h, hnot h (by simpa using hc)⟩

/-- C6: on a Hub whose registry entries are filed under their clients' own
tokens and whose registered clients have open buffers, the Broadcast step
does not panic; it appends the payload to the buffer of every registered
client that has room and keeps it registered, closes the buffer of every
registered client that has none and removes it, so that afterwards the
registry holds exactly the previously registered entries that had room;
client objects that are not registered and the status cache are unchanged. -/
theorem handleBroadcast_enqueues_or_evicts (h : Hub) (msg : String)
    (hkeys : h.KeysMatch) (hnodup : h.KeysNodup) (hopen : h.RegisteredOpen) :
    ∃ h', h.handleBroadcast msg = some h' ∧
      h'.Clients = h.Clients.filter (fun e => h.hasRoom e.2) ∧
      (∀ e ∈ h.Clients, (h.heap e.2).Send.buf.length < (h.heap e.2).Send.cap →
        h'.heap e.2 = (h.heap e.2).enqueue msg ∧
        (h'.heap e.2).Send.buf = (h.heap e.2).Send.buf ++ [msg] ∧ e ∈ h'.Clients) ∧
      (∀ e ∈ h.Clients, (h.heap e.2).Send.cap ≤ (h.heap e.2).Send.buf.length →
        h'.heap e.2 = (h.heap e.2).closeSend ∧
        (h'.heap e.2).Send.closed = true ∧ e ∉ h'.Clients) ∧
      (∀ q, (∀ e ∈ h.Clients, e.2 ≠ q) → h'.heap q = h.heap q) ∧
      h'.deviceStatus = h.deviceStatus ∧ h'.deviceConnection = h.deviceConnection := by
  obtain ⟨h', hrun, hC, hH, hO, hs, hc⟩ :=
    broadcastLoop_spec msg h.Clients h hnodup (List.Nodup.of_map _ hnodup)
      (fun _ he => he) hkeys hopen
  have hC' : h'.Clients = h.Clients.filter (fun e => h.hasRoom e.2) := by
    rw [hC]
    apply List.filter_congr
    intro x hx
    simp [hx]
  refine ⟨h', hrun, hC', ?_, ?_, hO, hs, hc⟩
  · intro e he hroom
    have hB : h.hasRoom e.2 = true := by simp [Hub.hasRoom, hroom]
    have hE := hH e he
    rw [hB] at hE
    simp only [if_true] at hE
    refine ⟨hE, by rw [hE]; rfl, ?_⟩
    rw [hC', List.mem_filter]
    exact ⟨he, hB⟩
  · intro e he hfull
    have hB : h.hasRoom e.2 = false := by simp [Hub.hasRoom, Nat.not_lt.mpr hfull]
    have hE := hH e he
    rw [hB] at hE
    simp only [Bool.false_eq_true, if_false] at hE
    refine ⟨hE, by rw [hE]; rfl, ?_⟩
    rw [hC', List.mem_filter]
    simp [hB]

/-- C6 witness: a broadcast on `hubFull`, where the `DEV1` connection is
full and the `DEV2` connection has room. -/
theorem handleBroadcast_enqueues_or_evicts_witness :
    ∃ h', hubFull.handleBroadcast "x" = some h' ∧
      h'.Clients = hubFull.Clients.filter (fun e => hubFull.hasRoom e.2) ∧
      (∀ e ∈ hubFull.Clients,
        (hubFull.heap e.2).Send.buf.length < (hubFull.heap e.2).Send.cap →
        h'.heap e.2 = (hubFull.heap e.2).enqueue "x" ∧
        (h'.heap e.2).Send.buf = (hubFull.heap e.2).Send.buf ++ ["x"] ∧ e ∈ h'.Clients) ∧
      (∀ e ∈ hubFull.Clients,
        (hubFull.heap e.2).Send.cap ≤ (hubFull.heap e.2).Send.buf.length →
        h'.heap e.2 = (hubFull.heap e.2).closeSend ∧
        (h'.heap e.2).Send.closed = true ∧ e ∉ h'.Clients) ∧
      (∀ q, (∀ e ∈ hubFull.Clients, e.2 ≠ q) → h'.heap q = hubFull.heap q) ∧
      h'.deviceStatus = hubFull.deviceStatus ∧
      h'.deviceConnection = hubFull.deviceConnection :=
  handleBroadcast_enqueues_or_evicts hubFull "x"
    (by unfold Hub.KeysMatch; decide) (by unfold Hub.KeysNodup; decide)
    (by unfold Hub.RegisteredOpen; decide)

/-! ## Device selector: lemmas -/

theorem SIMCard.usable_iff (s : SIMCard) :
    s.usable = true ↔ s.IsActive = true ∧ s.IsEnabled = true ∧ s.SignalStrength > 0 := by
  simp [SIMCard.usable, and_assoc]

/-- The inner loop returns the first usable SIM of the list. -/
theorem firstUsableSIM_some (l : List SIMCard) (s : SIMCard)
    (h : firstUsableSIM l = some s) :
    ∃ pre post, l = pre ++ s :: post ∧ s.usable = true ∧ ∀ x ∈ pre, x.usable = false := by
  induction l with
  | nil => simp [firstUsableSIM] at h
  | cons a rest ih =>
    by_cases ha : a.usable = true
    · simp only [firstUsableSIM, ha, if_true, Option.some.injEq] at h
      subst h
      exact ⟨[], rest, rfl, ha, by simp⟩
    · simp only [firstUsableSIM, ha, if_false] at h
      obtain ⟨pre, post, hl, hs, hpre⟩ := ih h
      refine ⟨a :: pre, post, by simp [hl], hs, ?_⟩
      intro x hx
      rcases List.mem_cons.mp hx with rfl | hx
      · simpa using ha
      · exact hpre x hx

/-- The inner loop finds nothing exactly when no SIM of the list is usable. -/
theorem firstUsableSIM_none (l : List SIMCard) :
    firstUsableSIM l = none ↔ ∀ x ∈ l, x.usable = false := by
  induction l with
  | nil => simp [firstUsableSIM]
  | cons a rest ih =>
    by_cases ha : a.usable = true
    · simp [firstUsableSIM, ha]
    · have ha' : a.usable = false := by simpa using ha
      simp [firstUsableSIM, ha', ih]

/-- The outer loop returns the first device of the list that has a usable
SIM, with that device's first usable SIM. -/
theorem scanDevices_some (l : List Device) (d : Device) (s : SIMCard)
    (h : scanDevices l = some (d, s)) :
    ∃ pre post, l = pre ++ d :: post ∧ firstUsableSIM d.SIMCards = some s ∧
      ∀ x ∈ pre, firstUsableSIM x.SIMCards = none := by
  induction l with
  | nil => simp [scanDevices] at h
  | cons a rest ih =>
    cases ha : firstUsableSIM a.SIMCards with
    | some t =>
      simp only [scanDevices, ha, Option.some.injEq, Prod.mk.injEq] at h
      obtain ⟨rfl, rfl⟩ := h
      exact ⟨[], rest, rfl, ha, by simp⟩
    | none =>
      simp only [scanDevices, ha] at h
      obtain ⟨pre, post, hl, hs, hpre⟩ := ih h
      refine ⟨a :: pre, post, by simp [hl], hs, ?_⟩
      intro x hx
      rcases List.mem_cons.mp hx with rfl | hx
      · exact ha
      · exact hpre x hx

/-- The outer loop finds nothing exactly when no device of the list has a
usable SIM. -/
theorem scanDevices_none (l : List Device) :
    scanDevices l = none ↔ ∀ x ∈ l, firstUsableSIM x.SIMCards = none := by
  induction l with
  | nil => simp [scanDevices]
  | cons a rest ih =>
    cases ha : firstUsableSIM a.SIMCards with
    | some t => simp [scanDevices, ha]
    | none => simp [scanDevices, ha, ih]

theorem Device.rankedBefore_total (a b : Device) :
    a.rankedBefore b ∨ b.rankedBefore a := by
  unfold Device.rankedBefore; omega

theorem Device.rankedBefore_trans (a b c : Device) (hab : a.rankedBefore b)
    (hbc : b.rankedBefore c) : a.rankedBefore c := by
  unfold Device.rankedBefore at *; omega

theorem Device.not_keyGreater_of_rankedBefore (a b : Device) (hab : a.rankedBefore b) :
    ¬ b.keyGreater a := by
  unfold Device.rankedBefore at hab; unfold Device.keyGreater; omega

/-- The rows the query returns: the preloaded rows that pass the `Where`
clauses. -/
theorem DB.mem_queryDevices (db : DB) (country operator : String) (d : Device) :
    d ∈ db.queryDevices country operator ↔
      ∃ d0 ∈ db.devices, db.whereClause country operator d0 = true ∧ d = db.preload d0 := by
  unfold DB.queryDevices
  rw [List.mem_map]
  constructor
  · rintro ⟨d0, h0, rfl⟩
    rw [List.mem_insertionSort, List.mem_filter] at h0
    exact ⟨d0, h0.1, h0.2, rfl⟩
  · rintro ⟨d0, h0, hw, rfl⟩
    exact ⟨d0, by rw [List.mem_insertionSort, List.mem_filter]; exact ⟨h0, hw⟩, rfl⟩

/-- The rows the query returns are in the requested order. -/
theorem DB.queryDevices_pairwise (db : DB) (country operator : String) :
    (db.queryDevices country operator).Pairwise Device.rankedBefore := by
  haveI : IsTotal Device Device.rankedBefore := ⟨Device.rankedBefore_total⟩
  haveI : IsTrans Device Device.rankedBefore := ⟨Device.rankedBefore_trans⟩
  unfold DB.queryDevices
  rw [List.pairwise_map]
  exact List.sorted_insertionSort Device.rankedBefore _

/-- Under the join assumption the `Where` clauses say exactly `Eligible`. -/
theorem DB.whereClause_iff (db : DB) (country operator : String) (d : Device)
    (hj : ∃ g s, db.groupOf d = some g ∧ db.siteOf g = some s) :
    db.whereClause country operator d = true ↔ db.Eligible country operator d := by
  obtain ⟨g, s, hg, hs⟩ := hj
  unfold DB.whereClause DB.Eligible
  simp only [hg, hs]
  by_cases hc : country = "" <;> by_cases ho : operator = "" <;>
    simp [hc, ho, hs, and_assoc]

/-- A preloaded device has a usable SIM in its list exactly when the store
holds one for it. -/
theorem DB.firstUsableSIM_preload (db : DB) (d : Device) :
    firstUsableSIM (db.preload d).SIMCards ≠ none ↔ db.HasUsableSIM d := by
  rw [Ne, firstUsableSIM_none]
  unfold DB.HasUsableSIM DB.preload
  simp only [List.mem_filter, decide_eq_true_eq, not_forall]
  constructor
  · rintro ⟨x, ⟨hx, hd⟩, hu⟩
    exact ⟨x, hx, hd, (SIMCard.usable_iff x).mp (by simpa using hu)⟩
  · rintro ⟨x, hx, hd, hu⟩
    exact ⟨x, ⟨hx, hd⟩, by simpa using (SIMCard.usable_iff x).mpr hu⟩

/-- The three ways `findBestDeviceForSMS` can end. -/
theorem findBestDeviceForSMS_cases (db : DB) (target country operator : String) :
    (∃ err, db.queryError = some err ∧
      findBestDeviceForSMS db target country operator =
        (none, none, some ("failed to query devices: " ++ err))) ∨
    (db.queryError = none ∧
      scanDevices (db.queryDevices
        (if country = "" then getCountryFromPhoneNumber target else country) operator) = none ∧
      findBestDeviceForSMS db target country operator =
        (none, none, some "no available device with active SIM card found")) ∨
    (∃ d s, db.queryError = none ∧
      scanDevices (db.queryDevices
        (if country = "" then getCountryFromPhoneNumber target else country) operator) =
        some (d, s) ∧
      findBestDeviceForSMS db target country operator = (some d, some s, none)) := by
  unfold findBestDeviceForSMS
  cases hq : db.queryError with
  | some err => exact Or.inl ⟨err, rfl, rfl⟩
  | none =>
    right
    cases hscan : scanDevices (db.queryDevices
        (if country = "" then getCountryFromPhoneNumber target else country) operator) with
    | none => left; simp [hscan]
    | some r =>
      obtain ⟨d, s⟩ := r
      right; exact ⟨d, s, rfl, rfl, by simp [hscan]⟩

/-- A returned device is the device the selection loop stopped at. -/
theorem findBestDeviceForSMS_device (db : DB) (target country operator : String) (d : Device)
    (hret : (findBestDeviceForSMS db target country operator).1 = some d) :
    ∃ s, scanDevices (db.queryDevices
        (if country = "" then getCountryFromPhoneNumber target else country) operator) =
        some (d, s) ∧
      findBestDeviceForSMS db target country operator = (some d, some s, none) := by
  rcases findBestDeviceForSMS_cases db target country operator with
    ⟨err, _, he⟩ | ⟨_, _, he⟩ | ⟨d', s, _, hscan, he⟩
  · rw [he] at hret; cases hret
  · rw [he] at hret; cases hret
  · rw [he] at hret
    cases hret
    exact ⟨s, hscan, he⟩

/-- All device rows of `dbRanked` are joined to a group and a site. -/
theorem dbRanked_joined : dbRanked.Joined := by
  intro d hd
  simp only [dbRanked, List.mem_cons, List.mem_singleton, List.not_mem_nil, or_false] at hd
  rcases hd with rfl | rfl | rfl <;> exact ⟨_, _, rfl, rfl⟩

/-- All device rows of `dbBattery` are joined to a group and a site. -/
theorem dbBattery_joined : dbBattery.Joined := by
  intro d hd
  simp only [dbBattery, List.mem_cons, List.mem_singleton, List.not_mem_nil, or_false] at hd
  rcases hd with rfl | rfl <;> exact ⟨_, _, rfl, rfl⟩

/-- What a row that passes the `Where` clauses satisfies. -/
theorem DB.whereClause_true (db : DB) (country operator : String) (d : Device)
    (hw : db.whereClause country operator d = true) :
    ∃ g s, db.groupOf d = some g ∧ db.siteOf g = some s ∧
      db.Eligible country operator d := by
  unfold DB.whereClause at hw
  cases hg : db.groupOf d with
  | none => simp [hg] at hw
  | some g =>
    cases hs : db.siteOf g with
    | none => simp [hg, hs] at hw
    | some st =>
      refine ⟨g, st, rfl, hs, ?_⟩
      apply (DB.whereClause_iff db country operator d ⟨g, st, hg, hs⟩).mp
      unfold DB.whereClause
      simp only [hg, hs] at hw ⊢
      exact hw

/-! ## Device selector: claims -/

/-- C7: assuming every device row belongs to a group that belongs to a site,
a device returned by `findBestDeviceForSMS` is a stored device (with its SIM
list loaded) that is eligible and has a usable SIM, and no eligible device
with a usable SIM has a strictly greater (battery, signal, lastSeen) key. -/
theorem findBestDeviceForSMS_returns_top_ranked (db : DB)
    (target country operator : String) (d : Device) (hj : db.Joined)
    (hret : (findBestDeviceForSMS db target country operator).1 = some d) :
    (∃ d0 ∈ db.devices, d = db.preload d0 ∧
      db.Eligible (if country = "" then getCountryFromPhoneNumber target else country)
        operator d0 ∧ db.HasUsableSIM d0) ∧
    ∀ d' ∈ db.devices,
      db.Eligible (if country = "" then getCountryFromPhoneNumber target else country)
        operator d' → db.HasUsableSIM d' → ¬ d'.keyGreater d := by
  obtain ⟨s, hscan, _⟩ := findBestDeviceForSMS_device db target country operator d hret
  obtain ⟨pre, post, hl, hs, hpre⟩ := scanDevices_some _ d s hscan
  have hsorted := DB.queryDevices_pairwise db
    (if country = "" then getCountryFromPhoneNumber target else country) operator
  have hdmem : d ∈ db.queryDevices
      (if country = "" then getCountryFromPhoneNumber target else country) operator := by
    rw [hl]; simp
  obtain ⟨d0, h0, hw, hd0⟩ := (DB.mem_queryDevices db _ _ d).mp hdmem
  refine ⟨⟨d0, h0, hd0, (DB.whereClause_iff db _ _ d0 (hj d0 h0)).mp hw, ?_⟩, ?_⟩
  · rw [← DB.firstUsableSIM_preload, ← hd0, hs]; simp
  · intro d' hd' hel hsim
    have hmem : db.preload d' ∈ db.queryDevices
        (if country = "" then getCountryFromPhoneNumber target else country) operator :=
      (DB.mem_queryDevices db _ _ _).mpr
        ⟨d', hd', (DB.whereClause_iff db _ _ d' (hj d' hd')).mpr hel, rfl⟩
    have husable := (DB.firstUsableSIM_preload db d').mpr hsim
    rw [hl] at hmem hsorted
    have hrank : d.rankedBefore (db.preload d') := by
      rcases List.mem_append.mp hmem with hp | hp
      · exact absurd (hpre _ hp) husable
      · rcases List.mem_cons.mp hp with heq | hp
        · rw [heq]
          exact (Device.rankedBefore_total d d).elim id id
        · exact List.rel_of_pairwise_cons (List.pairwise_append.mp hsorted).2.1 hp
    exact Device.not_keyGreater_of_rankedBefore d (db.preload d') hrank

/-- C7 witness: on `dbRanked` the battery-99 device without a usable SIM is
skipped and the battery-95/signal-1 device `B` is chosen over the
battery-80/signal-3 device `A`. -/
theorem findBestDeviceForSMS_returns_top_ranked_witness :
    (findBestDeviceForSMS dbRanked "+905551112233" "" "").1 =
      some (dbRanked.preload (deviceRow 2 "B" 95 1 200)) ∧
    ((∃ d0 ∈ dbRanked.devices, dbRanked.preload (deviceRow 2 "B" 95 1 200) =
        dbRanked.preload d0 ∧
      dbRanked.Eligible
        (if "" = "" then getCountryFromPhoneNumber "+905551112233" else "") "" d0 ∧
      dbRanked.HasUsableSIM d0) ∧
    ∀ d' ∈ dbRanked.devices,
      dbRanked.Eligible
        (if "" = "" then getCountryFromPhoneNumber "+905551112233" else "") "" d' →
      dbRanked.HasUsableSIM d' →
      ¬ d'.keyGreater (dbRanked.preload (deviceRow 2 "B" 95 1 200))) :=
  ⟨by decide, findBestDeviceForSMS_returns_top_ranked dbRanked "+905551112233" "" ""
    (dbRanked.preload (deviceRow 2 "B" 95 1 200)) dbRanked_joined (by decide)⟩

/-- C8: a SIM returned with a device is an element of that device's SIM
list (the device's stored SIM rows in stored order), it satisfies
`active == true`, `enabled == true` and `signalStrength > 0`, and no SIM
before it in that list does. -/
theorem findBestDeviceForSMS_returns_first_usable_sim (db : DB)
    (target country operator : String) (d : Device) (s : SIMCard)
    (hd : (findBestDeviceForSMS db target country operator).1 = some d)
    (hs : (findBestDeviceForSMS db target country operator).2.1 = some s) :
    s ∈ d.SIMCards ∧
    d.SIMCards = db.sim_cards.filter (fun x => decide (x.DeviceID = d.DeviceID)) ∧
    s.IsActive = true ∧ s.IsEnabled = true ∧ s.SignalStrength > 0 ∧
    ∃ pre post, d.SIMCards = pre ++ s :: post ∧
      ∀ x ∈ pre, ¬ (x.IsActive = true ∧ x.IsEnabled = true ∧ x.SignalStrength > 0) := by
  obtain ⟨s', hscan, hres⟩ := findBestDeviceForSMS_device db target country operator d hd
  rw [hres] at hs
  cases hs
  obtain ⟨dpre, dpost, hl, hfirst, _⟩ := scanDevices_some _ d s hscan
  obtain ⟨pre, post, hsplit, hu, hpre⟩ := firstUsableSIM_some _ s hfirst
  have hdmem : d ∈ db.queryDevices
      (if country = "" then getCountryFromPhoneNumber target else country) operator := by
    rw [hl]; simp
  obtain ⟨d0, _, _, hd0⟩ := (DB.mem_queryDevices db _ _ d).mp hdmem
  obtain ⟨h1, h2, h3⟩ := (SIMCard.usable_iff s).mp hu
  refine ⟨by rw [hsplit]; simp, by rw [hd0]; rfl, h1, h2, h3, pre, post, hsplit, ?_⟩
  intro x hx hxu
  have := hpre x hx
  rw [(SIMCard.usable_iff x).mpr hxu] at this
  cases this

/-- C8 witness: on `dbRanked` device `B` is returned with its second stored
SIM, the first one having signal strength 0. -/
theorem findBestDeviceForSMS_returns_first_usable_sim_witness :
    simRow 4 "B" 2 true true ∈ (dbRanked.preload (deviceRow 2 "B" 95 1 200)).SIMCards ∧
    (dbRanked.preload (deviceRow 2 "B" 95 1 200)).SIMCards =
      dbRanked.sim_cards.filter (fun x =>
        decide (x.DeviceID = (dbRanked.preload (deviceRow 2 "B" 95 1 200)).DeviceID)) ∧
    (simRow 4 "B" 2 true true).IsActive = true ∧
    (simRow 4 "B" 2 true true).IsEnabled = true ∧
    (simRow 4 "B" 2 true true).SignalStrength > 0 ∧
    ∃ pre post, (dbRanked.preload (deviceRow 2 "B" 95 1 200)).SIMCards =
        pre ++ simRow 4 "B" 2 true true :: post ∧
      ∀ x ∈ pre, ¬ (x.IsActive = true ∧ x.IsEnabled = true ∧ x.SignalStrength > 0) :=
  findBestDeviceForSMS_returns_first_usable_sim dbRanked "+905551112233" "" ""
    (dbRanked.preload (deviceRow 2 "B" 95 1 200)) (simRow 4 "B" 2 true true)
    (by decide) (by decide)

/-- C9: a device returned by `findBestDeviceForSMS` satisfies
`active == true`, `available == true`, `operatorStatus == "online"` and
`batteryLevel >= 10` (it passes `IsReadyForSMS`); when a country was
requested or derived from the target number the country of the device's site
equals it, and when an operator was requested the operator of the device's
group equals it. -/
theorem findBestDeviceForSMS_returns_eligible (db : DB)
    (target country operator : String) (d : Device)
    (hret : (findBestDeviceForSMS db target country operator).1 = some d) :
    d.IsActive = true ∧ d.IsAvailable = true ∧ d.OperatorStatus = "online" ∧
    d.BatteryLevel ≥ 10 ∧ d.IsReadyForSMS = true ∧
    ((if country = "" then getCountryFromPhoneNumber target else country) ≠ "" →
      ∃ g s, db.groupOf d = some g ∧ db.siteOf g = some s ∧
        s.Country = (if country = "" then getCountryFromPhoneNumber target else country)) ∧
    (operator ≠ "" → ∃ g, db.groupOf d = some g ∧ g.Operator = operator) := by
  obtain ⟨s, hscan, _⟩ := findBestDeviceForSMS_device db target country operator d hret
  obtain ⟨pre, post, hl, _, _⟩ := scanDevices_some _ d s hscan
  have hdmem : d ∈ db.queryDevices
      (if country = "" then getCountryFromPhoneNumber target else country) operator := by
    rw [hl]; simp
  obtain ⟨d0, _, hw, hd0⟩ := (DB.mem_queryDevices db _ _ d).mp hdmem
  obtain ⟨_, _, _, _, h1, h2, h3, h4, h5, h6⟩ := DB.whereClause_true db _ _ d0 hw
  subst hd0
  refine ⟨h1, h2, h3, h4, ?_, h5, h6⟩
  show (db.preload d0).IsReadyForSMS = true
  unfold Device.IsReadyForSMS
  simp only [Bool.and_eq_true, decide_eq_true_eq]
  exact ⟨⟨⟨h1, h2⟩, h3⟩, h4⟩

/-- C9 witness: on `dbBattery` the device at battery level exactly 10 is
returned (the only other device is at battery level 9). -/
theorem findBestDeviceForSMS_returns_eligible_witness :
    (findBestDeviceForSMS dbBattery "+905551112233" "TR" "Turkcell").1 =
      some (dbBattery.preload (deviceRow 2 "TEN" 10 1 200)) ∧
    ((dbBattery.preload (deviceRow 2 "TEN" 10 1 200)).IsActive = true ∧
    (dbBattery.preload (deviceRow 2 "TEN" 10 1 200)).IsAvailable = true ∧
    (dbBattery.preload (deviceRow 2 "TEN" 10 1 200)).OperatorStatus = "online" ∧
    (dbBattery.preload (deviceRow 2 "TEN" 10 1 200)).BatteryLevel ≥ 10 ∧
    (dbBattery.preload (deviceRow 2 "TEN" 10 1 200)).IsReadyForSMS = true ∧
    ((if "TR" = "" then getCountryFromPhoneNumber "+905551112233" else "TR") ≠ "" →
      ∃ g s, dbBattery.groupOf (dbBattery.preload (deviceRow 2 "TEN" 10 1 200)) = some g ∧
        dbBattery.siteOf g = some s ∧
        s.Country = (if "TR" = "" then getCountryFromPhoneNumber "+905551112233" else "TR")) ∧
    ("Turkcell" ≠ "" →
      ∃ g, dbBattery.groupOf (dbBattery.preload (deviceRow 2 "TEN" 10 1 200)) = some g ∧
        g.Operator = "Turkcell")) :=
  ⟨by decide, findBestDeviceForSMS_returns_eligible dbBattery "+905551112233" "TR" "Turkcell"
    (dbBattery.preload (deviceRow 2 "TEN" 10 1 200)) (by decide)⟩

/-- C10: when the device query succeeds and every device row belongs to a
group that belongs to a site, `findBestDeviceForSMS` returns an error exactly
when no stored device satisfying the eligibility constraints has a usable
SIM; with an error it returns neither a device nor a SIM, and without an
error it returns both. -/
theorem findBestDeviceForSMS_error_iff_no_candidate (db : DB)
    (target country operator : String) (hq : db.queryError = none) (hj : db.Joined) :
    ((findBestDeviceForSMS db target country operator).2.2 ≠ none ↔
      ¬ ∃ d ∈ db.devices,
        db.Eligible (if country = "" then getCountryFromPhoneNumber target else country)
          operator d ∧ db.HasUsableSIM d) ∧
    ((findBestDeviceForSMS db target country operator).2.2 ≠ none →
      (findBestDeviceForSMS db target country operator).1 = none ∧
      (findBestDeviceForSMS db target country operator).2.1 = none) ∧
    ((findBestDeviceForSMS db target country operator).2.2 = none →
      ∃ d s, (findBestDeviceForSMS db target country operator).1 = some d ∧
        (findBestDeviceForSMS db target country operator).2.1 = some s) := by
  rcases findBestDeviceForSMS_cases db target country operator with
    ⟨err, he, _⟩ | ⟨_, hscan, hres⟩ | ⟨d, s, _, hscan, hres⟩
  · rw [hq] at he; cases he
  · rw [hres]
    refine ⟨⟨fun _ => ?_, fun _ => by simp⟩, fun _ => ⟨rfl, rfl⟩, fun h => by simp at h⟩
    rintro ⟨d, hd, hel, hsim⟩
    have hmem := (DB.mem_queryDevices db _ operator (db.preload d)).mpr
      ⟨d, hd, (DB.whereClause_iff db _ _ d (hj d hd)).mpr hel, rfl⟩
    exact (DB.firstUsableSIM_preload db d).mpr hsim ((scanDevices_none _).mp hscan _ hmem)
  · rw [hres]
    refine ⟨⟨fun h => by simp at h, fun hno => ?_⟩, fun h => by simp at h,
      fun _ => ⟨d, s, rfl, rfl⟩⟩
    exfalso
    apply hno
    obtain ⟨pre, post, hl, hs, _⟩ := scanDevices_some _ d s hscan
    have hdmem : d ∈ db.queryDevices
        (if country = "" then getCountryFromPhoneNumber target else country) operator := by
      rw [hl]; simp
    obtain ⟨d0, h0, hw, hd0⟩ := (DB.mem_queryDevices db _ _ d).mp hdmem
    refine ⟨d0, h0, (DB.whereClause_iff db _ _ d0 (hj d0 h0)).mp hw, ?_⟩
    rw [← DB.firstUsableSIM_preload, ← hd0, hs]; simp

/-- C10 witness: the statement at `dbBattery` with operator `Vodafone`
requested, for which no device is eligible. -/
theorem findBestDeviceForSMS_error_iff_no_candidate_witness :
    (findBestDeviceForSMS dbBattery "+905551112233" "" "Vodafone").2.2 =
      some "no available device with active SIM card found" ∧
    (((findBestDeviceForSMS dbBattery "+905551112233" "" "Vodafone").2.2 ≠ none ↔
      ¬ ∃ d ∈ dbBattery.devices,
        dbBattery.Eligible
          (if "" = "" then getCountryFromPhoneNumber "+905551112233" else "") "Vodafone" d ∧
        dbBattery.HasUsableSIM d) ∧
    ((findBestDeviceForSMS dbBattery "+905551112233" "" "Vodafone").2.2 ≠ none →
      (findBestDeviceForSMS dbBattery "+905551112233" "" "Vodafone").1 = none ∧
      (findBestDeviceForSMS dbBattery "+905551112233" "" "Vodafone").2.1 = none) ∧
    ((findBestDeviceForSMS dbBattery "+905551112233" "" "Vodafone").2.2 = none →
      ∃ d s, (findBestDeviceForSMS dbBattery "+905551112233" "" "Vodafone").1 = some d ∧
        (findBestDeviceForSMS dbBattery "+905551112233" "" "Vodafone").2.1 = some s)) :=
  ⟨by decide, findBestDeviceForSMS_error_iff_no_candidate dbBattery "+905551112233" ""
    "Vodafone" rfl dbBattery_joined⟩

/-! ## Gateway request without an eligible device -/

/-- C11: when selection fails for a gateway request whose body parses,
`SendSMSViaGateway` returns with the world exactly as it was (store, Hub and
log of effects: no record is created or changed, nothing is handed to the
Hub or published) and, for a valid target number, answers 503. -/
theorem SendSMSViaGateway_selection_failure_no_effects (env : Env) (w : World) (now : Int)
    (userID : Option Nat) (req : SMSSendRequest)
    (hsel : (findBestDeviceForSMS w.db req.Target req.Country req.Operator).2.2 ≠ none) :
    ∃ code, SendSMSViaGateway env w now userID (some req) = some (code, w) ∧
      (isValidPhoneNumber req.Target = true → code = 503) := by
  unfold SendSMSViaGateway
  by_cases hv : isValidPhoneNumber req.Target = true
  · rcases hres : findBestDeviceForSMS w.db req.Target req.Country req.Operator with
      ⟨d, s, e⟩
    rw [hres] at hsel
    cases e with
    | none => exact absurd rfl hsel
    | some err => exact ⟨503, by simp [hv, hres], fun _ => rfl⟩
  · exact ⟨400, by simp [hv], fun h => absurd h hv⟩

/-- C11 witness: a request for operator `Vodafone` on `worldNoConnection`,
where no device is eligible. -/
theorem SendSMSViaGateway_selection_failure_no_effects_witness :
    ∃ code, SendSMSViaGateway sampleEnv worldNoConnection 5 none
        (some { Target := "+905551112233", Message := "hi", Operator := "Vodafone" }) =
        some (code, worldNoConnection) ∧
      (isValidPhoneNumber "+905551112233" = true → code = 503) :=
  SendSMSViaGateway_selection_failure_no_effects sampleEnv worldNoConnection 5 none
    { Target := "+905551112233", Message := "hi", Operator := "Vodafone" } (by decide)

/-! ## Country derivation -/

/-- No dialing code of the table is a prefix of another one. -/
theorem countryMap_codes_prefix_free :
    ∀ e1 ∈ countryMap, ∀ e2 ∈ countryMap, e1.1.data <+: e2.1.data → e1 = e2 := by
  decide

/-- Every dialing code of the table starts with `+`. -/
theorem countryMap_codes_start_plus : ∀ e ∈ countryMap, "+".data <+: e.1.data := by
  decide

/-- At most one entry of the table matches a given number. -/
theorem countryMap_match_unique (phoneNumber : String) (e1 e2 : String × String)
    (h1 : e1 ∈ countryMap) (h2 : e2 ∈ countryMap)
    (m1 : hasPrefix phoneNumber e1.1 = true) (m2 : hasPrefix phoneNumber e2.1 = true) :
    e1 = e2 := by
  unfold hasPrefix at m1 m2
  rw [List.isPrefixOf_iff_prefix] at m1 m2
  rcases Nat.le_total e1.1.data.length e2.1.data.length with hle | hle
  · exact countryMap_codes_prefix_free e1 h1 e2 h2 (List.prefix_of_prefix_length_le m1 m2 hle)
  · exact (countryMap_codes_prefix_free e2 h2 e1 h1
      (List.prefix_of_prefix_length_le m2 m1 hle)).symm

/-- The loop returns the country of the first matching entry. -/
theorem countryLoop_first (phoneNumber : String) (pre post : List (String × String))
    (e : String × String) (hpre : ∀ x ∈ pre, hasPrefix phoneNumber x.1 = false)
    (he : hasPrefix phoneNumber e.1 = true) :
    countryLoop phoneNumber (pre ++ e :: post) = e.2 := by
  induction pre with
  | nil => simp [countryLoop, he]
  | cons x xs ih =>
    have hx := hpre x (List.mem_cons_self _ _)
    simp only [List.cons_append, countryLoop, hx, Bool.false_eq_true, if_false]
    exact ih (fun y hy => hpre y (List.mem_cons_of_mem _ hy))

/-- Without a matching entry the loop returns the empty string. -/
theorem countryLoop_no_match (phoneNumber : String) (l : List (String × String))
    (hno : ∀ x ∈ l, hasPrefix phoneNumber x.1 = false) : countryLoop phoneNumber l = "" := by
  induction l with
  | nil => rfl
  | cons x xs ih =>
    have hx := hno x (List.mem_cons_self _ _)
    simp only [countryLoop, hx, Bool.false_eq_true, if_false]
    exact ih (fun y hy => hno y (List.mem_cons_of_mem _ hy))

/-- Split a list of entries at the first one that matches the number. -/
theorem exists_first_match (phoneNumber : String) (l : List (String × String)) :
    (∀ x ∈ l, hasPrefix phoneNumber x.1 = false) ∨
    ∃ pre e post, l = pre ++ e :: post ∧ (∀ x ∈ pre, hasPrefix phoneNumber x.1 = false) ∧
      hasPrefix phoneNumber e.1 = true := by
  induction l with
  | nil => left; simp
  | cons x xs ih =>
    by_cases hx : hasPrefix phoneNumber x.1 = true
    · right; exact ⟨[], x, xs, rfl, by simp, hx⟩
    · have hx' : hasPrefix phoneNumber x.1 = false := by simpa using hx
      rcases ih with hno | ⟨pre, e, post, hsplit, hpre, hb⟩
      · left
        intro y hy
        rcases List.mem_cons.mp hy with rfl | hy
        · exact hx'
        · exact hno y hy
      · right
        refine ⟨x :: pre, e, post, by simp [hsplit], ?_, hb⟩
        intro y hy
        rcases List.mem_cons.mp hy with rfl | hy
        · exact hx'
        · exact hpre y hy

/-- The loop gives the same country in every order of the table. -/
theorem countryLoop_order_irrelevant (phoneNumber : String) (order : List (String × String))
    (hperm : order.Perm countryMap) :
    countryLoop phoneNumber order = countryLoop phoneNumber countryMap := by
  rcases exists_first_match phoneNumber countryMap with hno | ⟨pre, e, post, hsplit, hpre, he⟩
  · rw [countryLoop_no_match _ _ hno,
      countryLoop_no_match _ _ (fun x hx => hno x (hperm.mem_iff.mp hx))]
  · have hemem : e ∈ countryMap := by rw [hsplit]; simp
    rw [hsplit, countryLoop_first _ pre post e hpre he]
    rcases exists_first_match phoneNumber order with hno' | ⟨pre', e', post', hs', hpre', he'⟩
    · have := hno' e (hperm.mem_iff.mpr hemem)
      rw [he] at this; cases this
    · have he'mem : e' ∈ countryMap := hperm.mem_iff.mp (by rw [hs']; simp)
      rw [hs', countryLoop_first _ pre' post' e' hpre' he',
        countryMap_match_unique phoneNumber e' e he'mem hemem he' he]

/-- C12: `getCountryFromPhoneNumber` returns the country of the first entry
of the table, in declaration order, whose dialing code is a prefix of the
number; it returns the empty string when the number does not start with `+`
or no entry matches; and ranging over the table in any other order gives the
same result. -/
theorem getCountryFromPhoneNumber_first_match_any_order (phoneNumber : String) :
    countryMap = [("+90", "TR"), ("+1", "US"), ("+44", "UK"), ("+49", "DE"), ("+33", "FR")] ∧
    (∀ pre e post, countryMap = pre ++ e :: post →
      (∀ x ∈ pre, hasPrefix phoneNumber x.1 = false) → hasPrefix phoneNumber e.1 = true →
      getCountryFromPhoneNumber phoneNumber = e.2) ∧
    (hasPrefix phoneNumber "+" = false → getCountryFromPhoneNumber phoneNumber = "") ∧
    ((∀ x ∈ countryMap, hasPrefix phoneNumber x.1 = false) →
      getCountryFromPhoneNumber phoneNumber = "") ∧
    (∀ order : List (String × String), order.Perm countryMap →
      getCountryFromPhoneNumberIn order phoneNumber =
        getCountryFromPhoneNumber phoneNumber) := by
  refine ⟨rfl, ?_, ?_, ?_, ?_⟩
  · intro pre e post hsplit hpre he
    have hemem : e ∈ countryMap := by rw [hsplit]; simp
    have hplus : hasPrefix phoneNumber "+" = true := by
      unfold hasPrefix at he ⊢
      rw [List.isPrefixOf_iff_prefix] at he ⊢
      exact List.IsPrefix.trans (countryMap_codes_start_plus e hemem) he
    unfold getCountryFromPhoneNumber
    rw [hsplit, countryLoop_first _ pre post e hpre he]
    simp [hplus]
  · intro h
    simp [getCountryFromPhoneNumber, h]
  · intro h
    unfold getCountryFromPhoneNumber
    rw [countryLoop_no_match _ _ h]
    simp
  · intro order hperm
    unfold getCountryFromPhoneNumber getCountryFromPhoneNumberIn
    rw [countryLoop_order_irrelevant phoneNumber order hperm]

/-! ## Store and world lemmas -/

/-- Rewriting the last row of a table whose other rows have other keys. -/
theorem map_replace_last (old : List SMSMessage) (row x : SMSMessage) (hx : x.ID = row.ID)
    (hold : ∀ r ∈ old, r.ID ≠ row.ID) :
    (old ++ [row]).map (fun r => if r.ID = x.ID then x else r) = old ++ [x] := by
  rw [List.map_append]
  congr 1
  · conv_rhs => rw [← List.map_id old]
    apply List.map_congr_left
    intro r hr
    simp [hx, hold r hr]
  · simp [hx]

/-- What `Create(&sms)` does on an available store. -/
theorem DB.createSMS_ok (db : DB) (sms : SMSMessage) (hq : db.queryError = none) :
    ∃ db' row, db.createSMS sms = Except.ok (db', row) ∧
      row = { sms with
        ID := db.sms_seq + 1
        Status := if sms.Status = "" then "pending" else sms.Status
        Priority := if sms.Priority = 0 then 1 else sms.Priority } ∧
      db'.sms_messages = db.sms_messages ++ [row] ∧ db'.sms_seq = db.sms_seq + 1 ∧
      db'.queryError = none ∧ db'.ussd_commands = db.ussd_commands ∧
      db'.devices = db.devices := by
  unfold DB.createSMS
  rw [hq]
  exact ⟨_, _, rfl, rfl, rfl, rfl, rfl, rfl, rfl⟩

/-- What `World.createSMS` does on an available store. -/
theorem World.createSMS_available (w : World) (sms : SMSMessage) (hq : w.db.queryError = none) :
    ∃ w1 row, w.createSMS sms = Except.ok (w1, row) ∧
      row = { sms with
        ID := w.db.sms_seq + 1
        Status := if sms.Status = "" then "pending" else sms.Status
        Priority := if sms.Priority = 0 then 1 else sms.Priority } ∧
      w1.db.sms_messages = w.db.sms_messages ++ [row] ∧ w1.db.sms_seq = w.db.sms_seq + 1 ∧
      w1.db.queryError = none ∧ w1.db.ussd_commands = w.db.ussd_commands ∧
      w1.hub = w.hub ∧ w1.wsHub = w.wsHub ∧ w1.queueError = w.queueError ∧
      w1.trace = w.trace ++ [Effect.createSMS row] := by
  obtain ⟨db', row, hc, hrow, hm, hs, hq', hu, _⟩ := w.db.createSMS_ok sms hq
  exact ⟨({ w with db := db' } : World).log (Effect.createSMS row), row,
    by simp only [World.createSMS, hc], hrow, hm, hs, hq', hu, rfl, rfl, rfl, rfl⟩

/-- What `World.createSMS` does on an unavailable store. -/
theorem World.createSMS_error (w : World) (sms : SMSMessage) (e : String)
    (hq : w.db.queryError = some e) : w.createSMS sms = Except.error e := by
  simp [World.createSMS, DB.createSMS, hq]

/-- What `Save(&sms)` with its result ignored does on an available store. -/
theorem World.saveSMSIgnored_ok (w : World) (sms : SMSMessage) (hq : w.db.queryError = none) :
    (w.saveSMSIgnored sms).db.sms_messages =
        w.db.sms_messages.map (fun r => if r.ID = sms.ID then sms else r) ∧
      (w.saveSMSIgnored sms).db.ussd_commands = w.db.ussd_commands ∧
      (w.saveSMSIgnored sms).db.queryError = none ∧
      (w.saveSMSIgnored sms).hub = w.hub ∧
      (w.saveSMSIgnored sms).trace = w.trace ++ [Effect.saveSMS sms] := by
  simp [World.saveSMSIgnored, World.saveSMS, DB.saveSMS, hq, World.log]

/-- A hand-over to a Hub whose registered connections are open: the Hub runs
`sendToDevice`, the caller gets `nil`, the hand-over is logged. -/
theorem World.hubSendMessageToDevice_ok (env : Env) (w : World) (deviceID : String)
    (frame : Frame) (hopen : w.hub.RegisteredOpen) :
    ∃ w', w.hubSendMessageToDevice env deviceID frame = some (w', none) ∧
      w.hub.sendToDevice deviceID (env.jsonMarshal frame) = some w'.hub ∧
      w'.db = w.db ∧ w'.wsHub = w.wsHub ∧ w'.queueError = w.queueError ∧
      w'.trace = w.trace ++ [Effect.hubSend deviceID frame] := by
  obtain ⟨h', hh'⟩ := w.hub.sendToDevice_total hopen deviceID (env.jsonMarshal frame)
  refine ⟨({ w with hub := h' } : World).log (Effect.hubSend deviceID frame), ?_, hh',
    rfl, rfl, rfl, rfl⟩
  simp only [World.hubSendMessageToDevice, Hub.SendMessageToDevice, hh']

/-- The tail of the gateway paths: the record is written back as `sent`
exactly when `wsHub` is set, in which case the frame has been handed to the
Hub loop; otherwise it is written back as `failed` and the Hub is left alone. -/
theorem sendAndMark_spec (env : Env) (w1 : World) (deviceID : String) (row : SMSMessage)
    (okCode : Nat) (old : List SMSMessage) (hq : w1.db.queryError = none)
    (hrows : w1.db.sms_messages = old ++ [row]) (hold : ∀ r ∈ old, r.ID ≠ row.ID)
    (hopen : w1.hub.RegisteredOpen) :
    ∃ code w' final added, sendAndMark env w1 deviceID row okCode = some (code, w') ∧
      w'.db.sms_messages = old ++ [final] ∧ final.ID = row.ID ∧
      final.DeviceID = row.DeviceID ∧ final.InternalLogID = row.InternalLogID ∧
      w'.db.ussd_commands = w1.db.ussd_commands ∧
      (final.Status = "sent" ∨ final.Status = "failed") ∧
      (final.Status = "sent" ↔ w1.wsHub = true) ∧
      w'.trace = w1.trace ++ added ∧
      ((∃ f, Effect.hubSend deviceID f ∈ added) ↔ final.Status = "sent") ∧
      (∀ e ∈ added, (∃ d f, e = Effect.hubSend d f) ∨ (∃ r, e = Effect.saveSMS r)) ∧
      (w1.wsHub = true → code = okCode ∧
        w1.hub.sendToDevice deviceID (env.jsonMarshal
          (Frame.gatewaySMS row.Target row.Message row.SimSlot row.ID)) = some w'.hub) ∧
      (w1.wsHub = false → code = 500 ∧ w'.hub = w1.hub) := by
  by_cases hws : w1.wsHub = true
  · obtain ⟨w2, hsend, hhub, hdb, _, _, htr⟩ := w1.hubSendMessageToDevice_ok env deviceID
      (Frame.gatewaySMS row.Target row.Message row.SimSlot row.ID) hopen
    have hq2 : w2.db.queryError = none := by rw [hdb]; exact hq
    obtain ⟨hm, hu, _, hh, ht⟩ := w2.saveSMSIgnored_ok { row with Status := "sent" } hq2
    refine ⟨okCode, _, { row with Status := "sent" }, _,
      by simp only [sendAndMark, sendSMSToDevice, hws, hsend]; rfl, ?_, rfl, rfl, rfl, ?_,
      Or.inl rfl, by simp [hws], by rw [ht, htr, List.append_assoc], ?_, ?_, ?_, ?_⟩
    · rw [hm, hdb, hrows]
      exact map_replace_last old row _ rfl hold
    · rw [hu, hdb]
    · simp
    · intro e he
      simp only [List.cons_append, List.nil_append, List.mem_cons, List.mem_singleton,
        List.not_mem_nil, or_false] at he
      rcases he with rfl | rfl
      · exact Or.inl ⟨_, _, rfl⟩
      · exact Or.inr ⟨_, rfl⟩
    · intro _
      exact ⟨rfl, by rw [hh]; exact hhub⟩
    · intro h; rw [h] at hws; cases hws
  · have hws' : w1.wsHub = false := by simpa using hws
    obtain ⟨hm, hu, _, hh, ht⟩ := w1.saveSMSIgnored_ok
      { row with Status := "failed", ErrorMessage := "WebSocket hub not initialized" } hq
    refine ⟨500, _,
      { row with Status := "failed", ErrorMessage := "WebSocket hub not initialized" }, _,
      by simp only [sendAndMark, sendSMSToDevice, hws']; rfl, ?_, rfl, rfl, rfl, hu,
      Or.inr rfl, by simp [hws'], ht, ?_, ?_, ?_, ?_⟩
    · rw [hm, hrows]
      exact map_replace_last old row _ rfl hold
    · simp
    · intro e he
      simp only [List.mem_singleton] at he
      exact Or.inr ⟨_, he⟩
    · intro h; rw [h] at hws'; cases hws'
    · intro _
      exact ⟨rfl, hh⟩

/-- Rows numbered by the sequence differ in key from the next row. -/
theorem DB.SMSSeqOK.ne_next (db : DB) (hseq : db.SMSSeqOK) :
    ∀ r ∈ db.sms_messages, r.ID ≠ db.sms_seq + 1 := by
  intro r hr h
  have := hseq r hr
  omega

/-! ## Lifecycle state after a submission -/

/-- C13 (amended): on an available store whose SMS rows were numbered by the
sequence, and a Hub whose registered connections are open, the record
created by `SendSMSViaGateway` or `SendTestSMS` ends as `sent` exactly when
the frame was handed to the Hub loop (which happens exactly when `wsHub` is
set, and then the Hub is whatever `sendToDevice` leaves, whether or not a
connection took the frame) and as `failed` otherwise. -/
theorem gateway_record_sent_iff_handed_to_hub (env : Env) (w : World)
    (hq : w.db.queryError = none) (hseq : w.db.SMSSeqOK) (hopen : w.hub.RegisteredOpen) :
    (∀ now userID req d s, isValidPhoneNumber req.Target = true →
      findBestDeviceForSMS w.db req.Target req.Country req.Operator = (some d, some s, none) →
      ∃ code w' final added,
        SendSMSViaGateway env w now userID (some req) = some (code, w') ∧
        w'.db.sms_messages = w.db.sms_messages ++ [final] ∧
        final.DeviceID = d.DeviceID ∧
        (final.Status = "sent" ∨ final.Status = "failed") ∧
        w'.trace = w.trace ++ added ∧
        ((∃ f, Effect.hubSend d.DeviceID f ∈ added) ↔ final.Status = "sent") ∧
        (final.Status = "sent" ↔ w.wsHub = true) ∧
        (w.wsHub = true →
          ∃ f, w.hub.sendToDevice d.DeviceID (env.jsonMarshal f) = some w'.hub) ∧
        (w.wsHub = false → w'.hub = w.hub)) ∧
    (∀ now uid req device, w.db.firstDeviceByID req.DeviceID = Except.ok device →
      device.IsReadyForSMS = true →
      ∃ code w' final added,
        SendTestSMS env w now (some uid) (some req) = some (code, w') ∧
        w'.db.sms_messages = w.db.sms_messages ++ [final] ∧
        final.DeviceID = device.DeviceID ∧
        (final.Status = "sent" ∨ final.Status = "failed") ∧
        w'.trace = w.trace ++ added ∧
        ((∃ f, Effect.hubSend device.DeviceID f ∈ added) ↔ final.Status = "sent") ∧
        (final.Status = "sent" ↔ w.wsHub = true) ∧
        (w.wsHub = true →
          ∃ f, w.hub.sendToDevice device.DeviceID (env.jsonMarshal f) = some w'.hub) ∧
        (w.wsHub = false → w'.hub = w.hub)) := by
  -- the tail shared by both handlers, after the record has been created
  have tail : ∀ (sms : SMSMessage) (deviceID : String) (okCode : Nat),
      ∃ w1 row, w.createSMS sms = Except.ok (w1, row) ∧
      ∃ code w' final added, sendAndMark env w1 deviceID row okCode = some (code, w') ∧
        w'.db.sms_messages = w.db.sms_messages ++ [final] ∧
        final.DeviceID = sms.DeviceID ∧
        (final.Status = "sent" ∨ final.Status = "failed") ∧
        w'.trace = w.trace ++ added ∧
        ((∃ f, Effect.hubSend deviceID f ∈ added) ↔ final.Status = "sent") ∧
        (final.Status = "sent" ↔ w.wsHub = true) ∧
        (w.wsHub = true →
          ∃ f, w.hub.sendToDevice deviceID (env.jsonMarshal f) = some w'.hub) ∧
        (w.wsHub = false → w'.hub = w.hub) := by
    intro sms deviceID okCode
    obtain ⟨w1, row, hc, hrow, hm, _, hq1, _, hh1, hws1, _, ht1⟩ := w.createSMS_available sms hq
    have hid : row.ID = w.db.sms_seq + 1 := by rw [hrow]
    have hdev : row.DeviceID = sms.DeviceID := by rw [hrow]
    obtain ⟨code, w', final, added, hrun, hfm, _, hfd, _, _, hst, hiff, htr, hhub, hsaves,
        hon, hoff⟩ :=
      sendAndMark_spec env w1 deviceID row okCode w.db.sms_messages hq1 hm
        (fun r hr => by rw [hid]; exact hseq.ne_next w.db r hr) (by rw [hh1]; exact hopen)
    refine ⟨w1, row, hc, code, w', final, Effect.createSMS row :: added, hrun, hfm,
      by rw [hfd, hdev], hst, by rw [htr, ht1]; simp, ?_, by rw [← hws1]; exact hiff, ?_, ?_⟩
    · rw [← hhub]
      constructor
      · rintro ⟨f, hf⟩
        rcases List.mem_cons.mp hf with h | h
        · cases h
        · exact ⟨f, h⟩
      · rintro ⟨f, hf⟩
        exact ⟨f, List.mem_cons_of_mem _ hf⟩
    · intro hws
      rw [← hh1]
      exact ⟨_, (hon (by rw [hws1]; exact hws)).2⟩
    · intro hws
      rw [← hh1]
      exact (hoff (by rw [hws1]; exact hws)).2
  constructor
  · intro now userID req d s hvalid hsel
    obtain ⟨w1, row, hc, code, w', final, added, hrun, rest⟩ := tail
      { DeviceID := d.DeviceID, Kind := "outgoing", Target := req.Target,
        Message := req.Message, SimSlot := (s.ID : Int), Status := "pending",
        Priority := if req.Priority = 0 then 1 else req.Priority,
        ScheduledAt := if req.ScheduledAt ≠ "" then env.parseRFC3339 req.ScheduledAt else none,
        IsTestMessage := req.IsTestMessage,
        AdminUserID := if req.IsTestMessage then userID else none, Timestamp := now }
      d.DeviceID 200
    refine ⟨code, w', final, added, ?_, rest⟩
    simp only [SendSMSViaGateway, hvalid, hsel, hc, Bool.not_true, Bool.false_eq_true,
      if_false]
    exact hrun
  · intro now uid req device hdev hready
    obtain ⟨w1, row, hc, code, w', final, added, hrun, rest⟩ := tail
      { DeviceID := device.DeviceID, Kind := "outgoing", Target := req.Target,
        Message := "[TEST] " ++ req.Message, SimSlot := req.SimSlot, Status := "pending",
        Priority := 5, IsTestMessage := true, AdminUserID := some uid, Timestamp := now }
      device.DeviceID 200
    refine ⟨code, w', final, added, ?_, rest⟩
    simp only [SendTestSMS, hdev, hready, hc, Bool.not_true, Bool.false_eq_true, if_false]
    exact hrun

/-- Open buffers of the registered connections of `hubTwo`. -/
theorem hubTwo_registeredOpen : hubTwo.RegisteredOpen := by
  unfold Hub.RegisteredOpen; decide

/-- C13 witness: the amended statement at `worldConnected`. -/
theorem gateway_record_sent_iff_handed_to_hub_witness :
    (∀ now userID req d s, isValidPhoneNumber req.Target = true →
      findBestDeviceForSMS worldConnected.db req.Target req.Country req.Operator =
        (some d, some s, none) →
      ∃ code w' final added,
        SendSMSViaGateway sampleEnv worldConnected now userID (some req) = some (code, w') ∧
        w'.db.sms_messages = worldConnected.db.sms_messages ++ [final] ∧
        final.DeviceID = d.DeviceID ∧
        (final.Status = "sent" ∨ final.Status = "failed") ∧
        w'.trace = worldConnected.trace ++ added ∧
        ((∃ f, Effect.hubSend d.DeviceID f ∈ added) ↔ final.Status = "sent") ∧
        (final.Status = "sent" ↔ worldConnected.wsHub = true) ∧
        (worldConnected.wsHub = true →
          ∃ f, worldConnected.hub.sendToDevice d.DeviceID (sampleEnv.jsonMarshal f) =
            some w'.hub) ∧
        (worldConnected.wsHub = false → w'.hub = worldConnected.hub)) ∧
    (∀ now uid req device,
      worldConnected.db.firstDeviceByID req.DeviceID = Except.ok device →
      device.IsReadyForSMS = true →
      ∃ code w' final added,
        SendTestSMS sampleEnv worldConnected now (some uid) (some req) = some (code, w') ∧
        w'.db.sms_messages = worldConnected.db.sms_messages ++ [final] ∧
        final.DeviceID = device.DeviceID ∧
        (final.Status = "sent" ∨ final.Status = "failed") ∧
        w'.trace = worldConnected.trace ++ added ∧
        ((∃ f, Effect.hubSend device.DeviceID f ∈ added) ↔ final.Status = "sent") ∧
        (final.Status = "sent" ↔ worldConnected.wsHub = true) ∧
        (worldConnected.wsHub = true →
          ∃ f, worldConnected.hub.sendToDevice device.DeviceID (sampleEnv.jsonMarshal f) =
            some w'.hub) ∧
        (worldConnected.wsHub = false → w'.hub = worldConnected.hub)) :=
  gateway_record_sent_iff_handed_to_hub sampleEnv worldConnected rfl
    (by intro r hr; simp [worldConnected, dbKeys] at hr) hubTwo_registeredOpen

/-- C13 counterexample: on `worldNoConnection` no connection is registered,
yet the record `SendSMSViaGateway` creates ends in state `sent` (and the
registry is still empty: the frame was enqueued nowhere). -/
theorem SendSMSViaGateway_sent_without_connection :
    worldNoConnection.hub.Clients = [] ∧
    (SendSMSViaGateway sampleEnv worldNoConnection 5 none
        (some { Target := "+905551112233", Message := "hi" })).map
      (fun r => (r.1, r.2.db.sms_messages.map (fun m => m.Status), r.2.hub.Clients)) =
      some (200, ["sent"], []) := by
  decide

/-! ## Delivery reports -/

/-- Looking a row up again after it was rewritten under its key. -/
theorem find?_map_replace (l : List SMSMessage) (p : SMSMessage → Bool) (r0 x : SMSMessage)
    (hfind : l.find? p = some r0) (hid : x.ID = r0.ID) (hpx : p x = true) :
    (l.map (fun r => if r.ID = x.ID then x else r)).find? p = some x := by
  induction l with
  | nil => simp at hfind
  | cons a rest ih =>
    by_cases hpa : p a = true
    · have ha : a = r0 := by simpa [List.find?, hpa] using hfind
      subst ha
      simp [List.find?, hid, hpx]
    · have hpa' : p a = false := by simpa using hpa
      have hrest : rest.find? p = some r0 := by simpa [List.find?, hpa'] using hfind
      by_cases hida : a.ID = x.ID
      · simp [List.find?, hida, hpx]
      · simp [List.find?, hida, hpa', ih hrest]

/-- Rewriting a row twice under the same key keeps the second version. -/
theorem map_replace_twice (l : List SMSMessage) (x y : SMSMessage) (hid : x.ID = y.ID) :
    (l.map (fun r => if r.ID = x.ID then x else r)).map (fun r => if r.ID = y.ID then y else r) =
      l.map (fun r => if r.ID = y.ID then y else r) := by
  rw [List.map_map]
  apply List.map_congr_left
  intro r _
  by_cases hr : r.ID = x.ID
  · simp [hr, hid]
  · simp [hr, hid ▸ hr]

/-- One application of a delivery report to a store that holds a matching
record. -/
theorem ProcessDeliveryReport_found (w : World) (now : Int) (dlr : DeliveryReportBody)
    (r0 : SMSMessage) (hmatch : w.db.firstSMS dlr.DeviceID dlr.InternalLogID = Except.ok r0) :
    (ProcessDeliveryReport w now (some dlr)).1 = 200 ∧
    (ProcessDeliveryReport w now (some dlr)).2.db.sms_messages =
      w.db.sms_messages.map
        (fun r => if r.ID = (dlr.applyTo r0 now).ID then dlr.applyTo r0 now else r) ∧
    (ProcessDeliveryReport w now (some dlr)).2.db.queryError = none ∧
    (ProcessDeliveryReport w now (some dlr)).2.db.firstSMS dlr.DeviceID dlr.InternalLogID =
      Except.ok (dlr.applyTo r0 now) := by
  have hq : w.db.queryError = none := by
    cases h : w.db.queryError with
    | none => rfl
    | some e => simp [DB.firstSMS, firstRow, h] at hmatch
  have hfind : w.db.sms_messages.find? (fun r => decide (r.DeviceID = dlr.DeviceID) &&
      decide (r.InternalLogID = dlr.InternalLogID)) = some r0 := by
    unfold DB.firstSMS firstRow at hmatch
    rw [hq] at hmatch
    cases hf : w.db.sms_messages.find? (fun r => decide (r.DeviceID = dlr.DeviceID) &&
      decide (r.InternalLogID = dlr.InternalLogID)) with
    | none => simp [hf] at hmatch
    | some r => simpa [hf] using hmatch
  have hp0 := List.find?_some hfind
  have hpub : ∀ (v : World) (q : String) (f : Frame), (v.publish q f).1.db = v.db := by
    intro v q f
    unfold World.publish
    cases v.queueError <;> rfl
  have hrun : (ProcessDeliveryReport w now (some dlr)).1 = 200 ∧
      (ProcessDeliveryReport w now (some dlr)).2.db =
        { w.db with sms_messages := (w.db.sms_messages.map
          (fun r => if r.ID = (dlr.applyTo r0 now).ID then dlr.applyTo r0 now else r)) } := by
    simp only [ProcessDeliveryReport, hmatch, World.saveSMS, DB.saveSMS, hq, hpub]
    exact ⟨trivial, rfl⟩
  refine ⟨hrun.1, by rw [hrun.2], by rw [hrun.2]; exact hq, ?_⟩
  rw [hrun.2]
  unfold DB.firstSMS firstRow
  simp only [hq]
  rw [find?_map_replace _ _ r0 (dlr.applyTo r0 now) hfind rfl (by simpa using hp0)]

/-- Applying a report to a record it was already applied to. -/
theorem DeliveryReportBody.applyTo_applyTo (dlr : DeliveryReportBody) (r : SMSMessage)
    (t1 t2 : Int) : dlr.applyTo (dlr.applyTo r t1) t2 = dlr.applyTo r t2 := by
  unfold DeliveryReportBody.applyTo
  by_cases h : dlr.Status = "delivered" <;> simp [h]

/-- C14 (amended): on a store holding a command that matches (deviceID,
internalLogID), applying the same `delivered` report at clock time `t1` and
again at `t2` succeeds both times and leaves the SMS table as a single
application at `t2` would: status, delivery report and error message are
those of the report and the delivered-at timestamp is that of the latest
application, so the second application changes nothing only when
`t2 = t1`. -/
theorem ProcessDeliveryReport_twice_keeps_latest (w : World) (t1 t2 : Int)
    (dlr : DeliveryReportBody) (r0 : SMSMessage) (hstatus : dlr.Status = "delivered")
    (hmatch : w.db.firstSMS dlr.DeviceID dlr.InternalLogID = Except.ok r0) :
    (ProcessDeliveryReport w t1 (some dlr)).1 = 200 ∧
    (ProcessDeliveryReport (ProcessDeliveryReport w t1 (some dlr)).2 t2 (some dlr)).1 = 200 ∧
    (ProcessDeliveryReport w t1 (some dlr)).2.db.firstSMS dlr.DeviceID dlr.InternalLogID =
      Except.ok (dlr.applyTo r0 t1) ∧
    (dlr.applyTo r0 t1).Status = "delivered" ∧ (dlr.applyTo r0 t1).DeliveredAt = some t1 ∧
    (ProcessDeliveryReport (ProcessDeliveryReport w t1 (some dlr)).2 t2 (some dlr)).2.db.firstSMS
        dlr.DeviceID dlr.InternalLogID = Except.ok (dlr.applyTo r0 t2) ∧
    (dlr.applyTo r0 t2).Status = "delivered" ∧ (dlr.applyTo r0 t2).DeliveredAt = some t2 ∧
    (ProcessDeliveryReport (ProcessDeliveryReport w t1 (some dlr)).2 t2
        (some dlr)).2.db.sms_messages =
      (ProcessDeliveryReport w t2 (some dlr)).2.db.sms_messages ∧
    ((ProcessDeliveryReport (ProcessDeliveryReport w t1 (some dlr)).2 t2
        (some dlr)).2.db.sms_messages =
      (ProcessDeliveryReport w t1 (some dlr)).2.db.sms_messages ↔ t1 = t2) := by
  obtain ⟨c1, m1, q1, f1⟩ := ProcessDeliveryReport_found w t1 dlr r0 hmatch
  obtain ⟨c2, m2, q2, f2⟩ := ProcessDeliveryReport_found
    (ProcessDeliveryReport w t1 (some dlr)).2 t2 dlr (dlr.applyTo r0 t1) f1
  obtain ⟨_, m3, _, _⟩ := ProcessDeliveryReport_found w t2 dlr r0 hmatch
  rw [DeliveryReportBody.applyTo_applyTo] at m2 f2
  have hs : ∀ t, (dlr.applyTo r0 t).Status = "delivered" := fun t => hstatus
  have hd : ∀ t, (dlr.applyTo r0 t).DeliveredAt = some t := by
    intro t
    simp [DeliveryReportBody.applyTo, hstatus]
  have hlatest : (ProcessDeliveryReport (ProcessDeliveryReport w t1 (some dlr)).2 t2
      (some dlr)).2.db.sms_messages =
      (ProcessDeliveryReport w t2 (some dlr)).2.db.sms_messages := by
    rw [m2, m1, m3]
    exact map_replace_twice _ _ _ rfl
  refine ⟨c1, c2, f1, hs t1, hd t1, f2, hs t2, hd t2, hlatest, ?_, ?_⟩
  · intro heq
    have hfirst : (ProcessDeliveryReport (ProcessDeliveryReport w t1 (some dlr)).2 t2
        (some dlr)).2.db.firstSMS dlr.DeviceID dlr.InternalLogID =
        (ProcessDeliveryReport w t1 (some dlr)).2.db.firstSMS dlr.DeviceID
          dlr.InternalLogID := by
      unfold DB.firstSMS
      rw [heq, q1, q2]
    rw [f1, f2] at hfirst
    have hrec : dlr.applyTo r0 t2 = dlr.applyTo r0 t1 := by
      injection hfirst
    have := congrArg SMSMessage.DeliveredAt hrec
    rw [hd, hd] at this
    injection this with h
    exact h.symm
  · intro h
    subst h
    rw [hlatest]

/-- C14 witness: the report for `smsOneSent` applied at times 100 and 200 on
`worldOneSent`. -/
theorem ProcessDeliveryReport_twice_keeps_latest_witness :
    (ProcessDeliveryReport
      (ProcessDeliveryReport worldOneSent 100
        (some reportDelivered)).2 200
      (some reportDelivered)).2.db.sms_messages =
    (ProcessDeliveryReport worldOneSent 200
      (some reportDelivered)).2.db.sms_messages :=
  (ProcessDeliveryReport_twice_keeps_latest worldOneSent 100 200
    reportDelivered smsOneSent rfl rfl).2.2.2.2.2.2.2.2.1

/-- C14 counterexample: on `worldOneSent` the report applied at time 100
leaves the record delivered at 100, and the identical report applied again
at time 200 rewrites the delivered-at timestamp to 200. -/
theorem ProcessDeliveryReport_second_application_rewrites_timestamp :
    (ProcessDeliveryReport worldOneSent 100
      (some reportDelivered)).2.db.sms_messages.map
      (fun m => (m.Status, m.DeliveredAt)) = [("delivered", some 100)] ∧
    (ProcessDeliveryReport
      (ProcessDeliveryReport worldOneSent 100
        (some reportDelivered)).2 200
      (some reportDelivered)).2.db.sms_messages.map
      (fun m => (m.Status, m.DeliveredAt)) = [("delivered", some 200)] := by
  decide

/-! ## Correlation of a report with its submission -/

/-- C15: on `worldConnected` the gateway path creates record 1 for `DEV1` with
internal log id 0 and hands `DEV1` a frame that carries 1 as its internal
log id; a report from the connection of `DEV1` echoing 1 finds no record
(and the HTTP report path answers 404), so the record stays `sent`. -/
theorem gateway_report_echoing_log_id_finds_no_record :
    (SendSMSViaGateway sampleEnv worldConnected 5 none (some requestHi)).map
      (fun r =>
        (r.1,
         r.2.db.sms_messages.map (fun m => (m.ID, m.DeviceID, m.InternalLogID, m.Status)),
         r.2.trace.filter Effect.isHubSend,
         (r.2.handleSMSDeliveryReport 1 (some { ID := 1, Stat := "delivered" })).2,
         (r.2.handleSMSDeliveryReport 1
            (some { ID := 1, Stat := "delivered" })).1.db.sms_messages.map
           (fun m => m.Status),
         (ProcessDeliveryReport r.2 9
            (some { DeviceID := "DEV1", InternalLogID := 1, Status := "delivered" })).1)) =
      some (200, [(1, "DEV1", 0, "sent")],
        [Effect.hubSend "DEV1" (Frame.gatewaySMS "+905551112233" "hi" 1 1)],
        some "record not found", ["sent"], 404) := by
  rfl

/-! ## Order of persisting and sending -/

/-- What `World.createUSSD` does: nothing on an unavailable store, otherwise
it appends the row under the next key and logs it. -/
theorem World.createUSSD_cases (w : World) (ussd : USSDCommand) :
    (∃ e, w.createUSSD ussd = Except.error e) ∨
    ∃ w1 row, w.createUSSD ussd = Except.ok (w1, row) ∧ row.Status = ussd.Status ∧
      row.DeviceID = ussd.DeviceID ∧
      w1.db.ussd_commands = w.db.ussd_commands ++ [row] ∧ w1.hub = w.hub ∧
      w1.trace = w.trace ++ [Effect.createUSSD row] := by
  cases hq : w.db.queryError with
  | some e => left; exact ⟨e, by simp [World.createUSSD, DB.createUSSD, hq]⟩
  | none =>
    right
    refine ⟨({ w with db := { w.db with
        ussd_commands := w.db.ussd_commands ++ [{ ussd with ID := w.db.ussd_seq + 1 }],
        ussd_seq := w.db.ussd_seq + 1 } } : World).log
        (Effect.createUSSD { ussd with ID := w.db.ussd_seq + 1 }),
      { ussd with ID := w.db.ussd_seq + 1 }, ?_, rfl, rfl, rfl, rfl, rfl⟩
    simp only [World.createUSSD, DB.createUSSD, hq]

/-- What `World.createSMS` does: nothing on an unavailable store, otherwise
it appends the row under the next key and logs it. -/
theorem World.createSMS_cases (w : World) (sms : SMSMessage) (hs : sms.Status = "pending") :
    (∃ e, w.createSMS sms = Except.error e) ∨
    ∃ w1 row, w.createSMS sms = Except.ok (w1, row) ∧ row.Status = "pending" ∧
      w1.db.sms_messages = w.db.sms_messages ++ [row] ∧ w1.hub = w.hub ∧
      w1.trace = w.trace ++ [Effect.createSMS row] := by
  cases hq : w.db.queryError with
  | some e => left; exact ⟨e, w.createSMS_error sms e hq⟩
  | none =>
    right
    obtain ⟨w1, row, hc, hrow, hm, _, _, _, hh, _, _, ht⟩ := w.createSMS_available sms hq
    exact ⟨w1, row, hc, by rw [hrow]; simp [hs], hm, hh, ht⟩

/-- A publish only adds to the log. -/
theorem World.publish_trace (w : World) (queue : String) (frame : Frame) :
    ∃ added, (w.publish queue frame).1.trace = w.trace ++ added ∧
      (w.publish queue frame).1.db = w.db ∧ (w.publish queue frame).1.hub = w.hub := by
  unfold World.publish
  cases w.queueError with
  | some e => exact ⟨[], by simp, rfl, rfl⟩
  | none => exact ⟨[_], rfl, rfl, rfl⟩

/-- A publish adds its message to the log, or nothing when the queue is
unavailable; it leaves the store and the Hub alone. -/
theorem World.publish_cases (w : World) (queue : String) (frame : Frame) :
    ∃ published, (w.publish queue frame).1.trace = w.trace ++ published ∧
      (published = [] ∨ published = [Effect.publish queue frame]) ∧
      (w.publish queue frame).1.db = w.db ∧ (w.publish queue frame).1.hub = w.hub := by
  unfold World.publish
  cases w.queueError with
  | some e => exact ⟨[], by simp, Or.inl rfl, rfl, rfl⟩
  | none => exact ⟨[_], rfl, Or.inr rfl, rfl, rfl⟩

/-- C16 (amended): on a Hub whose registered connections are open.  When
the store is available, `SendSMS` and `SendUSSD` answer 201 and what they add
to the log of effects is, in this order: the creation of one command record
in state `pending` (for the requested device, under the internal log id of
the frame), the hand-over of the frame to the Hub, and at most a publish to
the queue; the record is in the table afterwards.  When the store is not
available they answer 500 and change nothing: no record, no hand-over.
`DiscoverPhoneNumber` hands its frame to the Hub and persists nothing. -/
theorem submission_persists_pending_before_send (env : Env) (w : World)
    (hopen : w.hub.RegisteredOpen) :
    (∀ now rnd req,
      (w.db.queryError = none →
        ∃ w' row published,
          SendSMS env w now rnd (some req) = some (201, w') ∧
          w'.trace = w.trace ++ Effect.createSMS row :: Effect.hubSend req.DeviceID
            (Frame.sendSMSCommand req.Target req.SimSlot req.Message ((rnd : Int) + 100000)) ::
            published ∧
          row.Status = "pending" ∧ row.DeviceID = req.DeviceID ∧
          row.InternalLogID = (rnd : Int) + 100000 ∧
          w'.db.sms_messages = w.db.sms_messages ++ [row] ∧
          (published = [] ∨ published = [Effect.publish "sms_queue"
            (Frame.queueSMSCommand req.DeviceID req.Target req.Message req.SimSlot
              ((rnd : Int) + 100000))])) ∧
      (∀ err, w.db.queryError = some err →
        SendSMS env w now rnd (some req) = some (500, w))) ∧
    (∀ now rnd req,
      (w.db.queryError = none →
        ∃ w' row published,
          SendUSSD env w now rnd (some req) = some (201, w') ∧
          w'.trace = w.trace ++ Effect.createUSSD row :: Effect.hubSend req.DeviceID
            (Frame.ussdCommand req.USSDCode req.SimSlot ((rnd : Int) + 100000)) ::
            published ∧
          row.Status = "pending" ∧ row.DeviceID = req.DeviceID ∧
          row.InternalLogID = (rnd : Int) + 100000 ∧
          w'.db.ussd_commands = w.db.ussd_commands ++ [row] ∧
          (published = [] ∨ published = [Effect.publish "ussd_queue"
            (Frame.queueUSSDCommand req.DeviceID req.USSDCode req.SimSlot
              ((rnd : Int) + 100000))])) ∧
      (∀ err, w.db.queryError = some err →
        SendUSSD env w now rnd (some req) = some (500, w))) ∧
    (∀ rnd req, ∃ w',
      DiscoverPhoneNumber env w rnd (some req) = some (201, w') ∧ w'.db = w.db ∧
      w'.trace = w.trace ++ [Effect.hubSend req.DeviceID
        (Frame.discoverPhoneNumber req.SimSlot req.USSDCode ((rnd : Int) + 100000))]) := by
  refine ⟨?_, ?_, ?_⟩
  · intro now rnd req
    refine ⟨fun hq => ?_, fun err he => by simp [SendSMS, w.createSMS_error _ err he]⟩
    obtain ⟨w1, row, hc, hrow, hm, _, _, _, hh, _, _, ht⟩ := w.createSMS_available
      { DeviceID := req.DeviceID, Kind := "outgoing", Target := req.Target,
        Message := req.Message, SimSlot := req.SimSlot,
        InternalLogID := (rnd : Int) + 100000, Status := "pending", Timestamp := now } hq
    obtain ⟨w2, hsend, _, hdb2, _, _, ht2⟩ := w1.hubSendMessageToDevice_ok env req.DeviceID
      (Frame.sendSMSCommand req.Target req.SimSlot req.Message ((rnd : Int) + 100000))
      (by rw [hh]; exact hopen)
    obtain ⟨published, hp, hpub, hdb3, _⟩ := w2.publish_cases "sms_queue"
      (Frame.queueSMSCommand req.DeviceID req.Target req.Message req.SimSlot
        ((rnd : Int) + 100000))
    refine ⟨(w2.publish "sms_queue"
      (Frame.queueSMSCommand req.DeviceID req.Target req.Message req.SimSlot
        ((rnd : Int) + 100000))).1, row, published, by simp only [SendSMS, hc, hsend],
      by rw [hp, ht2, ht]; simp, by rw [hrow]; rfl, by rw [hrow], by rw [hrow],
      by rw [hdb3, hdb2, hm], hpub⟩
  · intro now rnd req
    refine ⟨fun hq => ?_, fun err he => by
      simp [SendUSSD, World.createUSSD, DB.createUSSD, he]⟩
    rcases w.createUSSD_cases
      { DeviceID := req.DeviceID, USSDCode := req.USSDCode, SimSlot := req.SimSlot,
        InternalLogID := (rnd : Int) + 100000, Status := "pending", Timestamp := now } with
      ⟨e, he⟩ | ⟨w1, row, hc, hst, hdev, hm, hh, ht⟩
    · simp [World.createUSSD, DB.createUSSD, hq] at he
    · have hlog : row.InternalLogID = (rnd : Int) + 100000 := by
        simp only [World.createUSSD, DB.createUSSD, hq, Except.ok.injEq, Prod.mk.injEq] at hc
        rw [← hc.2]
      obtain ⟨w2, hsend, _, hdb2, _, _, ht2⟩ := w1.hubSendMessageToDevice_ok env req.DeviceID
        (Frame.ussdCommand req.USSDCode req.SimSlot ((rnd : Int) + 100000))
        (by rw [hh]; exact hopen)
      obtain ⟨published, hp, hpub, hdb3, _⟩ := w2.publish_cases "ussd_queue"
        (Frame.queueUSSDCommand req.DeviceID req.USSDCode req.SimSlot ((rnd : Int) + 100000))
      refine ⟨(w2.publish "ussd_queue"
        (Frame.queueUSSDCommand req.DeviceID req.USSDCode req.SimSlot
          ((rnd : Int) + 100000))).1, row, published, by simp only [SendUSSD, hc, hsend],
        by rw [hp, ht2, ht]; simp, hst, hdev, hlog, by rw [hdb3, hdb2, hm], hpub⟩
  · intro rnd req
    obtain ⟨w1, hsend, _, hdb, _, _, ht⟩ := w.hubSendMessageToDevice_ok env req.DeviceID
      (Frame.discoverPhoneNumber req.SimSlot req.USSDCode ((rnd : Int) + 100000)) hopen
    exact ⟨w1, by simp only [DiscoverPhoneNumber, hsend], hdb, ht⟩

/-- C16 witness: the amended statement at `worldConnected`, whose store is
available, with the run of `SendSMS` for `DEV1` there: the record is created
(`pending`, internal log id 100007), then the frame is handed to the Hub and
reaches the buffer of the device's connection, then the queue message is
published. -/
theorem submission_persists_pending_before_send_witness :
    worldConnected.hub.RegisteredOpen ∧ worldConnected.db.queryError = none ∧
    (SendSMS sampleEnv worldConnected 5 7
        (some { DeviceID := "DEV1", Target := "+905551112233", Message := "hi" })).map
      (fun r => (r.1, r.2.trace.map Effect.isHubSend,
        r.2.db.sms_messages.map (fun m => (m.Status, m.InternalLogID)),
        (r.2.hub.heap 1).Send.buf)) =
      some (201, [false, true, false], [("pending", 100007)], ["send_sms"]) ∧
    ((∀ now rnd req,
      (worldConnected.db.queryError = none →
        ∃ w' row published,
          SendSMS sampleEnv worldConnected now rnd (some req) = some (201, w') ∧
          w'.trace = worldConnected.trace ++ Effect.createSMS row ::
            Effect.hubSend req.DeviceID
            (Frame.sendSMSCommand req.Target req.SimSlot req.Message ((rnd : Int) + 100000)) ::
            published ∧
          row.Status = "pending" ∧ row.DeviceID = req.DeviceID ∧
          row.InternalLogID = (rnd : Int) + 100000 ∧
          w'.db.sms_messages = worldConnected.db.sms_messages ++ [row] ∧
          (published = [] ∨ published = [Effect.publish "sms_queue"
            (Frame.queueSMSCommand req.DeviceID req.Target req.Message req.SimSlot
              ((rnd : Int) + 100000))])) ∧
      (∀ err, worldConnected.db.queryError = some err →
        SendSMS sampleEnv worldConnected now rnd (some req) = some (500, worldConnected))) ∧
    (∀ now rnd req,
      (worldConnected.db.queryError = none →
        ∃ w' row published,
          SendUSSD sampleEnv worldConnected now rnd (some req) = some (201, w') ∧
          w'.trace = worldConnected.trace ++ Effect.createUSSD row ::
            Effect.hubSend req.DeviceID
            (Frame.ussdCommand req.USSDCode req.SimSlot ((rnd : Int) + 100000)) ::
            published ∧
          row.Status = "pending" ∧ row.DeviceID = req.DeviceID ∧
          row.InternalLogID = (rnd : Int) + 100000 ∧
          w'.db.ussd_commands = worldConnected.db.ussd_commands ++ [row] ∧
          (published = [] ∨ published = [Effect.publish "ussd_queue"
            (Frame.queueUSSDCommand req.DeviceID req.USSDCode req.SimSlot
              ((rnd : Int) + 100000))])) ∧
      (∀ err, worldConnected.db.queryError = some err →
        SendUSSD sampleEnv worldConnected now rnd (some req) = some (500, worldConnected))) ∧
    (∀ rnd req, ∃ w',
      DiscoverPhoneNumber sampleEnv worldConnected rnd (some req) = some (201, w') ∧
      w'.db = worldConnected.db ∧
      w'.trace = worldConnected.trace ++ [Effect.hubSend req.DeviceID
        (Frame.discoverPhoneNumber req.SimSlot req.USSDCode ((rnd : Int) + 100000))])) :=
  ⟨hubTwo_registeredOpen, rfl, rfl,
    submission_persists_pending_before_send sampleEnv worldConnected hubTwo_registeredOpen⟩

/-- C16 counterexample: on `worldConnected` `DiscoverPhoneNumber` hands a
frame to the Hub for `DEV1` while the store holds no command record, before
or after. -/
theorem DiscoverPhoneNumber_sends_without_record :
    worldConnected.db.sms_messages = [] ∧ worldConnected.db.ussd_commands = [] ∧
    (DiscoverPhoneNumber sampleEnv worldConnected 7
        (some { DeviceID := "DEV1", USSDCode := "*100#" })).map
      (fun r => (r.1, r.2.trace, r.2.db.sms_messages, r.2.db.ussd_commands,
        (r.2.hub.heap 1).Send.buf)) =
      some (201, [Effect.hubSend "DEV1" (Frame.discoverPhoneNumber 0 "*100#" 100007)], [], [],
        ["discover_phone_number"]) := by
  exact ⟨rfl, rfl, rfl⟩

/-! ## Lifecycle invariant -/

/-- A `Save` keeps the statuses admitted when the saved status is. -/
theorem World.saveSMS_statusOK (ok : String → Prop) (w w' : World) (x : SMSMessage)
    (h : w.db.StatusOK ok) (hx : ok x.Status) (hsave : w.saveSMS x = Except.ok w') :
    w'.db.StatusOK ok := by
  unfold World.saveSMS DB.saveSMS at hsave
  cases hq : w.db.queryError with
  | some e => simp [hq] at hsave
  | none =>
    simp only [hq, Except.ok.injEq] at hsave
    subst hsave
    intro r hr
    simp only [World.log, List.mem_map] at hr
    obtain ⟨r0, hr0, rfl⟩ := hr
    by_cases hid : r0.ID = x.ID
    · simpa [hid] using hx
    · simpa [hid] using h r0 hr0

/-- A `Save` with its result ignored keeps the statuses admitted. -/
theorem World.saveSMSIgnored_statusOK (ok : String → Prop) (w : World) (x : SMSMessage)
    (h : w.db.StatusOK ok) (hx : ok x.Status) : (w.saveSMSIgnored x).db.StatusOK ok := by
  unfold World.saveSMSIgnored
  cases hs : w.saveSMS x with
  | error e => exact h
  | ok w' => exact World.saveSMS_statusOK ok w w' x h hx hs

/-- A `Create` of a record in state `pending` keeps the statuses admitted. -/
theorem World.createSMS_statusOK (ok : String → Prop) (w w1 : World) (sms row : SMSMessage)
    (h : w.db.StatusOK ok) (hp : ok "pending") (hs : sms.Status = "pending")
    (hc : w.createSMS sms = Except.ok (w1, row)) :
    w1.db.StatusOK ok ∧ row.Status = "pending" := by
  rcases w.createSMS_cases sms hs with ⟨e, he⟩ | ⟨w1', row', hc', hst, hm, _, _⟩
  · rw [he] at hc; cases hc
  · rw [hc'] at hc
    cases hc
    refine ⟨?_, hst⟩
    intro r hr
    rw [hm] at hr
    rcases List.mem_append.mp hr with hr | hr
    · exact h r hr
    · simp only [List.mem_singleton] at hr
      rw [hr, hst]; exact hp

/-- A hand-over to the Hub leaves the store alone. -/
theorem World.hubSendMessageToDevice_db (env : Env) (w w' : World) (deviceID : String)
    (frame : Frame) (err : Option String)
    (h : w.hubSendMessageToDevice env deviceID frame = some (w', err)) : w'.db = w.db := by
  unfold World.hubSendMessageToDevice at h
  cases hs : w.hub.SendMessageToDevice deviceID (Except.ok (env.jsonMarshal frame)) with
  | none => simp [hs] at h
  | some r =>
    obtain ⟨hub', e⟩ := r
    simp only [hs, Option.some.injEq, Prod.mk.injEq] at h
    rw [← h.1]; rfl

/-- The tail of the gateway paths keeps the statuses admitted. -/
theorem sendAndMark_statusOK (ok : String → Prop) (env : Env) (w w' : World)
    (deviceID : String) (row : SMSMessage) (okCode code : Nat) (h : w.db.StatusOK ok)
    (hsent : ok "sent") (hfailed : ok "failed")
    (hrun : sendAndMark env w deviceID row okCode = some (code, w')) : w'.db.StatusOK ok := by
  unfold sendAndMark at hrun
  cases hs : sendSMSToDevice env w deviceID row with
  | none => simp [hs] at hrun
  | some r =>
    obtain ⟨w2, err⟩ := r
    have hdb : w2.db = w.db := by
      unfold sendSMSToDevice at hs
      by_cases hws : w.wsHub = true
      · simp only [hws, Bool.not_true, Bool.false_eq_true, if_false] at hs
        exact World.hubSendMessageToDevice_db env w w2 _ _ err hs
      · have hws' : w.wsHub = false := by simpa using hws
        simp only [hws', Bool.not_false, if_true, Option.some.injEq, Prod.mk.injEq] at hs
        rw [← hs.1]
    have h2 : w2.db.StatusOK ok := by rw [hdb]; exact h
    cases err with
    | none =>
      simp only [hs, Option.some.injEq, Prod.mk.injEq] at hrun
      rw [← hrun.2]
      exact World.saveSMSIgnored_statusOK ok w2 _ h2 hsent
    | some e =>
      simp only [hs, Option.some.injEq, Prod.mk.injEq] at hrun
      rw [← hrun.2]
      exact World.saveSMSIgnored_statusOK ok w2 _ h2 hfailed

/-- Every call keeps the statuses admitted, as long as `ok` admits
`pending`, `sent`, `failed` and the status the call reports. -/
theorem World.lifecycleStep_statusOK (ok : String → Prop) (env : Env) (w w' : World)
    (e : LifecycleEvent) (hp : ok "pending") (hsent : ok "sent") (hfailed : ok "failed")
    (hrep : ∀ s, e.reported = some s → ok s) (h : w.db.StatusOK ok)
    (hstep : w.lifecycleStep env e = some w') : w'.db.StatusOK ok := by
  cases e with
  | sendSMS now rnd body =>
    simp only [World.lifecycleStep, Option.map_eq_some'] at hstep
    obtain ⟨⟨code, w''⟩, hrun, rfl⟩ := hstep
    cases body with
    | none => simp only [SendSMS, Option.some.injEq, Prod.mk.injEq] at hrun; rw [← hrun.2]; exact h
    | some req =>
      simp only [SendSMS] at hrun
      cases hc : w.createSMS
        { DeviceID := req.DeviceID, Kind := "outgoing", Target := req.Target,
          Message := req.Message, SimSlot := req.SimSlot,
          InternalLogID := (rnd : Int) + 100000, Status := "pending", Timestamp := now } with
      | error err =>
        simp only [hc, Option.some.injEq, Prod.mk.injEq] at hrun; rw [← hrun.2]; exact h
      | ok r =>
        obtain ⟨w1, row⟩ := r
        have h1 := (World.createSMS_statusOK ok w w1 _ row h hp rfl hc).1
        simp only [hc] at hrun
        cases hs : w1.hubSendMessageToDevice env req.DeviceID
          (Frame.sendSMSCommand req.Target req.SimSlot req.Message ((rnd : Int) + 100000)) with
        | none => simp [hs] at hrun
        | some r2 =>
          obtain ⟨w2, err⟩ := r2
          have h2 : w2.db.StatusOK ok := by
            rw [World.hubSendMessageToDevice_db env w1 w2 _ _ err hs]; exact h1
          cases err with
          | none =>
            simp only [hs, Option.some.injEq, Prod.mk.injEq] at hrun
            rw [← hrun.2]
            obtain ⟨_, _, hdb, _⟩ := w2.publish_trace "sms_queue"
              (Frame.queueSMSCommand req.DeviceID req.Target req.Message req.SimSlot
                ((rnd : Int) + 100000))
            show DB.StatusOK ok (w2.publish _ _).1.db
            rw [hdb]; exact h2
          | some e' =>
            simp only [hs, Option.some.injEq, Prod.mk.injEq] at hrun
            rw [← hrun.2]
            exact World.saveSMSIgnored_statusOK ok w2 _ h2 hfailed
  | sendSMSViaGateway now userID body =>
    simp only [World.lifecycleStep, Option.map_eq_some'] at hstep
    obtain ⟨⟨code, w''⟩, hrun, rfl⟩ := hstep
    cases body with
    | none =>
      simp only [SendSMSViaGateway, Option.some.injEq, Prod.mk.injEq] at hrun
      rw [← hrun.2]; exact h
    | some req =>
      simp only [SendSMSViaGateway] at hrun
      by_cases hv : isValidPhoneNumber req.Target = true
      · simp only [hv, Bool.not_true, Bool.false_eq_true, if_false] at hrun
        rcases hsel : findBestDeviceForSMS w.db req.Target req.Country req.Operator with
          ⟨d, s, e⟩
        rw [hsel] at hrun
        cases e with
        | some err =>
          simp only [Option.some.injEq, Prod.mk.injEq] at hrun
          rw [← hrun.2]; exact h
        | none =>
          cases d with
          | none => simp at hrun
          | some device =>
            cases s with
            | none => simp at hrun
            | some simCard =>
              simp only at hrun
              cases hc : w.createSMS
                { DeviceID := device.DeviceID, Kind := "outgoing", Target := req.Target,
                  Message := req.Message, SimSlot := (simCard.ID : Int), Status := "pending",
                  Priority := if req.Priority = 0 then 1 else req.Priority,
                  ScheduledAt :=
                    if req.ScheduledAt ≠ "" then env.parseRFC3339 req.ScheduledAt else none,
                  IsTestMessage := req.IsTestMessage,
                  AdminUserID := if req.IsTestMessage then userID else none,
                  Timestamp := now } with
              | error err =>
                simp only [hc, Option.some.injEq, Prod.mk.injEq] at hrun
                rw [← hrun.2]; exact h
              | ok r =>
                obtain ⟨w1, row⟩ := r
                have h1 := (World.createSMS_statusOK ok w w1 _ row h hp rfl hc).1
                simp only [hc] at hrun
                exact sendAndMark_statusOK ok env w1 w'' _ row 200 code h1 hsent hfailed hrun
      · have hv' : isValidPhoneNumber req.Target = false := by simpa using hv
        simp only [hv', Bool.not_false, if_true, Option.some.injEq, Prod.mk.injEq] at hrun
        rw [← hrun.2]; exact h
  | sendTestSMS now userID body =>
    simp only [World.lifecycleStep, Option.map_eq_some'] at hstep
    obtain ⟨⟨code, w''⟩, hrun, rfl⟩ := hstep
    cases body with
    | none =>
      simp only [SendTestSMS, Option.some.injEq, Prod.mk.injEq] at hrun
      rw [← hrun.2]; exact h
    | some req =>
      cases userID with
      | none =>
        simp only [SendTestSMS, Option.some.injEq, Prod.mk.injEq] at hrun
        rw [← hrun.2]; exact h
      | some uid =>
        simp only [SendTestSMS] at hrun
        cases hd : w.db.firstDeviceByID req.DeviceID with
        | error err =>
          simp only [hd, Option.some.injEq, Prod.mk.injEq] at hrun
          rw [← hrun.2]; exact h
        | ok device =>
          simp only [hd] at hrun
          by_cases hr : device.IsReadyForSMS = true
          · simp only [hr, Bool.not_true, Bool.false_eq_true, if_false] at hrun
            cases hc : w.createSMS
              { DeviceID := device.DeviceID, Kind := "outgoing", Target := req.Target,
                Message := "[TEST] " ++ req.Message, SimSlot := req.SimSlot,
                Status := "pending", Priority := 5, IsTestMessage := true,
                AdminUserID := some uid, Timestamp := now } with
            | error err =>
              simp only [hc, Option.some.injEq, Prod.mk.injEq] at hrun
              rw [← hrun.2]; exact h
            | ok r =>
              obtain ⟨w1, row⟩ := r
              have h1 := (World.createSMS_statusOK ok w w1 _ row h hp rfl hc).1
              simp only [hc] at hrun
              exact sendAndMark_statusOK ok env w1 w'' _ row 200 code h1 hsent hfailed hrun
          · have hr' : device.IsReadyForSMS = false := by simpa using hr
            simp only [hr', Bool.not_false, if_true, Option.some.injEq, Prod.mk.injEq] at hrun
            rw [← hrun.2]; exact h
  | deviceReport p data =>
    simp only [World.lifecycleStep, Option.some.injEq] at hstep
    subst hstep
    cases data with
    | none => exact h
    | some dlr =>
      simp only [World.handleSMSDeliveryReport]
      cases hf : w.db.firstSMS (w.hub.heap p).DeviceID dlr.ID with
      | error err => exact h
      | ok sms =>
        simp only
        cases hs : w.saveSMS
          { sms with Status := dlr.Stat, DeliveryReport := deliveryReportText dlr } with
        | error err => exact h
        | ok w1 => exact World.saveSMS_statusOK ok w w1 _ h (hrep dlr.Stat rfl) hs
  | httpReport now body =>
    simp only [World.lifecycleStep, Option.some.injEq] at hstep
    subst hstep
    cases body with
    | none => exact h
    | some dlr =>
      simp only [ProcessDeliveryReport]
      cases hf : w.db.firstSMS dlr.DeviceID dlr.InternalLogID with
      | error err => exact h
      | ok sms =>
        simp only
        cases hs : w.saveSMS (dlr.applyTo sms now) with
        | error err => exact h
        | ok w1 =>
          simp only
          obtain ⟨_, _, hdb, _⟩ := w1.publish_trace "deliveryreport"
            (Frame.queueDeliveryReport (dlr.applyTo sms now).ID dlr.DeviceID
              (dlr.applyTo sms now).Target dlr.Status dlr.DeliveryReport dlr.ErrorMessage
              (dlr.applyTo sms now).DeliveredAt (dlr.applyTo sms now).IsTestMessage
              dlr.Timestamp)
          show DB.StatusOK ok (w1.publish _ _).1.db
          rw [hdb]
          exact World.saveSMS_statusOK ok w w1 _ h (hrep dlr.Status rfl) hs

/-- A sequence of calls keeps the statuses admitted. -/
theorem World.lifecycleRun_statusOK (ok : String → Prop) (env : Env)
    (hp : ok "pending") (hsent : ok "sent") (hfailed : ok "failed")
    (events : List LifecycleEvent) :
    ∀ w w' : World, (∀ e ∈ events, ∀ s, e.reported = some s → ok s) → w.db.StatusOK ok →
      World.lifecycleRun env w events = some w' → w'.db.StatusOK ok := by
  induction events with
  | nil =>
    intro w w' _ h hrun
    simp only [World.lifecycleRun, Option.some.injEq] at hrun
    rw [← hrun]; exact h
  | cons e rest ih =>
    intro w w' hrep h hrun
    simp only [World.lifecycleRun] at hrun
    cases hs : w.lifecycleStep env e with
    | none => simp [hs] at hrun
    | some w1 =>
      simp only [hs] at hrun
      exact ih w1 w' (fun e' he' => hrep e' (List.mem_cons_of_mem _ he'))
        (World.lifecycleStep_statusOK ok env w w1 e hp hsent hfailed
          (hrep e (List.mem_cons_self _ _)) h hs) hrun

/-- What the handlers can write into the status column: starting from a
store whose SMS records are `pending`, `sent` or `failed`, after any
sequence of submissions, delivery reports from device connections and HTTP
delivery reports, the status of every SMS record is `pending`, `sent`,
`failed` or the status string carried by one of the delivery reports of the
sequence, whatever that string is. -/
theorem sms_status_pending_sent_failed_or_reported (env : Env) (w w' : World)
    (events : List LifecycleEvent)
    (hinit : ∀ r ∈ w.db.sms_messages,
      r.Status = "pending" ∨ r.Status = "sent" ∨ r.Status = "failed")
    (hrun : World.lifecycleRun env w events = some w') :
    ∀ r ∈ w'.db.sms_messages,
      r.Status = "pending" ∨ r.Status = "sent" ∨ r.Status = "failed" ∨
      ∃ e ∈ events, e.reported = some r.Status :=
  World.lifecycleRun_statusOK
    (fun s => s = "pending" ∨ s = "sent" ∨ s = "failed" ∨ ∃ e ∈ events, e.reported = some s)
    env (Or.inl rfl) (Or.inr (Or.inl rfl)) (Or.inr (Or.inr (Or.inl rfl))) events w w'
    (fun e he s hs => Or.inr (Or.inr (Or.inr ⟨e, he, hs⟩)))
    (fun r hr => by
      rcases hinit r hr with h | h | h
      · exact Or.inl h
      · exact Or.inr (Or.inl h)
      · exact Or.inr (Or.inr (Or.inl h)))
    hrun

/-- The preceding statement for the run of `eventsDelivrd` on
`worldConnected`, whose store holds no SMS record at the start. -/
theorem sms_status_pending_sent_failed_or_reported_on_eventsDelivrd :
    ∃ w', World.lifecycleRun sampleEnv worldConnected eventsDelivrd = some w' ∧
      ∀ r ∈ w'.db.sms_messages,
        r.Status = "pending" ∨ r.Status = "sent" ∨ r.Status = "failed" ∨
        ∃ e ∈ eventsDelivrd, e.reported = some r.Status :=
  ⟨_, rfl, sms_status_pending_sent_failed_or_reported sampleEnv worldConnected _
    eventsDelivrd (by intro r hr; simp [worldConnected, dbKeys] at hr) rfl⟩

/-- C17: the status column is documented to hold `pending`, `sent`,
`delivered` or `failed`, but both report handlers copy the status string of
the report into the record without checking it.  After the run of
`eventsDelivrd` on `worldConnected` (a submission through `SendSMS`, then a
report with `stat` `DELIVRD` from the connection of the device) the only SMS
record has the status `DELIVRD`; and `ProcessDeliveryReport` with the status
`DELIVRD` for the record of `worldOneSent` answers 200 and leaves that
record with the status `DELIVRD`.  `DELIVRD` is none of the four. -/
theorem sms_status_after_report_is_reported_string :
    (World.lifecycleRun sampleEnv worldConnected eventsDelivrd).map
      (fun w' => w'.db.sms_messages.map (fun m => m.Status)) = some ["DELIVRD"] ∧
    worldOneSent.db.sms_messages.map (fun m => m.Status) = ["sent"] ∧
    (ProcessDeliveryReport worldOneSent 50 (some reportDELIVRD)).1 = 200 ∧
    (ProcessDeliveryReport worldOneSent 50 (some reportDELIVRD)).2.db.sms_messages.map
      (fun m => m.Status) = ["DELIVRD"] ∧
    "DELIVRD" ∉ ["pending", "sent", "delivered", "failed"] := by
  exact ⟨rfl, rfl, rfl, rfl, by decide⟩

/-! ## Handshake -/

/-- The lookup by connect-key returns the first record that carries the key. -/
theorem find?_connectKey_split (pre post : List Device) (device : Device) (k : String)
    (hpre : ∀ d ∈ pre, d.ConnectKey ≠ k) (hkey : device.ConnectKey = k) :
    (pre ++ device :: post).find? (fun d => decide (d.ConnectKey = k)) = some device := by
  induction pre with
  | nil => simp [List.find?, hkey]
  | cons a rest ih =>
    have ha : a.ConnectKey ≠ k := hpre a (List.mem_cons_self _ _)
    simp only [List.cons_append, List.find?, ha, decide_False]
    exact ih (fun d hd => hpre d (List.mem_cons_of_mem _ hd))

/-- The lookup by connect-key fails when no record carries the key. -/
theorem find?_connectKey_none (l : List Device) (k : String)
    (hno : ∀ d ∈ l, d.ConnectKey ≠ k) :
    l.find? (fun d => decide (d.ConnectKey = k)) = none := by
  induction l with
  | nil => rfl
  | cons a rest ih =>
    have ha : a.ConnectKey ≠ k := hno a (List.mem_cons_self _ _)
    simp only [List.find?, ha, decide_False]
    exact ih (fun d hd => hno d (List.mem_cons_of_mem _ hd))

/-- `sendMessage` on a client whose buffer is open and has room. -/
theorem World.clientSendMessage_of_room (env : Env) (w : World) (p : Ptr) (frame : Frame)
    (hopen : (w.hub.heap p).Send.closed = false)
    (hroom : (w.hub.heap p).Send.buf.length < (w.hub.heap p).Send.cap) :
    w.clientSendMessage env p frame =
      some ({ w with hub := w.hub.setSend p { (w.hub.heap p).Send with
        buf := (w.hub.heap p).Send.buf ++ [env.jsonMarshal frame] } }, none) := by
  simp [World.clientSendMessage, Chan.trySend_of_room _ _ hopen hroom]

/-- The handshake when no device record carries the key. -/
theorem World.handleAuth_no_match (env : Env) (w : World) (p : Ptr) (now : Int) (k : String)
    (hq : w.db.queryError = none)
    (hopen : (w.hub.heap p).Send.closed = false)
    (hroom : (w.hub.heap p).Send.buf.length < (w.hub.heap p).Send.cap)
    (hno : ∀ d ∈ w.db.devices, d.ConnectKey ≠ k) :
    w.handleAuth env p now (some { ConnectKey := k }) =
      some ({ w with hub := w.hub.setSend p { (w.hub.heap p).Send with
        buf := (w.hub.heap p).Send.buf ++
          [env.jsonMarshal (Frame.authResponse false "" "" "")] } }, none) := by
  simp only [World.handleAuth, hq, find?_connectKey_none _ k hno]
  exact w.clientSendMessage_of_room env p _ hopen hroom

/-- The handshake when `device` is the first record that carries the key. -/
theorem World.handleAuth_match (env : Env) (w : World) (p : Ptr) (now : Int) (k : String)
    (pre post : List Device) (device : Device)
    (hq : w.db.queryError = none)
    (hopen : (w.hub.heap p).Send.closed = false)
    (hroom : (w.hub.heap p).Send.buf.length < (w.hub.heap p).Send.cap)
    (hsplit : w.db.devices = pre ++ device :: post)
    (hpre : ∀ d ∈ pre, d.ConnectKey ≠ k) (hkey : device.ConnectKey = k) :
    ∃ w', w.handleAuth env p now (some { ConnectKey := k }) = some (w', none) ∧
      w'.hub.heap p =
        { ID := (w.hub.heap p).ID, DeviceID := device.DeviceID,
          Send := { (w.hub.heap p).Send with
            buf := (w.hub.heap p).Send.buf ++ [env.jsonMarshal
              (Frame.authResponse true device.SiteName device.GroupName device.DeviceName)] } } ∧
      (∀ q, q ≠ p → w'.hub.heap q = w.hub.heap q) ∧
      w'.hub.Clients = w.hub.Clients ∧ w'.hub.deviceStatus = w.hub.deviceStatus ∧
      w'.hub.deviceConnection = w.hub.deviceConnection ∧
      w'.db.devices = w.db.devices.map
        (fun r => if r.ID = device.ID then { device with LastSeen := now } else r) ∧
      w'.db.sms_messages = w.db.sms_messages := by
  have hfind := find?_connectKey_split pre post device k hpre hkey
  rw [← hsplit] at hfind
  simp only [World.handleAuth, hq, hfind, DB.saveDevice]
  rw [World.clientSendMessage_of_room]
  · refine ⟨_, rfl, ?_, ?_, rfl, rfl, rfl, rfl, rfl⟩
    · simp [Hub.setSend, Hub.store]
    · intro q hq'
      simp [Hub.setSend, Hub.store, hq']
  · simpa [Hub.store] using hopen
  · simpa [Hub.store] using hroom

/-- Split the device table at the first record that carries the key. -/
theorem exists_first_connectKey (l : List Device) (k : String) :
    (∀ d ∈ l, d.ConnectKey ≠ k) ∨
    ∃ pre device post, l = pre ++ device :: post ∧ (∀ d ∈ pre, d.ConnectKey ≠ k) ∧
      device.ConnectKey = k := by
  induction l with
  | nil => left; simp
  | cons a rest ih =>
    by_cases ha : a.ConnectKey = k
    · right; exact ⟨[], a, rest, rfl, by simp, ha⟩
    · rcases ih with hno | ⟨pre, device, post, hsplit, hpre, hk⟩
      · left
        intro d hd
        rcases List.mem_cons.mp hd with rfl | hd
        · exact ha
        · exact hno d hd
      · right
        refine ⟨a :: pre, device, post, by simp [hsplit], ?_, hk⟩
        intro d hd
        rcases List.mem_cons.mp hd with rfl | hd
        · exact ha
        · exact hpre d hd

/-- C18 (amended): for a session whose outbound buffer is open and has
room.  When the store answers the lookup, `handleAuth` on an auth message
with connect-key `k` returns no error and appends exactly one
`auth_response` to the session's buffer; its success flag is true exactly
when some device record carries `k`; on a match the session's deviceID
becomes the deviceID of the (first) record carrying `k` and the response
carries that record's site, group and device names; without a match the
deviceID is unchanged; in both cases the buffer stays open, the registry map
and all other client objects are unchanged.  When the lookup fails with an
error of the store, `handleAuth` returns that error and changes nothing: no
`auth_response` is enqueued and the deviceID stays as it was. -/
theorem handleAuth_replies_once_unless_lookup_fails (env : Env) (w : World) (p : Ptr)
    (now : Int) (k : String)
    (hopen : (w.hub.heap p).Send.closed = false)
    (hroom : (w.hub.heap p).Send.buf.length < (w.hub.heap p).Send.cap) :
    (w.db.queryError = none →
      ∃ w' success siteName groupName deviceName,
        w.handleAuth env p now (some { ConnectKey := k }) = some (w', none) ∧
        (w'.hub.heap p).Send.buf = (w.hub.heap p).Send.buf ++
          [env.jsonMarshal (Frame.authResponse success siteName groupName deviceName)] ∧
        (success = true ↔ ∃ d ∈ w.db.devices, d.ConnectKey = k) ∧
        (∀ pre device post, w.db.devices = pre ++ device :: post →
          (∀ d ∈ pre, d.ConnectKey ≠ k) → device.ConnectKey = k →
          (w'.hub.heap p).DeviceID = device.DeviceID ∧ siteName = device.SiteName ∧
          groupName = device.GroupName ∧ deviceName = device.DeviceName) ∧
        ((∀ d ∈ w.db.devices, d.ConnectKey ≠ k) →
          (w'.hub.heap p).DeviceID = (w.hub.heap p).DeviceID) ∧
        (w'.hub.heap p).Send.closed = false ∧ (w'.hub.heap p).ID = (w.hub.heap p).ID ∧
        w'.hub.Clients = w.hub.Clients ∧ (∀ q, q ≠ p → w'.hub.heap q = w.hub.heap q)) ∧
    (∀ e, w.db.queryError = some e →
      w.handleAuth env p now (some { ConnectKey := k }) = some (w, some e)) := by
  refine ⟨fun hq => ?_, fun e he => by simp only [World.handleAuth, he]⟩
  rcases exists_first_connectKey w.db.devices k with hno | ⟨pre, device, post, hsplit, hpre, hk⟩
  · refine ⟨_, false, "", "", "", w.handleAuth_no_match env p now k hq hopen hroom hno,
      by simp [Hub.setSend, Hub.store], ?_, ?_, ?_, by simp [Hub.setSend, Hub.store, hopen],
      by simp [Hub.setSend, Hub.store], rfl, ?_⟩
    · constructor
      · intro h; cases h
      · rintro ⟨d, hd, hdk⟩
        exact absurd hdk (hno d hd)
    · intro pre device post hsplit _ hk
      exact absurd hk (hno device (by rw [hsplit]; simp))
    · intro _
      simp [Hub.setSend, Hub.store]
    · intro q hq'
      simp [Hub.setSend, Hub.store, hq']
  · obtain ⟨w', hrun, hheap, hother, hclients, _, _, _, _⟩ :=
      w.handleAuth_match env p now k pre post device hq hopen hroom hsplit hpre hk
    refine ⟨w', true, device.SiteName, device.GroupName, device.DeviceName, hrun,
      by rw [hheap], ?_, ?_, ?_, by rw [hheap]; exact hopen, by rw [hheap], hclients, hother⟩
    · constructor
      · intro _
        exact ⟨device, by rw [hsplit]; simp, hk⟩
      · intro _; rfl
    · intro pre' device' post' hsplit' hpre' hk'
      have h1 := find?_connectKey_split pre post device k hpre hk
      have h2 := find?_connectKey_split pre' post' device' k hpre' hk'
      rw [← hsplit] at h1
      rw [← hsplit'] at h2
      rw [h1] at h2
      injection h2 with h2
      subst h2
      rw [hheap]
      exact ⟨rfl, rfl, rfl, rfl⟩
    · intro hno
      exact absurd hk (hno device (by rw [hsplit]; simp))

/-- C18 witness: the handshake of the registered fresh client of
`worldRegistered` with the connect-key `K1` of device `DEV1`. -/
theorem handleAuth_replies_once_unless_lookup_fails_witness :
    (worldRegistered.hub.heap 1).Send.closed = false ∧
    (worldRegistered.hub.heap 1).Send.buf.length < (worldRegistered.hub.heap 1).Send.cap ∧
    ((worldRegistered.db.queryError = none →
      ∃ w' success siteName groupName deviceName,
        worldRegistered.handleAuth sampleEnv 1 9 (some { ConnectKey := "K1" }) =
          some (w', none) ∧
        (w'.hub.heap 1).Send.buf = (worldRegistered.hub.heap 1).Send.buf ++
          [sampleEnv.jsonMarshal (Frame.authResponse success siteName groupName deviceName)] ∧
        (success = true ↔ ∃ d ∈ worldRegistered.db.devices, d.ConnectKey = "K1") ∧
        (∀ pre device post, worldRegistered.db.devices = pre ++ device :: post →
          (∀ d ∈ pre, d.ConnectKey ≠ "K1") → device.ConnectKey = "K1" →
          (w'.hub.heap 1).DeviceID = device.DeviceID ∧ siteName = device.SiteName ∧
          groupName = device.GroupName ∧ deviceName = device.DeviceName) ∧
        ((∀ d ∈ worldRegistered.db.devices, d.ConnectKey ≠ "K1") →
          (w'.hub.heap 1).DeviceID = (worldRegistered.hub.heap 1).DeviceID) ∧
        (w'.hub.heap 1).Send.closed = false ∧
        (w'.hub.heap 1).ID = (worldRegistered.hub.heap 1).ID ∧
        w'.hub.Clients = worldRegistered.hub.Clients ∧
        (∀ q, q ≠ 1 → w'.hub.heap q = worldRegistered.hub.heap q)) ∧
    (∀ e, worldRegistered.db.queryError = some e →
      worldRegistered.handleAuth sampleEnv 1 9 (some { ConnectKey := "K1" }) =
        some (worldRegistered, some e))) :=
  ⟨rfl, by decide,
    handleAuth_replies_once_unless_lookup_fails sampleEnv worldRegistered 1 9 "K1" rfl
      (by decide)⟩

/-- C18 counterexample: on `worldStoreDown` the session at address 1 has an
open, empty outbound buffer and a device record carries the connect-key
`K1`, but the store answers the lookup with an error: `handleAuth` returns
that error, enqueues no `auth_response` (the buffer stays empty) and leaves
the deviceID empty. -/
theorem handleAuth_lookup_error_sends_no_reply :
    (worldStoreDown.hub.heap 1).Send = Chan.make 256 ∧
    (worldStoreDown.db.devices.map (fun d => d.ConnectKey)) = ["K1", "K2"] ∧
    (worldStoreDown.handleAuth sampleEnv 1 9 (some { ConnectKey := "K1" })).map
      (fun r => (r.2, (r.1.hub.heap 1).Send, (r.1.hub.heap 1).DeviceID)) =
      some (some "connection refused", Chan.make 256, "") := by
  exact ⟨rfl, rfl, rfl⟩

/-! ## Status cache after the handshake -/

/-- C19: on `worldRegistered` the client at address 1 has been registered
fresh from `NewClient`; after its successful handshake with the connect-key
of `DEV1` it is bound to `DEV1`, yet the status cache has no entry for `DEV1`:
the `online` entry written at registration is filed under the empty device
id. -/
theorem status_cache_after_register_and_handshake :
    (worldRegistered.hub.Clients, (worldRegistered.hub.heap 1).DeviceID,
      worldRegistered.hub.deviceStatus "") = ([("c1", 1)], "", some "online") ∧
    (worldRegistered.handleAuth sampleEnv 1 9 (some { ConnectKey := "K1" })).map
      (fun r => (r.2, (r.1.hub.heap 1).DeviceID, (r.1.hub.heap 1).Send.buf,
        r.1.hub.deviceStatus "DEV1", r.1.hub.deviceStatus "")) =
      some (none, "DEV1", ["auth_response"], none, some "online") := by
  exact ⟨rfl, rfl⟩

/-! ## Binding of a connection to a device -/

/-- A `Save(&sms)` leaves the Hub alone. -/
theorem World.saveSMS_hub (w w' : World) (x : SMSMessage)
    (h : w.saveSMS x = Except.ok w') : w'.hub = w.hub := by
  unfold World.saveSMS at h
  cases hs : w.db.saveSMS x with
  | error e => simp [hs] at h
  | ok db' =>
    simp only [hs, Except.ok.injEq] at h
    rw [← h]; rfl

/-- A `Save(&ussd)` leaves the Hub alone. -/
theorem World.saveUSSD_hub (w w' : World) (x : USSDCommand)
    (h : w.saveUSSD x = Except.ok w') : w'.hub = w.hub := by
  unfold World.saveUSSD at h
  cases hs : w.db.saveUSSD x with
  | error e => simp [hs] at h
  | ok db' =>
    simp only [hs, Except.ok.injEq] at h
    rw [← h]; rfl

/-- A `Create(&sms)` leaves the Hub alone. -/
theorem World.createSMS_hub (w w' : World) (x row : SMSMessage)
    (h : w.createSMS x = Except.ok (w', row)) : w'.hub = w.hub := by
  unfold World.createSMS at h
  cases hs : w.db.createSMS x with
  | error e => simp [hs] at h
  | ok r =>
    obtain ⟨db', row'⟩ := r
    simp only [hs, Except.ok.injEq, Prod.mk.injEq] at h
    rw [← h.1]; rfl

/-- The fact that `handleDeviceRegistration` leaves the Hub alone. -/
theorem World.handleDeviceRegistration_hub (w : World) (now : Int)
    (data : Option DeviceRegistrationPayload) :
    (w.handleDeviceRegistration now data).1.hub = w.hub := by
  unfold World.handleDeviceRegistration
  repeat' split
  all_goals rfl

/-- The fact that `handleDeviceStatus` leaves the Hub alone. -/
theorem World.handleDeviceStatus_hub (w : World) (data : Option DeviceRegistrationPayload) :
    (w.handleDeviceStatus data).1.hub = w.hub := by
  unfold World.handleDeviceStatus
  repeat' split
  all_goals rfl

/-- The fact that `handleIncomingSMS` leaves the Hub alone. -/
theorem World.handleIncomingSMS_hub (w : World) (p : Ptr) (data : Option IncomingSMS) :
    (w.handleIncomingSMS p data).1.hub = w.hub := by
  unfold World.handleIncomingSMS
  split
  · rfl
  · split
    · rfl
    · rename_i w1 row hc
      obtain ⟨_, _, _, hh⟩ := w1.publish_trace "sms_queue"
        (Frame.queueIncomingSMS (w.hub.heap p).DeviceID _ _ _)
      rw [hh]
      exact World.createSMS_hub w w1 _ row hc

/-- The fact that `handleSMSDeliveryReport` leaves the Hub alone. -/
theorem World.handleSMSDeliveryReport_hub (w : World) (p : Ptr)
    (data : Option SMSDeliveryReport) : (w.handleSMSDeliveryReport p data).1.hub = w.hub := by
  unfold World.handleSMSDeliveryReport
  split
  · rfl
  · split
    · rfl
    · split
      · rfl
      · rename_i w1 hs
        exact World.saveSMS_hub w w1 _ hs

/-- The fact that `handleUSSDResult` leaves the Hub alone. -/
theorem World.handleUSSDResult_hub (w : World) (p : Ptr) (data : Option USSDResult) :
    (w.handleUSSDResult p data).1.hub = w.hub := by
  unfold World.handleUSSDResult
  split
  · rfl
  · split
    · rfl
    · split
      · rfl
      · rename_i w1 hs
        exact World.saveUSSD_hub w w1 _ hs

/-- The fact that `handlePhoneNumberResult` leaves the Hub alone. -/
theorem World.handlePhoneNumberResult_hub (w : World) (p : Ptr)
    (data : Option PhoneNumberResult) : (w.handlePhoneNumberResult p data).1.hub = w.hub := by
  unfold World.handlePhoneNumberResult World.withStore
  repeat' split
  all_goals rfl

/-- The fact that `handleClientAlarm` leaves the Hub alone. -/
theorem World.handleClientAlarm_hub (w : World) (p : Ptr) (data : Option ClientAlarm) :
    (w.handleClientAlarm p data).1.hub = w.hub := by
  unfold World.handleClientAlarm
  split
  · rfl
  · split
    · rfl
    · rename_i db1 hc
      obtain ⟨_, _, _, hh⟩ := ({ w with db := db1 } : World).publish_trace "alarm_queue"
        (Frame.queueAlarm (w.hub.heap p).DeviceID _ _ "medium")
      rw [hh]

/-- Handlers other than `handleAuth` return and leave the Hub, hence every
client object, as it was. -/
theorem World.handleMessage_not_auth (env : Env) (w : World) (p : Ptr) (now : Int)
    (msg : Inbound) (hmsg : msg.isAuth = false) :
    ∃ w' err, w.handleMessage env p now msg = some (w', err) ∧ w'.hub = w.hub := by
  cases msg with
  | malformed => exact ⟨w, _, rfl, rfl⟩
  | auth data => simp [Inbound.isAuth] at hmsg
  | unknown tag => exact ⟨w, _, rfl, rfl⟩
  | deviceRegistration data => exact ⟨_, _, rfl, w.handleDeviceRegistration_hub now data⟩
  | deviceStatus data => exact ⟨_, _, rfl, w.handleDeviceStatus_hub data⟩
  | incomingSMS data => exact ⟨_, _, rfl, w.handleIncomingSMS_hub p data⟩
  | smsDeliveryReport data => exact ⟨_, _, rfl, w.handleSMSDeliveryReport_hub p data⟩
  | ussdResult data => exact ⟨_, _, rfl, w.handleUSSDResult_hub p data⟩
  | phoneNumberResult data => exact ⟨_, _, rfl, w.handlePhoneNumberResult_hub p data⟩
  | alarm data => exact ⟨_, _, rfl, w.handleClientAlarm_hub p data⟩

/-- A sequence of frames without an `auth` message is handled to the end and
leaves the Hub as it was. -/
theorem World.handleMessages_not_auth (env : Env) (p : Ptr) (msgs : List (Int × Inbound)) :
    ∀ w : World, (∀ m ∈ msgs, m.2.isAuth = false) →
      ∃ w', World.handleMessages env p w msgs = some w' ∧ w'.hub = w.hub := by
  induction msgs with
  | nil => intro w _; exact ⟨w, rfl, rfl⟩
  | cons m rest ih =>
    intro w hall
    obtain ⟨now, msg⟩ := m
    obtain ⟨w1, err, hstep, hhub⟩ := w.handleMessage_not_auth env p now msg
      (hall (now, msg) (List.mem_cons_self _ _))
    obtain ⟨w', hrun, hhub'⟩ := ih w1 (fun m hm => hall m (List.mem_cons_of_mem _ hm))
    exact ⟨w', by simp only [World.handleMessages, hstep]; exact hrun, hhub'.trans hhub⟩

/-- `sendMessage` on a client whose buffer is open returns and leaves the
client's identity and device id as they were. -/
theorem World.clientSendMessage_open (env : Env) (w : World) (p : Ptr) (frame : Frame)
    (hopen : (w.hub.heap p).Send.closed = false) :
    ∃ w' err, w.clientSendMessage env p frame = some (w', err) ∧
      (w'.hub.heap p).DeviceID = (w.hub.heap p).DeviceID := by
  by_cases hroom : (w.hub.heap p).Send.buf.length < (w.hub.heap p).Send.cap
  · exact ⟨_, _, w.clientSendMessage_of_room env p frame hopen hroom,
      by simp [Hub.setSend, Hub.store]⟩
  · refine ⟨w, some "client send channel is full", ?_, rfl⟩
    simp [World.clientSendMessage, Chan.trySend_of_full _ _ hopen (Nat.not_lt.mp hroom)]

/-- C20 (amended): a connection created by `NewClient` has an empty
deviceID; no message other than `auth` changes a connection's deviceID, nor
does any sequence of such messages, nor an `auth` message whose connect-key
no device record carries; every `auth` message whose connect-key is carried
by a device record sets the deviceID to that of the (first) such record,
whatever it was before. -/
theorem deviceID_set_by_every_matching_auth (env : Env) (w : World) (p : Ptr)
    (hq : w.db.queryError = none) (hopen : (w.hub.heap p).Send.closed = false) :
    (∀ id, (NewClient id).DeviceID = "") ∧
    (∀ now msg, msg.isAuth = false →
      ∃ w' err, w.handleMessage env p now msg = some (w', err) ∧
        (w'.hub.heap p).DeviceID = (w.hub.heap p).DeviceID) ∧
    (∀ msgs : List (Int × Inbound), (∀ m ∈ msgs, m.2.isAuth = false) →
      ∃ w', World.handleMessages env p w msgs = some w' ∧
        (w'.hub.heap p).DeviceID = (w.hub.heap p).DeviceID) ∧
    (∀ now k, (∀ d ∈ w.db.devices, d.ConnectKey ≠ k) →
      ∃ w' err, w.handleMessage env p now (Inbound.auth (some { ConnectKey := k })) =
          some (w', err) ∧
        (w'.hub.heap p).DeviceID = (w.hub.heap p).DeviceID) ∧
    (∀ now k pre device post, w.db.devices = pre ++ device :: post →
      (∀ d ∈ pre, d.ConnectKey ≠ k) → device.ConnectKey = k →
      ∃ w' err, w.handleMessage env p now (Inbound.auth (some { ConnectKey := k })) =
          some (w', err) ∧
        (w'.hub.heap p).DeviceID = device.DeviceID) := by
  refine ⟨fun _ => rfl, ?_, ?_, ?_, ?_⟩
  · intro now msg hmsg
    obtain ⟨w', err, hrun, hhub⟩ := w.handleMessage_not_auth env p now msg hmsg
    exact ⟨w', err, hrun, by rw [hhub]⟩
  · intro msgs hall
    obtain ⟨w', hrun, hhub⟩ := World.handleMessages_not_auth env p msgs w hall
    exact ⟨w', hrun, by rw [hhub]⟩
  · intro now k hno
    obtain ⟨w', err, hsend, hdev⟩ := w.clientSendMessage_open env p
      (Frame.authResponse false "" "" "") hopen
    refine ⟨w', err, ?_, hdev⟩
    simp only [World.handleMessage, World.handleAuth, hq, find?_connectKey_none _ k hno]
    exact hsend
  · intro now k pre device post hsplit hpre hk
    have hfind := find?_connectKey_split pre post device k hpre hk
    rw [← hsplit] at hfind
    simp only [World.handleMessage, World.handleAuth, hq, hfind, DB.saveDevice]
    refine (World.clientSendMessage_open env _ p _ ?_).imp fun w' h => h.imp fun err h =>
      ⟨h.1, ?_⟩
    · simpa [Hub.store] using hopen
    · rw [h.2]
      simp [Hub.store]

/-- C20 witness: the amended statement for the registered fresh client of
`worldRegistered`. -/
theorem deviceID_set_by_every_matching_auth_witness :
    (∀ id, (NewClient id).DeviceID = "") ∧
    (∀ now msg, msg.isAuth = false →
      ∃ w' err, worldRegistered.handleMessage sampleEnv 1 now msg = some (w', err) ∧
        (w'.hub.heap 1).DeviceID = (worldRegistered.hub.heap 1).DeviceID) ∧
    (∀ msgs : List (Int × Inbound), (∀ m ∈ msgs, m.2.isAuth = false) →
      ∃ w', World.handleMessages sampleEnv 1 worldRegistered msgs = some w' ∧
        (w'.hub.heap 1).DeviceID = (worldRegistered.hub.heap 1).DeviceID) ∧
    (∀ now k, (∀ d ∈ worldRegistered.db.devices, d.ConnectKey ≠ k) →
      ∃ w' err, worldRegistered.handleMessage sampleEnv 1 now
          (Inbound.auth (some { ConnectKey := k })) = some (w', err) ∧
        (w'.hub.heap 1).DeviceID = (worldRegistered.hub.heap 1).DeviceID) ∧
    (∀ now k pre device post, worldRegistered.db.devices = pre ++ device :: post →
      (∀ d ∈ pre, d.ConnectKey ≠ k) → device.ConnectKey = k →
      ∃ w' err, worldRegistered.handleMessage sampleEnv 1 now
          (Inbound.auth (some { ConnectKey := k })) = some (w', err) ∧
        (w'.hub.heap 1).DeviceID = device.DeviceID) :=
  deviceID_set_by_every_matching_auth sampleEnv worldRegistered 1 rfl rfl

/-- C20 counterexample: the fresh client of `worldRegistered` has the empty
deviceID; an `auth` message with the connect-key of `DEV1` binds it to
`DEV1`, and a further `auth` message with the connect-key of `DEV2` changes
its deviceID a second time, to `DEV2`. -/
theorem second_auth_rebinds_connection :
    (worldRegistered.hub.heap 1).DeviceID = "" ∧
    (World.handleMessages sampleEnv 1 worldRegistered
        [(9, Inbound.auth (some { ConnectKey := "K1" }))]).map
      (fun w' => (w'.hub.heap 1).DeviceID) = some "DEV1" ∧
    (World.handleMessages sampleEnv 1 worldRegistered
        [(9, Inbound.auth (some { ConnectKey := "K1" })),
          (10, Inbound.auth (some { ConnectKey := "K2" }))]).map
      (fun w' => (w'.hub.heap 1).DeviceID) = some "DEV2" := by
  exact ⟨rfl, rfl, rfl⟩

/-! ## Records touched by a message -/

/-- Rewriting rows that are filtered out, into rows that are filtered out,
does not change what the filter keeps. -/
theorem filter_map_of_dropped {α : Type} (keep : α → Bool) (f : α → α) (l : List α)
    (h : ∀ r ∈ l, f r = r ∨ (keep r = false ∧ keep (f r) = false)) :
    (l.map f).filter keep = l.filter keep := by
  induction l with
  | nil => rfl
  | cons a rest ih =>
    have hr := ih (fun r hr => h r (List.mem_cons_of_mem _ hr))
    rcases h a (List.mem_cons_self _ _) with ha | ⟨h1, h2⟩
    · simp only [List.map_cons, List.filter_cons, ha, hr]
    · simp only [List.map_cons, List.filter_cons, h1, h2, hr]
      simp

/-- A row found by `First` is a row of the table that satisfies the
condition. -/
theorem firstRow_ok {α : Type} (err : Option String) (rows : List α) (p : α → Bool) (r : α)
    (h : firstRow err rows p = Except.ok r) : r ∈ rows ∧ p r = true := by
  unfold firstRow at h
  cases err with
  | some e => simp at h
  | none =>
    cases hf : rows.find? p with
    | none => simp [hf] at h
    | some x =>
      simp only [hf, Except.ok.injEq] at h
      subst h
      exact ⟨List.mem_of_find?_eq_some hf, List.find?_some hf⟩

theorem DB.createSMS_rowsOfOthers (db db' : DB) (sms row : SMSMessage) (k : String)
    (hk : sms.DeviceID = k) (h : db.createSMS sms = Except.ok (db', row)) :
    db'.rowsOfOthers k = db.rowsOfOthers k := by
  unfold DB.createSMS at h
  cases hq : db.queryError with
  | some e => simp [hq] at h
  | none =>
    simp only [hq, Except.ok.injEq, Prod.mk.injEq] at h
    rw [← h.1]
    simp [DB.rowsOfOthers, List.filter_append, hk]

theorem DB.saveSMS_rowsOfOthers (db db' : DB) (sms sms' : SMSMessage) (k : String)
    (h : db.saveSMS sms' = Except.ok db')
    (hkeys : (db.sms_messages.map (fun r => r.ID)).Nodup) (hmem : sms ∈ db.sms_messages)
    (hk : sms.DeviceID = k) (hid : sms'.ID = sms.ID) (hk' : sms'.DeviceID = k) :
    db'.rowsOfOthers k = db.rowsOfOthers k := by
  unfold DB.saveSMS at h
  cases hq : db.queryError with
  | some e => simp [hq] at h
  | none =>
    simp only [hq, Except.ok.injEq] at h
    rw [← h]
    have hf := filter_map_of_dropped (fun r : SMSMessage => decide (r.DeviceID ≠ k))
      (fun r => if r.ID = sms'.ID then sms' else r) db.sms_messages (by
        intro r hr
        by_cases hrid : r.ID = sms'.ID
        · right
          have : r = sms := List.inj_on_of_nodup_map hkeys hr hmem (hrid.trans hid)
          subst this
          simp [hrid, hk, hk']
        · left; simp [hrid])
    simp only [DB.rowsOfOthers, hf]

theorem DB.saveUSSD_rowsOfOthers (db db' : DB) (x x' : USSDCommand) (k : String)
    (h : db.saveUSSD x' = Except.ok db')
    (hkeys : (db.ussd_commands.map (fun r => r.ID)).Nodup) (hmem : x ∈ db.ussd_commands)
    (hk : x.DeviceID = k) (hid : x'.ID = x.ID) (hk' : x'.DeviceID = k) :
    db'.rowsOfOthers k = db.rowsOfOthers k := by
  unfold DB.saveUSSD at h
  cases hq : db.queryError with
  | some e => simp [hq] at h
  | none =>
    simp only [hq, Except.ok.injEq] at h
    rw [← h]
    have hf := filter_map_of_dropped (fun r : USSDCommand => decide (r.DeviceID ≠ k))
      (fun r => if r.ID = x'.ID then x' else r) db.ussd_commands (by
        intro r hr
        by_cases hrid : r.ID = x'.ID
        · right
          have : r = x := List.inj_on_of_nodup_map hkeys hr hmem (hrid.trans hid)
          subst this
          simp [hrid, hk, hk']
        · left; simp [hrid])
    simp only [DB.rowsOfOthers, hf]

theorem DB.saveSIM_rowsOfOthers (db db' : DB) (x x' : SIMCard) (k : String)
    (h : db.saveSIM x' = Except.ok db')
    (hkeys : (db.sim_cards.map (fun r => r.ID)).Nodup) (hmem : x ∈ db.sim_cards)
    (hk : x.DeviceID = k) (hid : x'.ID = x.ID) (hk' : x'.DeviceID = k) :
    db'.rowsOfOthers k = db.rowsOfOthers k := by
  unfold DB.saveSIM at h
  cases hq : db.queryError with
  | some e => simp [hq] at h
  | none =>
    simp only [hq, Except.ok.injEq] at h
    rw [← h]
    have hf := filter_map_of_dropped (fun r : SIMCard => decide (r.DeviceID ≠ k))
      (fun r => if r.ID = x'.ID then x' else r) db.sim_cards (by
        intro r hr
        by_cases hrid : r.ID = x'.ID
        · right
          have : r = x := List.inj_on_of_nodup_map hkeys hr hmem (hrid.trans hid)
          subst this
          simp [hrid, hk, hk']
        · left; simp [hrid])
    simp only [DB.rowsOfOthers, hf]

theorem DB.saveDevice_rowsOfOthers (db db' : DB) (x x' : Device) (k : String)
    (h : db.saveDevice x' = Except.ok db')
    (hkeys : (db.devices.map (fun r => r.ID)).Nodup) (hmem : x ∈ db.devices)
    (hk : x.DeviceID = k) (hid : x'.ID = x.ID) (hk' : x'.DeviceID = k) :
    db'.rowsOfOthers k = db.rowsOfOthers k := by
  unfold DB.saveDevice at h
  cases hq : db.queryError with
  | some e => simp [hq] at h
  | none =>
    simp only [hq, Except.ok.injEq] at h
    rw [← h]
    have hf := filter_map_of_dropped (fun r : Device => decide (r.DeviceID ≠ k))
      (fun r => if r.ID = x'.ID then x' else r) db.devices (by
        intro r hr
        by_cases hrid : r.ID = x'.ID
        · right
          have : r = x := List.inj_on_of_nodup_map hkeys hr hmem (hrid.trans hid)
          subst this
          simp [hrid, hk, hk']
        · left; simp [hrid])
    simp only [DB.rowsOfOthers, hf]

theorem DB.deleteSIMs_rowsOfOthers (db : DB) (k : String) :
    (db.deleteSIMs k).rowsOfOthers k = db.rowsOfOthers k := by
  unfold DB.deleteSIMs
  cases db.queryError with
  | some e => rfl
  | none => simp [DB.rowsOfOthers, List.filter_filter]

theorem DB.createSIM_rowsOfOthers (db db' : DB) (x : SIMCard) (k : String)
    (hk : x.DeviceID = k) (h : db.createSIM x = Except.ok db') :
    db'.rowsOfOthers k = db.rowsOfOthers k := by
  unfold DB.createSIM at h
  cases hq : db.queryError with
  | some e => simp [hq] at h
  | none =>
    simp only [hq, Except.ok.injEq] at h
    rw [← h]
    simp [DB.rowsOfOthers, List.filter_append, hk]

theorem createSIMs_rowsOfOthers (k : String) (l : List SIMCardInfo) :
    ∀ db db' : DB, createSIMs k l db = Except.ok db' →
      db'.rowsOfOthers k = db.rowsOfOthers k := by
  induction l with
  | nil =>
    intro db db' h
    simp only [createSIMs, Except.ok.injEq] at h
    rw [h]
  | cons a rest ih =>
    intro db db' h
    unfold createSIMs at h
    split at h
    · cases h
    · rename_i db1 hc
      rw [ih db1 db' h]
      exact DB.createSIM_rowsOfOthers db db1 _ k rfl hc

theorem updateSIMCards_rowsOfOthers (db db' : DB) (k : String) (l : List SIMCardInfo)
    (h : updateSIMCards db k l = Except.ok db') : db'.rowsOfOthers k = db.rowsOfOthers k := by
  unfold updateSIMCards at h
  rw [createSIMs_rowsOfOthers k l _ db' h, DB.deleteSIMs_rowsOfOthers]

theorem DB.createStatus_rowsOfOthers (db db' : DB) (x : DeviceStatus) (k : String)
    (hk : x.DeviceID = k) (h : db.createStatus x = Except.ok db') :
    db'.rowsOfOthers k = db.rowsOfOthers k := by
  unfold DB.createStatus at h
  cases hq : db.queryError with
  | some e => simp [hq] at h
  | none =>
    simp only [hq, Except.ok.injEq] at h
    rw [← h]
    simp [DB.rowsOfOthers, List.filter_append, hk]

theorem DB.createAlarm_rowsOfOthers (db db' : DB) (x : Alarm) (k : String)
    (hk : x.DeviceID = k) (h : db.createAlarm x = Except.ok db') :
    db'.rowsOfOthers k = db.rowsOfOthers k := by
  unfold DB.createAlarm at h
  cases hq : db.queryError with
  | some e => simp [hq] at h
  | none =>
    simp only [hq, Except.ok.injEq] at h
    rw [← h]
    simp [DB.rowsOfOthers, List.filter_append, hk]

theorem World.createSMS_store (w w' : World) (x row : SMSMessage)
    (h : w.createSMS x = Except.ok (w', row)) : w.db.createSMS x = Except.ok (w'.db, row) := by
  unfold World.createSMS at h
  cases hs : w.db.createSMS x with
  | error e => simp [hs] at h
  | ok r =>
    obtain ⟨db', row'⟩ := r
    simp only [hs, Except.ok.injEq, Prod.mk.injEq] at h
    rw [← h.1, ← h.2]; rfl

theorem World.saveSMS_store (w w' : World) (x : SMSMessage)
    (h : w.saveSMS x = Except.ok w') : w.db.saveSMS x = Except.ok w'.db := by
  unfold World.saveSMS at h
  cases hs : w.db.saveSMS x with
  | error e => simp [hs] at h
  | ok db' =>
    simp only [hs, Except.ok.injEq] at h
    rw [← h]; rfl

theorem World.saveUSSD_store (w w' : World) (x : USSDCommand)
    (h : w.saveUSSD x = Except.ok w') : w.db.saveUSSD x = Except.ok w'.db := by
  unfold World.saveUSSD at h
  cases hs : w.db.saveUSSD x with
  | error e => simp [hs] at h
  | ok db' =>
    simp only [hs, Except.ok.injEq] at h
    rw [← h]; rfl

/-- `handleDeviceRegistration` touches only records of the device named in
the payload. -/
theorem World.handleDeviceRegistration_others (w : World) (now : Int)
    (payload : DeviceRegistrationPayload) (hkeys : w.db.PrimaryKeys) :
    (w.handleDeviceRegistration now (some payload)).1.db.rowsOfOthers payload.DeviceID =
      w.db.rowsOfOthers payload.DeviceID := by
  unfold World.handleDeviceRegistration
  simp only []
  split
  · rfl
  · rename_i device hfirst
    obtain ⟨hmem, hp⟩ := firstRow_ok _ _ _ _ hfirst
    have hdev : device.DeviceID = payload.DeviceID := by simpa using hp
    split
    · rfl
    · rename_i db1 hsave
      have h1 := DB.saveDevice_rowsOfOthers w.db db1 device _ payload.DeviceID hsave
        hkeys.1 hmem hdev rfl hdev
      split
      · exact h1
      · rename_i db2 hupd
        have h2 := (updateSIMCards_rowsOfOthers db1 db2 _ _ hupd).trans h1
        split
        · exact h2
        · rename_i db3 hst
          unfold saveDeviceStatus at hst
          exact (DB.createStatus_rowsOfOthers db2 db3 _ _ rfl hst).trans h2

/-- `handleDeviceStatus` touches only records of the device named in the
payload. -/
theorem World.handleDeviceStatus_others (w : World) (payload : DeviceRegistrationPayload) :
    (w.handleDeviceStatus (some payload)).1.db.rowsOfOthers payload.DeviceID =
      w.db.rowsOfOthers payload.DeviceID := by
  unfold World.handleDeviceStatus
  simp only []
  split
  · rfl
  · rename_i db1 hupd
    have h1 := updateSIMCards_rowsOfOthers w.db db1 _ _ hupd
    split
    · exact h1
    · rename_i db2 hst
      unfold saveDeviceStatus at hst
      exact (DB.createStatus_rowsOfOthers db1 db2 _ _ rfl hst).trans h1

/-- `handleIncomingSMS` touches only records of the session's device. -/
theorem World.handleIncomingSMS_others (w : World) (p : Ptr) (data : Option IncomingSMS) :
    (w.handleIncomingSMS p data).1.db.rowsOfOthers (w.hub.heap p).DeviceID =
      w.db.rowsOfOthers (w.hub.heap p).DeviceID := by
  unfold World.handleIncomingSMS
  split
  · rfl
  · split
    · rfl
    · rename_i w1 row hc
      obtain ⟨_, _, hdb, _⟩ := w1.publish_trace "sms_queue"
        (Frame.queueIncomingSMS (w.hub.heap p).DeviceID _ _ _)
      rw [hdb]
      exact DB.createSMS_rowsOfOthers w.db w1.db _ row _ rfl (World.createSMS_store w w1 _ row hc)

/-- `handleSMSDeliveryReport` touches only records of the session's device. -/
theorem World.handleSMSDeliveryReport_others (w : World) (p : Ptr)
    (data : Option SMSDeliveryReport) (hkeys : w.db.PrimaryKeys) :
    (w.handleSMSDeliveryReport p data).1.db.rowsOfOthers (w.hub.heap p).DeviceID =
      w.db.rowsOfOthers (w.hub.heap p).DeviceID := by
  unfold World.handleSMSDeliveryReport
  split
  · rfl
  · split
    · rfl
    · rename_i sms hfirst
      unfold DB.firstSMS at hfirst
      obtain ⟨hmem, hp⟩ := firstRow_ok _ _ _ _ hfirst
      have hdev : sms.DeviceID = (w.hub.heap p).DeviceID := by
        simp only [Bool.and_eq_true, decide_eq_true_eq] at hp
        exact hp.1
      split
      · rfl
      · rename_i w1 hs
        exact DB.saveSMS_rowsOfOthers w.db w1.db sms _ _ (World.saveSMS_store w w1 _ hs)
          hkeys.2.2.1 hmem hdev rfl hdev

/-- `handleUSSDResult` touches only records of the session's device. -/
theorem World.handleUSSDResult_others (w : World) (p : Ptr) (data : Option USSDResult)
    (hkeys : w.db.PrimaryKeys) :
    (w.handleUSSDResult p data).1.db.rowsOfOthers (w.hub.heap p).DeviceID =
      w.db.rowsOfOthers (w.hub.heap p).DeviceID := by
  unfold World.handleUSSDResult
  split
  · rfl
  · split
    · rfl
    · rename_i ussd hfirst
      unfold DB.firstUSSD at hfirst
      obtain ⟨hmem, hp⟩ := firstRow_ok _ _ _ _ hfirst
      have hdev : ussd.DeviceID = (w.hub.heap p).DeviceID := by
        simp only [Bool.and_eq_true, decide_eq_true_eq] at hp
        exact hp.1
      split
      · rfl
      · rename_i w1 hs
        exact DB.saveUSSD_rowsOfOthers w.db w1.db ussd _ _ (World.saveUSSD_store w w1 _ hs)
          hkeys.2.2.2 hmem hdev rfl hdev

/-- `handlePhoneNumberResult` touches only records of the session's device. -/
theorem World.handlePhoneNumberResult_others (w : World) (p : Ptr)
    (data : Option PhoneNumberResult) (hkeys : w.db.PrimaryKeys) :
    (w.handlePhoneNumberResult p data).1.db.rowsOfOthers (w.hub.heap p).DeviceID =
      w.db.rowsOfOthers (w.hub.heap p).DeviceID := by
  unfold World.handlePhoneNumberResult
  split
  · rfl
  · split
    · rfl
    · rename_i simCard hfirst
      unfold DB.firstSIM at hfirst
      obtain ⟨hmem, hp⟩ := firstRow_ok _ _ _ _ hfirst
      have hdev : simCard.DeviceID = (w.hub.heap p).DeviceID := by
        simp only [Bool.and_eq_true, decide_eq_true_eq] at hp
        exact hp.1
      split
      · unfold World.withStore
        split
        · rfl
        · rename_i db1 hs
          exact DB.saveSIM_rowsOfOthers w.db db1 simCard _ _ hs hkeys.2.1 hmem hdev rfl hdev
      · rfl

/-- `handleClientAlarm` touches only records of the session's device. -/
theorem World.handleClientAlarm_others (w : World) (p : Ptr) (data : Option ClientAlarm) :
    (w.handleClientAlarm p data).1.db.rowsOfOthers (w.hub.heap p).DeviceID =
      w.db.rowsOfOthers (w.hub.heap p).DeviceID := by
  unfold World.handleClientAlarm
  split
  · rfl
  · split
    · rfl
    · rename_i db1 hc
      obtain ⟨_, _, hdb, _⟩ := ({ w with db := db1 } : World).publish_trace "alarm_queue"
        (Frame.queueAlarm (w.hub.heap p).DeviceID _ _ "medium")
      rw [hdb]
      exact DB.createAlarm_rowsOfOthers w.db db1 _ _ rfl hc

/-- C21 (amended): on an unauthenticated session (deviceID empty) and a
store with primary keys, every non-auth inbound message is handled, and the
records of all devices other than the one the message is keyed by are left
exactly as they were: nothing is created, replaced or deleted among them.
The key is the empty deviceID for `incoming_sms`, `sms_delivery_report`,
`ussd_result`, `phone_number_result` and `alarm`; for `device_registration`
and `device_status` it is the deviceID carried in the payload. -/
theorem unauthenticated_message_touches_only_its_key (env : Env) (w : World) (p : Ptr)
    (now : Int) (msg : Inbound) (hunauth : (w.hub.heap p).DeviceID = "")
    (hkeys : w.db.PrimaryKeys) (hmsg : msg.isAuth = false) :
    ∃ w' err, w.handleMessage env p now msg = some (w', err) ∧
      w'.db.rowsOfOthers msg.payloadDeviceID = w.db.rowsOfOthers msg.payloadDeviceID := by
  cases msg with
  | malformed => exact ⟨w, _, rfl, rfl⟩
  | auth data => simp [Inbound.isAuth] at hmsg
  | unknown tag => exact ⟨w, _, rfl, rfl⟩
  | deviceRegistration data =>
    cases data with
    | none => exact ⟨_, _, rfl, rfl⟩
    | some payload => exact ⟨_, _, rfl, w.handleDeviceRegistration_others now payload hkeys⟩
  | deviceStatus data =>
    cases data with
    | none => exact ⟨_, _, rfl, rfl⟩
    | some payload => exact ⟨_, _, rfl, w.handleDeviceStatus_others payload⟩
  | incomingSMS data =>
    have h := w.handleIncomingSMS_others p data
    rw [hunauth] at h
    exact ⟨_, _, rfl, h⟩
  | smsDeliveryReport data =>
    have h := w.handleSMSDeliveryReport_others p data hkeys
    rw [hunauth] at h
    exact ⟨_, _, rfl, h⟩
  | ussdResult data =>
    have h := w.handleUSSDResult_others p data hkeys
    rw [hunauth] at h
    exact ⟨_, _, rfl, h⟩
  | phoneNumberResult data =>
    have h := w.handlePhoneNumberResult_others p data hkeys
    rw [hunauth] at h
    exact ⟨_, _, rfl, h⟩
  | alarm data =>
    have h := w.handleClientAlarm_others p data
    rw [hunauth] at h
    exact ⟨_, _, rfl, h⟩

/-- C21 witness: an `alarm` frame on the unauthenticated session of
`worldRegistered`. -/
theorem unauthenticated_message_touches_only_its_key_witness :
    (worldRegistered.hub.heap 1).DeviceID = "" ∧ worldRegistered.db.PrimaryKeys ∧
    alarmLowBattery.isAuth = false ∧
    ∃ w' err, worldRegistered.handleMessage sampleEnv 1 5 alarmLowBattery = some (w', err) ∧
      w'.db.rowsOfOthers alarmLowBattery.payloadDeviceID =
        worldRegistered.db.rowsOfOthers alarmLowBattery.payloadDeviceID :=
  ⟨rfl, by unfold DB.PrimaryKeys; decide, rfl,
    unauthenticated_message_touches_only_its_key sampleEnv worldRegistered 1 5 alarmLowBattery
      rfl (by unfold DB.PrimaryKeys; decide) rfl⟩

/-- C21 counterexample: the session at address 1 of `worldRegistered` is
unauthenticated (its deviceID is empty) and the store holds one SIM record,
which belongs to `DEV1`.  A `device_status` frame on that session that names
`DEV1` in its payload is handled without error: it deletes the SIM record of
`DEV1` and creates a status record for `DEV1`. -/
theorem unauthenticated_status_frame_rewrites_named_device :
    (worldRegistered.hub.heap 1).DeviceID = "" ∧
    worldRegistered.db.sim_cards = [simRow 1 "DEV1" 3 true true] ∧
    worldRegistered.db.device_statuses = [] ∧
    (worldRegistered.handleMessage sampleEnv 1 5 statusOfDEV1).map
      (fun r => (r.2, r.1.db.sim_cards, r.1.db.device_statuses)) =
      some (none, [], [{ ID := 1, DeviceID := "DEV1" }]) := by
  exact ⟨rfl, rfl, rfl, rfl⟩

/-! ## Statistics readers -/

theorem mem_setInsert (m : List String) (k x : String) :
    x ∈ setInsert m k ↔ x ∈ m ∨ x = k := by
  unfold setInsert
  by_cases hk : k ∈ m
  · rw [if_pos hk]
    constructor
    · exact Or.inl
    · rintro (h | rfl)
      · exact h
      · exact hk
  · rw [if_neg hk]; simp

theorem nodup_setInsert (m : List String) (k : String) (h : m.Nodup) :
    (setInsert m k).Nodup := by
  unfold setInsert
  by_cases hk : k ∈ m
  · rw [if_pos hk]; exact h
  · rw [if_neg hk]
    exact List.Nodup.append h (List.nodup_singleton k) (by simpa using hk)

/-- The set built by the loop of `GetActiveChannelsCount`: duplicate-free,
holding the keys it started with and the non-empty device ids it met. -/
theorem foldl_setInsert_spec (ds : List String) :
    ∀ acc : List String, acc.Nodup →
      (ds.foldl (fun devices d => if d ≠ "" then setInsert devices d else devices) acc).Nodup ∧
      ∀ x, x ∈ ds.foldl (fun devices d => if d ≠ "" then setInsert devices d else devices)
        acc ↔ x ∈ acc ∨ (x ∈ ds ∧ x ≠ "") := by
  induction ds with
  | nil => intro acc hacc; exact ⟨hacc, fun x => by simp⟩
  | cons d rest ih =>
    intro acc hacc
    simp only [List.foldl_cons]
    by_cases hd : d = ""
    · subst hd
      obtain ⟨h1, h2⟩ := ih acc hacc
      simp only [ne_eq, not_true_eq_false, if_false]
      refine ⟨h1, fun x => ?_⟩
      rw [h2 x]
      constructor
      · rintro (h | ⟨h, hx⟩)
        · exact Or.inl h
        · exact Or.inr ⟨List.mem_cons_of_mem _ h, hx⟩
      · rintro (h | ⟨h, hx⟩)
        · exact Or.inl h
        · rcases List.mem_cons.mp h with rfl | h
          · exact absurd rfl hx
          · exact Or.inr ⟨h, hx⟩
    · obtain ⟨h1, h2⟩ := ih (setInsert acc d) (nodup_setInsert acc d hacc)
      simp only [ne_eq, hd, not_false_eq_true, if_true]
      refine ⟨h1, fun x => ?_⟩
      rw [h2 x, mem_setInsert]
      constructor
      · rintro ((h | rfl) | ⟨h, hx⟩)
        · exact Or.inl h
        · exact Or.inr ⟨List.mem_cons_self _ _, hd⟩
        · exact Or.inr ⟨List.mem_cons_of_mem _ h, hx⟩
      · rintro (h | ⟨h, hx⟩)
        · exact Or.inl (Or.inl h)
        · rcases List.mem_cons.mp h with rfl | h
          · exact Or.inl (Or.inr rfl)
          · exact Or.inr ⟨h, hx⟩

theorem countLookup_countIncr (m : List (String × Nat)) (k x : String) :
    countLookup (countIncr m k) x =
      if x = k then some ((countLookup m k).getD 0 + 1) else countLookup m x := by
  induction m with
  | nil =>
    by_cases hx : x = k
    · subst hx; simp [countIncr, countLookup]
    · have hx' : ¬ k = x := fun h => hx h.symm
      simp [countIncr, countLookup, hx, hx']
  | cons e rest ih =>
    unfold countLookup at ih ⊢
    by_cases hek : e.1 = k
    · by_cases hx : x = k
      · subst hx; simp [countIncr, hek]
      · have hx' : ¬ k = x := fun h => hx h.symm
        have hex : ¬ e.1 = x := fun h => hx (h.symm.trans hek)
        simp [countIncr, hek, hx, hx', List.find?_cons, hex]
    · by_cases hx : x = k
      · subst hx
        simp only [countIncr, hek, if_false, List.find?_cons, decide_False, if_true]
        simpa using ih
      · by_cases hex : e.1 = x
        · simp [countIncr, hek, hx, List.find?_cons, hex]
        · simp only [countIncr, hek, if_false, List.find?_cons, hex, decide_False, hx]
          simpa [hx] using ih

theorem keys_countIncr (m : List (String × Nat)) (k x : String) :
    x ∈ (countIncr m k).map Prod.fst ↔ x ∈ m.map Prod.fst ∨ x = k := by
  induction m with
  | nil => simp [countIncr]
  | cons e rest ih =>
    by_cases hek : e.1 = k
    · simp only [countIncr, hek, if_true, List.map_cons, List.mem_cons]
      constructor
      · rintro (h | h)
        · exact Or.inr h
        · exact Or.inl (Or.inr h)
      · rintro ((h | h) | h)
        · exact Or.inl h
        · exact Or.inr h
        · exact Or.inl h
    · simp only [countIncr, hek, if_false, List.map_cons, List.mem_cons, ih]
      tauto

theorem nodup_countIncr (m : List (String × Nat)) (k : String)
    (h : (m.map Prod.fst).Nodup) : ((countIncr m k).map Prod.fst).Nodup := by
  induction m with
  | nil => simp [countIncr]
  | cons e rest ih =>
    rw [List.map_cons, List.nodup_cons] at h
    by_cases hek : e.1 = k
    · simp only [countIncr, hek, if_true, List.map_cons, List.nodup_cons]
      rw [← hek]; exact h
    · simp only [countIncr, hek, if_false, List.map_cons, List.nodup_cons]
      refine ⟨fun hin => ?_, ih h.2⟩
      rcases (keys_countIncr rest k e.1).mp hin with h1 | h1
      · exact h.1 h1
      · exact hek h1

/-- The map built by the loop of `GetChannelStats`, read at one key. -/
theorem foldl_countIncr_spec (ds : List String) :
    ∀ acc : List (String × Nat), (acc.map Prod.fst).Nodup →
      ((ds.foldl (fun stats d => if d ≠ "" then countIncr stats d else stats) acc).map
        Prod.fst).Nodup ∧
      ∀ x, countLookup
          (ds.foldl (fun stats d => if d ≠ "" then countIncr stats d else stats) acc) x =
        if x ≠ "" ∧ 0 < ds.count x then some ((countLookup acc x).getD 0 + ds.count x)
        else countLookup acc x := by
  induction ds with
  | nil => intro acc hacc; exact ⟨hacc, fun x => by simp⟩
  | cons d rest ih =>
    intro acc hacc
    simp only [List.foldl_cons]
    by_cases hd : d = ""
    · subst hd
      obtain ⟨h1, h2⟩ := ih acc hacc
      simp only [ne_eq, not_true_eq_false, if_false]
      refine ⟨h1, fun x => ?_⟩
      rw [h2 x]
      by_cases hx : x = ""
      · simp [hx]
      · have hx' : ¬ "" = x := fun h => hx h.symm
        simp [List.count_cons, hx, hx']
    · obtain ⟨h1, h2⟩ := ih (countIncr acc d) (nodup_countIncr acc d hacc)
      simp only [ne_eq, hd, not_false_eq_true, if_true]
      refine ⟨h1, fun x => ?_⟩
      rw [h2 x, countLookup_countIncr]
      by_cases hx : x = d
      · subst hx
        simp only [ne_eq, hd, not_false_eq_true, true_and, if_true, Option.getD_some,
          List.count_cons_self]
        by_cases hc : 0 < rest.count x
        · simp only [hc, if_true, Nat.succ_pos, Option.some.injEq]; omega
        · have h0 : rest.count x = 0 := by omega
          simp [h0]
      · have hx' : ¬ d = x := fun h => hx h.symm
        simp [hx, List.count_cons, hx']

/-- C23: for every hub state, `GetConnectedClientsCount` is the number of
registry entries (whether authenticated or not), `GetActiveChannelsCount` is
the number of distinct non-empty device ids among the registered
connections, and `GetChannelStats` is a map that holds, for each non-empty
device id some registered connection is bound to, the number of registered
connections bound to it, and holds nothing else: in particular no entry for
the empty device id. -/
theorem stats_readers_count_connections (h : Hub) :
    h.GetConnectedClientsCount = h.Clients.length ∧
    h.GetActiveChannelsCount =
      ((h.boundDeviceIDs.filter (fun d => decide (d ≠ ""))).toFinset).card ∧
    (∀ k, countLookup h.GetChannelStats k =
      if k ≠ "" ∧ 0 < h.boundDeviceIDs.count k then some (h.boundDeviceIDs.count k)
      else none) ∧
    countLookup h.GetChannelStats "" = none ∧
    (h.GetChannelStats.map Prod.fst).Nodup := by
  have hA : h.GetActiveChannelsCount =
      (h.boundDeviceIDs.foldl
        (fun devices d => if d ≠ "" then setInsert devices d else devices) []).length := by
    unfold Hub.GetActiveChannelsCount Hub.boundDeviceIDs
    rw [List.foldl_map]
  have hS : h.GetChannelStats =
      h.boundDeviceIDs.foldl
        (fun stats d => if d ≠ "" then countIncr stats d else stats) [] := by
    unfold Hub.GetChannelStats Hub.boundDeviceIDs
    rw [List.foldl_map]
  obtain ⟨hnd, hmem⟩ := foldl_setInsert_spec h.boundDeviceIDs [] List.nodup_nil
  obtain ⟨hknd, hlook⟩ := foldl_countIncr_spec h.boundDeviceIDs [] (by simp)
  have hk : ∀ k, countLookup h.GetChannelStats k =
      if k ≠ "" ∧ 0 < h.boundDeviceIDs.count k then some (h.boundDeviceIDs.count k)
      else none := by
    intro k
    rw [hS, hlook k]
    simp [countLookup]
  refine ⟨rfl, ?_, hk, ?_, by rw [hS]; exact hknd⟩
  · rw [hA, ← List.toFinset_card_of_nodup hnd]
    congr 1
    ext x
    rw [List.mem_toFinset, List.mem_toFinset, hmem x, List.mem_filter]
    simp
  · rw [hk ""]; simp

/-- C22: two connections are accepted and registered, and both complete the
handshake with the connect-key `K1` of the device `DEV1`.  In the state
reached both are bound to `DEV1`, both are still registered with an open
outbound buffer, `GetChannelStats` reports 2 for `DEV1` and
`GetActiveChannelsCount` counts the device once. -/
theorem two_live_connections_bound_to_one_device :
    ∃ w1 w2 : World,
      ((worldEmptyHub.connect 1 "c1").connect 2 "c2").handleAuth sampleEnv 1 10
        (some { ConnectKey := "K1" }) = some (w1, none) ∧
      w1.handleAuth sampleEnv 2 11 (some { ConnectKey := "K1" }) = some (w2, none) ∧
      (w2.hub.heap 1).DeviceID = "DEV1" ∧ (w2.hub.heap 2).DeviceID = "DEV1" ∧
      w2.hub.Clients = [("c2", 2), ("c1", 1)] ∧
      (w2.hub.heap 1).Send.closed = false ∧ (w2.hub.heap 2).Send.closed = false ∧
      w2.hub.GetConnectedClientsCount = 2 ∧
      w2.hub.GetChannelStats = [("DEV1", 2)] ∧
      countLookup w2.hub.GetChannelStats "DEV1" = some 2 ∧
      w2.hub.GetActiveChannelsCount = 1 :=
  ⟨_, _, rfl, rfl, by decide, by decide, by decide, by decide, by decide, by decide,
    by decide, by decide, by decide⟩

/-! ## Cost estimate -/

/-- Within the range of `int` the wrap-around changes nothing. -/
theorem wrapInt_of_inRange (x : Int) (hlo : -(2 ^ 63) ≤ x) (hhi : x < 2 ^ 63) :
    wrapInt x = x := by
  unfold wrapInt
  omega

/-- The integer quotient `(n + 159) / 160` (rounding down) is the ceiling of
`n / 160`. -/
theorem units_eq_ceil (n : Int) :
    ⌈(n : ℚ) / 160⌉ = (n + 159) / 160 := by
  rw [Int.ceil_eq_iff]
  have h1 : 160 * ((n + 159) / 160) ≤ n + 159 := Int.mul_ediv_self_le (by norm_num)
  have h2 : n + 159 < 160 * ((n + 159) / 160) + 160 := Int.lt_mul_ediv_self_add (by norm_num)
  constructor
  · rw [lt_div_iff₀ (by norm_num : (0 : ℚ) < 160)]
    have h3 : (160 * ((n + 159) / 160) - 160 : Int) < n := by omega
    have h : ((160 * ((n + 159) / 160) - 160 : Int) : ℚ) < (n : ℚ) := by exact_mod_cast h3
    push_cast at h
    linarith
  · rw [div_le_iff₀ (by norm_num : (0 : ℚ) < 160)]
    have h3 : n ≤ (160 * ((n + 159) / 160) : Int) := by omega
    have h : (n : ℚ) ≤ ((160 * ((n + 159) / 160) : Int) : ℚ) := by exact_mod_cast h3
    push_cast at h
    linarith

/-- Rounding to the nearest integer moves a number by at most one half. -/
theorem roundHalfEven_near (y : ℚ) : |(roundHalfEven y : ℚ) - y| ≤ 1 / 2 := by
  unfold roundHalfEven
  have h1 := Int.floor_le y
  have h2 := Int.lt_floor_add_one y
  simp only []
  rw [abs_le]
  split_ifs <;> push_cast <;> constructor <;> linarith

/-- The `float64` nearest to a positive number of the binade
`[2^(e+52), 2^(e+53))` has its significand rounded at `2^e`. -/
theorem float64_of_binade (x : ℚ) (e : Int) (hx : 0 < x) (hlo : (2 : ℚ) ^ (e + 52) ≤ x)
    (hhi : x < (2 : ℚ) ^ (e + 53)) :
    float64 x = (roundHalfEven (x / 2 ^ e) : ℚ) * 2 ^ e := by
  have habs : |x| = x := abs_of_pos hx
  have h1 : e + 52 ≤ Int.log 2 x :=
    (Int.zpow_le_iff_le_log (by norm_num) hx).mp (by exact_mod_cast hlo)
  have h2 : Int.log 2 x < e + 53 :=
    (Int.lt_zpow_iff_log_lt (by norm_num) hx).mp (by exact_mod_cast hhi)
  have he : Int.log 2 x - 52 = e := by omega
  unfold float64
  simp only [hx.ne', if_false, habs, he]

/-- Rounding to `float64` has a relative error of at most `2^-53`. -/
theorem float64_error (x : ℚ) : |float64 x - x| ≤ |x| / 2 ^ 53 := by
  by_cases hx : x = 0
  · subst hx; simp [float64]
  · have hpos : 0 < |x| := abs_pos.mpr hx
    have hlog : ((2 : ℕ) : ℚ) ^ Int.log 2 |x| ≤ |x| := Int.zpow_log_le_self (by norm_num) hpos
    have h2 : (0 : ℚ) < 2 ^ (Int.log 2 |x| - 52) := by positivity
    have hnear := roundHalfEven_near (x / 2 ^ (Int.log 2 |x| - 52))
    have hsplit : (2 : ℚ) ^ Int.log 2 |x| = 2 ^ (Int.log 2 |x| - 52) * 2 ^ (52 : ℤ) := by
      rw [← zpow_add₀ (by norm_num : (2 : ℚ) ≠ 0)]
      congr 1
      omega
    have hval : float64 x - x =
        ((roundHalfEven (x / 2 ^ (Int.log 2 |x| - 52)) : ℚ) -
          x / 2 ^ (Int.log 2 |x| - 52)) * 2 ^ (Int.log 2 |x| - 52) := by
      unfold float64
      simp only [hx, if_false]
      field_simp
    rw [hval, abs_mul, abs_of_pos h2]
    have hlog' : (2 : ℚ) ^ (Int.log 2 |x| - 52) * 2 ^ (52 : ℤ) ≤ |x| := by
      rw [← hsplit]; exact_mod_cast hlog
    have h52 : (2 : ℚ) ^ (52 : ℤ) = 4503599627370496 := by norm_num
    rw [h52] at hlog'
    have hstep : |(roundHalfEven (x / 2 ^ (Int.log 2 |x| - 52)) : ℚ) -
        x / 2 ^ (Int.log 2 |x| - 52)| * 2 ^ (Int.log 2 |x| - 52) ≤
        1 / 2 * 2 ^ (Int.log 2 |x| - 52) := mul_le_mul_of_nonneg_right hnear h2.le
    rw [le_div_iff₀ (by norm_num : (0 : ℚ) < 2 ^ 53)]
    have h53 : (2 : ℚ) ^ 53 = 9007199254740992 := by norm_num
    rw [h53]
    nlinarith

/-- The constant `0.05` as a `float64`. -/
theorem float64_base : float64 0.05 = 3602879701896397 / 2 ^ 56 := by
  rw [float64_of_binade 0.05 (-57) (by norm_num) (by norm_num) (by norm_num)]
  have hf : ⌊(0.05 : ℚ) / 2 ^ (-57 : ℤ)⌋ = 7205759403792793 := by
    rw [Int.floor_eq_iff]; norm_num
  unfold roundHalfEven
  simp only [hf]
  norm_num

/-- The constant `3.0` is a `float64`. -/
theorem float64_three : float64 3.0 = 3 := by
  rw [float64_of_binade 3.0 (-51) (by norm_num) (by norm_num) (by norm_num)]
  have hf : ⌊(3.0 : ℚ) / 2 ^ (-51 : ℤ)⌋ = 6755399441055744 := by
    rw [Int.floor_eq_iff]; norm_num
  unfold roundHalfEven
  simp only [hf]
  norm_num

/-- The product `baseCost *= 3.0` as a `float64`: `0.15000000000000002`. -/
theorem float64_international :
    float64 (float64 0.05 * float64 3.0) = 1351079888211149 / 2 ^ 53 := by
  rw [float64_base, float64_three,
    float64_of_binade _ (-55) (by norm_num) (by norm_num) (by norm_num)]
  have hf : ⌊(3602879701896397 / 2 ^ 56 * 3 : ℚ) / 2 ^ (-55 : ℤ)⌋ = 5404319552844595 := by
    rw [Int.floor_eq_iff]; norm_num
  unfold roundHalfEven
  simp only [hf]
  norm_num

/-- The integer 1 is a `float64`. -/
theorem float64_one : float64 1 = 1 := by
  rw [float64_of_binade 1 (-52) (by norm_num) (by norm_num) (by norm_num)]
  have hf : ⌊(1 : ℚ) / 2 ^ (-52 : ℤ)⌋ = 4503599627370496 := by
    rw [Int.floor_eq_iff]; norm_num
  unfold roundHalfEven
  simp only [hf]
  norm_num

/-- The integer 2 is a `float64`. -/
theorem float64_two : float64 2 = 2 := by
  rw [float64_of_binade 2 (-51) (by norm_num) (by norm_num) (by norm_num)]
  have hf : ⌊(2 : ℚ) / 2 ^ (-51 : ℤ)⌋ = 4503599627370496 := by
    rw [Int.floor_eq_iff]; norm_num
  unfold roundHalfEven
  simp only [hf]
  norm_num

/-- The error of the two roundings of `float64(units) * baseCost` against the
exact product `u * c`, for a rate `B` within `2^-52` of `c`. -/
theorem float64_product_error (u c B : ℚ) (hu : 0 ≤ u) (hc : 0 < c)
    (hB : |B - c| ≤ c / 2 ^ 52) :
    |float64 (float64 u * B) - u * c| ≤ u * c / 2 ^ 50 := by
  have e1 := float64_error u
  rw [abs_of_nonneg hu, abs_le] at e1
  rw [abs_le] at hB
  have e3 := float64_error (float64 u * B)
  have h53 : (2 : ℚ) ^ 53 = 9007199254740992 := by norm_num
  have h52 : (2 : ℚ) ^ 52 = 4503599627370496 := by norm_num
  have h50 : (2 : ℚ) ^ 50 = 1125899906842624 := by norm_num
  rw [h53] at e1 e3
  rw [h52] at hB
  rw [h50]
  have hfu0 : 0 ≤ float64 u := by linarith [e1.1]
  have hB0 : 0 ≤ B := by linarith [hB.1]
  have hP0 : 0 ≤ float64 u * B := mul_nonneg hfu0 hB0
  rw [abs_of_nonneg hP0, abs_le] at e3
  have hfu_hi : float64 u ≤ u * (9007199254740993 / 9007199254740992) := by linarith [e1.2]
  have hfu_lo : u * (9007199254740991 / 9007199254740992) ≤ float64 u := by linarith [e1.1]
  have hB_hi : B ≤ c * (4503599627370497 / 4503599627370496) := by linarith [hB.2]
  have hB_lo : c * (4503599627370495 / 4503599627370496) ≤ B := by linarith [hB.1]
  have ht : 0 ≤ u * c := mul_nonneg hu hc.le
  have hP_hi : float64 u * B ≤
      u * c * (9007199254740993 / 9007199254740992 * (4503599627370497 / 4503599627370496)) := by
    calc float64 u * B
        ≤ u * (9007199254740993 / 9007199254740992) *
          (c * (4503599627370497 / 4503599627370496)) :=
          mul_le_mul hfu_hi hB_hi hB0 (by positivity)
      _ = _ := by ring
  have hP_lo : u * c *
      (9007199254740991 / 9007199254740992 * (4503599627370495 / 4503599627370496)) ≤
      float64 u * B := by
    calc u * c * (9007199254740991 / 9007199254740992 * (4503599627370495 / 4503599627370496))
        = u * (9007199254740991 / 9007199254740992) *
          (c * (4503599627370495 / 4503599627370496)) := by ring
      _ ≤ float64 u * B := mul_le_mul hfu_lo hB_lo (by positivity) hfu0
  rw [abs_le]
  constructor
  · have h1 : float64 u * B * (9007199254740991 / 9007199254740992) ≤
        float64 (float64 u * B) := by linarith [e3.1]
    have h2 : u * c * (9007199254740991 / 9007199254740992 *
        (4503599627370495 / 4503599627370496)) * (9007199254740991 / 9007199254740992) ≤
        float64 u * B * (9007199254740991 / 9007199254740992) :=
      mul_le_mul_of_nonneg_right hP_lo (by norm_num)
    have h3 : u * c * (1 - 1 / 1125899906842624) ≤
        u * c * (9007199254740991 / 9007199254740992 *
          (4503599627370495 / 4503599627370496) * (9007199254740991 / 9007199254740992)) :=
      mul_le_mul_of_nonneg_left (by norm_num) ht
    linarith
  · have h1 : float64 (float64 u * B) ≤
        float64 u * B * (9007199254740993 / 9007199254740992) := by linarith [e3.2]
    have h2 : float64 u * B * (9007199254740993 / 9007199254740992) ≤
        u * c * (9007199254740993 / 9007199254740992 *
          (4503599627370497 / 4503599627370496)) * (9007199254740993 / 9007199254740992) :=
      mul_le_mul_of_nonneg_right hP_hi (by norm_num)
    have h3 : u * c * (9007199254740993 / 9007199254740992 *
          (4503599627370497 / 4503599627370496) * (9007199254740993 / 9007199254740992)) ≤
        u * c * (1 + 1 / 1125899906842624) :=
      mul_le_mul_of_nonneg_left (by norm_num) ht
    linarith

/-- C24 (amended): for a target beginning with `+` and a message length
`n ≥ 0` (a length, so that `n + 159` is within the range of `int`),
`calculateSMSCost` is the `float64` product of `float64(units)` and the
per-unit rate, where `units = ceil(n/160)` (the integer quotient
`(n + 159) / 160`: 0 for `n = 0`, 1 for 1..160, 2 for 161..320) and the rate
is the `float64` `0.05` for a target that starts with `+90` and the
`float64` product `0.05 * 3.0 = 0.15000000000000002` for another one.  It
equals `units * 0.05 * m` (`m = 1` resp. `m = 3`) up to a relative error of
`2^-50`, and exactly when `n = 0`. -/
theorem calculateSMSCost_is_rounded_units_times_rate (target : String) (n : Int)
    (hplus : hasPrefix target "+" = true) (h0 : 0 ≤ n) (hmax : n + 159 < 2 ^ 63) :
    calculateSMSCost target n =
      float64 (float64 ((⌈(n : ℚ) / 160⌉ : Int) : ℚ) *
        (if hasPrefix target "+90" then 3602879701896397 / 2 ^ 56
          else 1351079888211149 / 2 ^ 53)) ∧
    |calculateSMSCost target n - exactSMSCost target n| ≤ exactSMSCost target n / 2 ^ 50 ∧
    (n = 0 → calculateSMSCost target n = 0 ∧ exactSMSCost target n = 0) ∧
    ⌈(n : ℚ) / 160⌉ = (n + 159) / 160 ∧
    (n = 0 → ⌈(n : ℚ) / 160⌉ = 0) ∧
    (1 ≤ n → n ≤ 160 → ⌈(n : ℚ) / 160⌉ = 1) ∧
    (161 ≤ n → n ≤ 320 → ⌈(n : ℚ) / 160⌉ = 2) := by
  have hceil := units_eq_ceil n
  have hval : calculateSMSCost target n =
      float64 (float64 ((⌈(n : ℚ) / 160⌉ : Int) : ℚ) *
        (if hasPrefix target "+90" then 3602879701896397 / 2 ^ 56
          else 1351079888211149 / 2 ^ 53)) := by
    unfold calculateSMSCost
    rw [wrapInt_of_inRange (n + 159) (by omega) hmax,
      Int.tdiv_eq_ediv (by omega : (0 : Int) ≤ n + 159) (by norm_num), hceil, hplus]
    cases hasPrefix target "+90"
    · simp only [Bool.not_false, Bool.and_self, if_true, float64_international]
      simp
    · simp only [Bool.not_true, Bool.and_false, float64_base]
      simp
  have hu : (0 : ℚ) ≤ ((⌈(n : ℚ) / 160⌉ : Int) : ℚ) := by
    have : (0 : Int) ≤ ⌈(n : ℚ) / 160⌉ := by rw [hceil]; omega
    exact_mod_cast this
  refine ⟨hval, ?_, ?_, hceil, ?_, ?_, ?_⟩
  · rw [hval]
    unfold exactSMSCost
    cases hasPrefix target "+90"
    · have h := float64_product_error ((⌈(n : ℚ) / 160⌉ : Int) : ℚ) (3 / 20)
        (1351079888211149 / 2 ^ 53) hu (by norm_num) (by rw [abs_le]; constructor <;> norm_num)
      simp only [Bool.false_eq_true, if_false]
      have e : ((⌈(n : ℚ) / 160⌉ : Int) : ℚ) * (5 / 100) * 3 =
          ((⌈(n : ℚ) / 160⌉ : Int) : ℚ) * (3 / 20) := by ring
      rw [e]; exact h
    · have h := float64_product_error ((⌈(n : ℚ) / 160⌉ : Int) : ℚ) (1 / 20)
        (3602879701896397 / 2 ^ 56) hu (by norm_num) (by rw [abs_le]; constructor <;> norm_num)
      simp only [if_true]
      have e : ((⌈(n : ℚ) / 160⌉ : Int) : ℚ) * (5 / 100) * 1 =
          ((⌈(n : ℚ) / 160⌉ : Int) : ℚ) * (1 / 20) := by ring
      rw [e]; exact h
  · intro hn
    have hz : ⌈(n : ℚ) / 160⌉ = 0 := by rw [hceil, hn]; norm_num
    constructor
    · rw [hval, hz]; simp [float64]
    · unfold exactSMSCost; rw [hz]; simp
  · intro hn; rw [hceil, hn]; norm_num
  · intro h1 h2; rw [hceil]; omega
  · intro h1 h2; rw [hceil]; omega

/-- C24 witness: a message of 161 characters to a British number. -/
theorem calculateSMSCost_is_rounded_units_times_rate_witness :
    calculateSMSCost "+441234567890" 161 =
      float64 (float64 ((⌈((161 : Int) : ℚ) / 160⌉ : Int) : ℚ) *
        (if hasPrefix "+441234567890" "+90" then 3602879701896397 / 2 ^ 56
          else 1351079888211149 / 2 ^ 53)) ∧
    |calculateSMSCost "+441234567890" 161 - exactSMSCost "+441234567890" 161| ≤
      exactSMSCost "+441234567890" 161 / 2 ^ 50 ∧
    ((161 : Int) = 0 → calculateSMSCost "+441234567890" 161 = 0 ∧
      exactSMSCost "+441234567890" 161 = 0) ∧
    ⌈((161 : Int) : ℚ) / 160⌉ = ((161 : Int) + 159) / 160 ∧
    ((161 : Int) = 0 → ⌈((161 : Int) : ℚ) / 160⌉ = 0) ∧
    (1 ≤ (161 : Int) → (161 : Int) ≤ 160 → ⌈((161 : Int) : ℚ) / 160⌉ = 1) ∧
    (161 ≤ (161 : Int) → (161 : Int) ≤ 320 → ⌈((161 : Int) : ℚ) / 160⌉ = 2) :=
  calculateSMSCost_is_rounded_units_times_rate "+441234567890" 161 (by decide)
    (by decide) (by decide)

/-- The cost of `units` units at the international rate, for one and for
two units. -/
theorem float64_international_units :
    float64 (float64 1 * (1351079888211149 / 2 ^ 53)) = 1351079888211149 / 2 ^ 53 ∧
    float64 (float64 2 * (1351079888211149 / 2 ^ 53)) = 1351079888211149 / 2 ^ 52 := by
  have h1 := float64_one
  have h2 := float64_two
  constructor
  · rw [h1, float64_of_binade _ (-55) (by norm_num) (by norm_num) (by norm_num)]
    have hf : ⌊(1 * (1351079888211149 / 2 ^ 53) : ℚ) / 2 ^ (-55 : ℤ)⌋ = 5404319552844596 := by
      rw [Int.floor_eq_iff]; norm_num
    unfold roundHalfEven
    simp only [hf]
    norm_num
  · rw [h2, float64_of_binade _ (-54) (by norm_num) (by norm_num) (by norm_num)]
    have hf : ⌊(2 * (1351079888211149 / 2 ^ 53) : ℚ) / 2 ^ (-54 : ℤ)⌋ = 5404319552844596 := by
      rw [Int.floor_eq_iff]; norm_num
    unfold roundHalfEven
    simp only [hf]
    norm_num

/-- The cost of one unit at the domestic rate. -/
theorem float64_domestic_unit :
    float64 (float64 1 * (3602879701896397 / 2 ^ 56)) = 3602879701896397 / 2 ^ 56 := by
  have h1 := float64_one
  rw [h1, float64_of_binade _ (-57) (by norm_num) (by norm_num) (by norm_num)]
  have hf : ⌊(1 * (3602879701896397 / 2 ^ 56) : ℚ) / 2 ^ (-57 : ℤ)⌋ = 7205759403792794 := by
    rw [Int.floor_eq_iff]; norm_num
  unfold roundHalfEven
  simp only [hf]
  norm_num

/-- C24 counterexample: for the target `+441234567890` and a message of 161
characters `units * base * m` is `2 * 0.05 * 3 = 3/10` in exact arithmetic,
while `calculateSMSCost` returns the `float64`
`1351079888211149 / 2^52 = 0.3000000000000000444`, which is not `3/10` (and
not the `float64` nearest to `3/10` either, which is
`5404319552844595 / 2^54`). -/
theorem calculateSMSCost_differs_from_exact_product :
    exactSMSCost "+441234567890" 161 = 3 / 10 ∧
    calculateSMSCost "+441234567890" 161 = 1351079888211149 / 2 ^ 52 ∧
    calculateSMSCost "+441234567890" 161 ≠ exactSMSCost "+441234567890" 161 ∧
    float64 (3 / 10) = 5404319552844595 / 2 ^ 54 ∧
    calculateSMSCost "+441234567890" 161 ≠ float64 (3 / 10) := by
  have hcost : calculateSMSCost "+441234567890" 161 = 1351079888211149 / 2 ^ 52 := by
    have h : (hasPrefix "+441234567890" "+" && !hasPrefix "+441234567890" "+90") = true := by
      decide
    unfold calculateSMSCost
    rw [h, wrapInt_of_inRange _ (by norm_num) (by norm_num)]
    simp only [if_true, float64_international]
    have hu : ((Int.tdiv (161 + 159) 160 : Int) : ℚ) = 2 := by norm_num [Int.tdiv]
    rw [hu]
    exact float64_international_units.2
  have hexact : exactSMSCost "+441234567890" 161 = 3 / 10 := by
    have h : hasPrefix "+441234567890" "+90" = false := by decide
    unfold exactSMSCost
    rw [units_eq_ceil, h]
    norm_num
  have hnear : float64 (3 / 10) = 5404319552844595 / 2 ^ 54 := by
    rw [float64_of_binade _ (-54) (by norm_num) (by norm_num) (by norm_num)]
    have hf : ⌊(3 / 10 : ℚ) / 2 ^ (-54 : ℤ)⌋ = 5404319552844595 := by
      rw [Int.floor_eq_iff]; norm_num
    unfold roundHalfEven
    simp only [hf]
    norm_num
  refine ⟨hexact, hcost, ?_, hnear, ?_⟩
  · rw [hcost, hexact]; norm_num
  · rw [hcost, hnear]; norm_num

/-! ## Separators in the target of a gateway request -/

/-- C30: the target `(+44) 1234567890` is accepted by `isValidPhoneNumber`,
whose cleaned form of it is `+441234567890`; the country derived from the
target as submitted is empty while the cleaned form gives `UK`, and the cost
estimate charges the domestic rate for the target as submitted (the
`float64` `0.05`) and the international rate for the cleaned form (the
`float64` `0.15000000000000002`). -/
theorem target_with_separators_loses_country_and_rate :
    isValidPhoneNumber "(+44) 1234567890" = true ∧
    cleanedPhoneNumber "(+44) 1234567890" = "+441234567890" ∧
    getCountryFromPhoneNumber "(+44) 1234567890" = "" ∧
    getCountryFromPhoneNumber "+441234567890" = "UK" ∧
    calculateSMSCost "(+44) 1234567890" 10 = 3602879701896397 / 2 ^ 56 ∧
    calculateSMSCost "+441234567890" 10 = 1351079888211149 / 2 ^ 53 ∧
    calculateSMSCost "(+44) 1234567890" 10 = float64 0.05 ∧
    calculateSMSCost "+441234567890" 10 = float64 (float64 0.05 * float64 3.0) := by
  have hu : ((Int.tdiv (10 + 159) 160 : Int) : ℚ) = 1 := by norm_num [Int.tdiv]
  have hraw : calculateSMSCost "(+44) 1234567890" 10 = 3602879701896397 / 2 ^ 56 := by
    have h : (hasPrefix "(+44) 1234567890" "+" && !hasPrefix "(+44) 1234567890" "+90") =
        false := by decide
    unfold calculateSMSCost
    rw [h, wrapInt_of_inRange _ (by norm_num) (by norm_num)]
    simp only [Bool.false_eq_true, if_false, float64_base]
    rw [hu]
    exact float64_domestic_unit
  have hclean : calculateSMSCost "+441234567890" 10 = 1351079888211149 / 2 ^ 53 := by
    have h : (hasPrefix "+441234567890" "+" && !hasPrefix "+441234567890" "+90") = true := by
      decide
    unfold calculateSMSCost
    rw [h, wrapInt_of_inRange _ (by norm_num) (by norm_num)]
    simp only [if_true, float64_international]
    rw [hu]
    exact float64_international_units.1
  exact ⟨by decide, by decide, by decide, by decide, hraw, hclean,
    by rw [hraw, float64_base], by rw [hclean, float64_international]⟩

/-! ## Eligible set without a country or an operator -/

/-- Without a country and an operator the `Where` clauses keep the rows
that satisfy the four base conditions and join to a group and a site. -/
theorem DB.whereClause_unfiltered (db : DB) (d : Device) :
    db.whereClause "" "" d = true ↔
      (d.IsActive = true ∧ d.IsAvailable = true ∧ d.OperatorStatus = "online" ∧
        d.BatteryLevel ≥ 10) ∧
      ∃ g s, db.groupOf d = some g ∧ db.siteOf g = some s := by
  constructor
  · intro hw
    obtain ⟨g, s, hg, hs, h1, h2, h3, h4, _, _⟩ := DB.whereClause_true db "" "" d hw
    exact ⟨⟨h1, h2, h3, h4⟩, g, s, hg, hs⟩
  · rintro ⟨⟨h1, h2, h3, h4⟩, hj⟩
    exact (DB.whereClause_iff db "" "" d hj).mpr
      ⟨h1, h2, h3, h4, fun h => absurd rfl h, fun h => absurd rfl h⟩

/-- C25 (amended): when no country is requested, none can be derived from
the target number and no operator is requested, the rows the device query
returns are exactly the stored devices with `active == true`,
`available == true`, `operatorStatus == "online"` and `batteryLevel >= 10`
that belong to a device group that belongs to a site; and, when the query
succeeds, a device is selected exactly when one of these has a usable SIM. -/
theorem unfiltered_eligible_set_is_ready_and_joined (db : DB) (target : String)
    (hnone : getCountryFromPhoneNumber target = "") :
    (∀ d, d ∈ db.queryDevices (if "" = "" then getCountryFromPhoneNumber target else "") "" ↔
      ∃ d0 ∈ db.devices, d = db.preload d0 ∧
        (d0.IsActive = true ∧ d0.IsAvailable = true ∧ d0.OperatorStatus = "online" ∧
          d0.BatteryLevel ≥ 10) ∧
        ∃ g s, db.groupOf d0 = some g ∧ db.siteOf g = some s) ∧
    (db.queryError = none →
      ((findBestDeviceForSMS db target "" "").1 ≠ none ↔
        ∃ d0 ∈ db.devices,
          (d0.IsActive = true ∧ d0.IsAvailable = true ∧ d0.OperatorStatus = "online" ∧
            d0.BatteryLevel ≥ 10) ∧
          (∃ g s, db.groupOf d0 = some g ∧ db.siteOf g = some s) ∧ db.HasUsableSIM d0)) := by
  have hmem : ∀ d, d ∈ db.queryDevices
      (if "" = "" then getCountryFromPhoneNumber target else "") "" ↔
      ∃ d0 ∈ db.devices, d = db.preload d0 ∧
        (d0.IsActive = true ∧ d0.IsAvailable = true ∧ d0.OperatorStatus = "online" ∧
          d0.BatteryLevel ≥ 10) ∧
        ∃ g s, db.groupOf d0 = some g ∧ db.siteOf g = some s := by
    intro d
    rw [if_pos rfl, hnone, DB.mem_queryDevices]
    constructor
    · rintro ⟨d0, h0, hw, hd⟩
      obtain ⟨hr, hj⟩ := (DB.whereClause_unfiltered db d0).mp hw
      exact ⟨d0, h0, hd, hr, hj⟩
    · rintro ⟨d0, h0, hd, hr, hj⟩
      exact ⟨d0, h0, (DB.whereClause_unfiltered db d0).mpr ⟨hr, hj⟩, hd⟩
  refine ⟨hmem, fun hq => ?_⟩
  rcases findBestDeviceForSMS_cases db target "" "" with
    ⟨err, he, _⟩ | ⟨_, hscan, hres⟩ | ⟨d, s, _, hscan, hres⟩
  · rw [hq] at he; cases he
  · rw [hres]
    refine ⟨fun h => absurd rfl h, ?_⟩
    rintro ⟨d0, h0, hr, hj, hsim⟩
    exfalso
    have hin := (hmem (db.preload d0)).mpr ⟨d0, h0, rfl, hr, hj⟩
    exact (DB.firstUsableSIM_preload db d0).mpr hsim ((scanDevices_none _).mp hscan _ hin)
  · rw [hres]
    refine ⟨fun _ => ?_, fun _ => by simp⟩
    obtain ⟨pre, post, hl, hs, _⟩ := scanDevices_some _ d s hscan
    have hin : d ∈ db.queryDevices
        (if "" = "" then getCountryFromPhoneNumber target else "") "" := by
      rw [hl]; simp
    obtain ⟨d0, h0, hd, hr, hj⟩ := (hmem d).mp hin
    refine ⟨d0, h0, hr, hj, ?_⟩
    rw [← DB.firstUsableSIM_preload, ← hd, hs]; simp

/-- C25 witness: the statement at `dbBattery` for a Finnish number, for
which the table of dialing codes has no country. -/
theorem unfiltered_eligible_set_is_ready_and_joined_witness :
    getCountryFromPhoneNumber "+358401234567" = "" ∧
    (∀ d, d ∈ dbBattery.queryDevices
        (if "" = "" then getCountryFromPhoneNumber "+358401234567" else "") "" ↔
      ∃ d0 ∈ dbBattery.devices, d = dbBattery.preload d0 ∧
        (d0.IsActive = true ∧ d0.IsAvailable = true ∧ d0.OperatorStatus = "online" ∧
          d0.BatteryLevel ≥ 10) ∧
        ∃ g s, dbBattery.groupOf d0 = some g ∧ dbBattery.siteOf g = some s) ∧
    (dbBattery.queryError = none →
      ((findBestDeviceForSMS dbBattery "+358401234567" "" "").1 ≠ none ↔
        ∃ d0 ∈ dbBattery.devices,
          (d0.IsActive = true ∧ d0.IsAvailable = true ∧ d0.OperatorStatus = "online" ∧
            d0.BatteryLevel ≥ 10) ∧
          (∃ g s, dbBattery.groupOf d0 = some g ∧ dbBattery.siteOf g = some s) ∧
          dbBattery.HasUsableSIM d0)) :=
  ⟨by decide, unfiltered_eligible_set_is_ready_and_joined dbBattery "+358401234567"
    (by decide)⟩

/-- C25 counterexample: the only device of `dbUngrouped` satisfies the four
base conditions and has a usable SIM, but belongs to no device group; with no
country requested or derivable and no operator requested the query returns no
row and `findBestDeviceForSMS` reports that no device is available. -/
theorem ungrouped_ready_device_is_not_selected :
    getCountryFromPhoneNumber "+358401234567" = "" ∧
    (∀ d ∈ dbUngrouped.devices,
      d.IsActive = true ∧ d.IsAvailable = true ∧ d.OperatorStatus = "online" ∧
        d.BatteryLevel ≥ 10 ∧ d.DeviceGroupID = none ∧
        firstUsableSIM (dbUngrouped.preload d).SIMCards = some (simRow 1 "LONE" 3 true true)) ∧
    dbUngrouped.devices.length = 1 ∧
    dbUngrouped.queryDevices "" "" = [] ∧
    findBestDeviceForSMS dbUngrouped "+358401234567" "" "" =
      (none, none, some "no available device with active SIM card found") := by
  refine ⟨by decide, ?_, rfl, by decide, by decide⟩
  intro d hd
  simp only [dbUngrouped, List.mem_singleton] at hd
  subst hd
  exact ⟨rfl, rfl, rfl, by decide, rfl, by decide⟩

/-! ## The read loop -/

/-- `sendMessage` on a client whose buffer is open returns, and leaves the
registry and the open state of the buffer as they were. -/
theorem World.clientSendMessage_keeps (env : Env) (w : World) (p : Ptr) (frame : Frame)
    (hopen : (w.hub.heap p).Send.closed = false) :
    ∃ w' err, w.clientSendMessage env p frame = some (w', err) ∧
      w'.hub.Clients = w.hub.Clients ∧ (w'.hub.heap p).Send.closed = false := by
  by_cases hroom : (w.hub.heap p).Send.buf.length < (w.hub.heap p).Send.cap
  · exact ⟨_, _, w.clientSendMessage_of_room env p frame hopen hroom, rfl,
      by simpa [Hub.setSend, Hub.store] using hopen⟩
  · refine ⟨w, some "client send channel is full", ?_, rfl, hopen⟩
    simp [World.clientSendMessage, Chan.trySend_of_full _ _ hopen (Nat.not_lt.mp hroom)]

/-- `handleAuth` on a client whose buffer is open returns, and leaves the
registry and the open state of the buffer as they were. -/
theorem World.handleAuth_keeps (env : Env) (w : World) (p : Ptr) (now : Int)
    (data : Option AuthRequest) (hopen : (w.hub.heap p).Send.closed = false) :
    ∃ w' err, w.handleAuth env p now data = some (w', err) ∧
      w'.hub.Clients = w.hub.Clients ∧ (w'.hub.heap p).Send.closed = false := by
  cases data with
  | none => exact ⟨w, _, rfl, rfl, hopen⟩
  | some authReq =>
    cases hq : w.db.queryError with
    | some err => exact ⟨w, some err, by simp only [World.handleAuth, hq], rfl, hopen⟩
    | none =>
      cases hf : w.db.devices.find? (fun d => decide (d.ConnectKey = authReq.ConnectKey)) with
      | none =>
        simp only [World.handleAuth, hq, hf]
        exact w.clientSendMessage_keeps env p _ hopen
      | some device =>
        simp only [World.handleAuth, hq, hf, DB.saveDevice]
        refine (World.clientSendMessage_keeps env _ p _ ?_).imp fun w' h => h.imp fun err h =>
          ⟨h.1, ?_, h.2.2⟩
        · simpa [Hub.store] using hopen
        · rw [h.2.1]; rfl

/-- Every frame is handled on a client whose buffer is open; the registry
and the open state of the buffer stay as they were. -/
theorem World.handleMessage_keeps (env : Env) (w : World) (p : Ptr) (now : Int)
    (msg : Inbound) (hopen : (w.hub.heap p).Send.closed = false) :
    ∃ w' err, w.handleMessage env p now msg = some (w', err) ∧
      w'.hub.Clients = w.hub.Clients ∧ (w'.hub.heap p).Send.closed = false := by
  cases hmsg : msg.isAuth with
  | false =>
    obtain ⟨w', err, hrun, hhub⟩ := w.handleMessage_not_auth env p now msg hmsg
    exact ⟨w', err, hrun, by rw [hhub], by rw [hhub]; exact hopen⟩
  | true =>
    cases msg with
    | auth data => exact w.handleAuth_keeps env p now data hopen
    | _ => simp [Inbound.isAuth] at hmsg

/-- With the store unavailable the loop of `updateSIMCards` fails at the
first SIM card, if there is one. -/
theorem createSIMs_unavailable (k e : String) (l : List SIMCardInfo) (db : DB)
    (hq : db.queryError = some e) :
    createSIMs k l db = if l = [] then Except.ok db else Except.error e := by
  cases l with
  | nil => rfl
  | cons a rest => simp [createSIMs, DB.createSIM, hq]

/-- With the store unavailable every handler of a decoded frame of a known
type returns the error of the store. -/
theorem World.handleMessage_store_unavailable (env : Env) (w : World) (p : Ptr) (now : Int)
    (msg : Inbound) (e : String) (hwf : msg.wellFormed = true)
    (he : w.db.queryError = some e) :
    (w.handleMessage env p now msg).map Prod.snd = some (some e) := by
  cases msg with
  | malformed => simp [Inbound.wellFormed, Inbound.isUnknown, Inbound.undecodable] at hwf
  | unknown tag => simp [Inbound.wellFormed, Inbound.isUnknown] at hwf
  | auth data =>
    cases data with
    | none => simp [Inbound.wellFormed, Inbound.isUnknown, Inbound.undecodable] at hwf
    | some x => simp [World.handleMessage, World.handleAuth, he]
  | deviceRegistration data =>
    cases data with
    | none => simp [Inbound.wellFormed, Inbound.isUnknown, Inbound.undecodable] at hwf
    | some x =>
      simp [World.handleMessage, World.handleDeviceRegistration, DB.firstDeviceByID,
        firstRow, he]
  | deviceStatus data =>
    cases data with
    | none => simp [Inbound.wellFormed, Inbound.isUnknown, Inbound.undecodable] at hwf
    | some x =>
      have hdel : w.db.deleteSIMs x.DeviceID = w.db := by simp [DB.deleteSIMs, he]
      by_cases hl : x.SIMCards = []
      · simp [World.handleMessage, World.handleDeviceStatus, updateSIMCards, hdel,
          createSIMs_unavailable _ e _ w.db he, hl, saveDeviceStatus, DB.createStatus, he]
      · simp [World.handleMessage, World.handleDeviceStatus, updateSIMCards, hdel,
          createSIMs_unavailable _ e _ w.db he, hl]
  | incomingSMS data =>
    cases data with
    | none => simp [Inbound.wellFormed, Inbound.isUnknown, Inbound.undecodable] at hwf
    | some x =>
      simp [World.handleMessage, World.handleIncomingSMS, World.createSMS, DB.createSMS, he]
  | smsDeliveryReport data =>
    cases data with
    | none => simp [Inbound.wellFormed, Inbound.isUnknown, Inbound.undecodable] at hwf
    | some x =>
      simp [World.handleMessage, World.handleSMSDeliveryReport, DB.firstSMS, firstRow, he]
  | ussdResult data =>
    cases data with
    | none => simp [Inbound.wellFormed, Inbound.isUnknown, Inbound.undecodable] at hwf
    | some x =>
      simp [World.handleMessage, World.handleUSSDResult, DB.firstUSSD, firstRow, he]
  | phoneNumberResult data =>
    cases data with
    | none => simp [Inbound.wellFormed, Inbound.isUnknown, Inbound.undecodable] at hwf
    | some x =>
      simp [World.handleMessage, World.handlePhoneNumberResult, DB.firstSIM, firstRow, he]
  | alarm data =>
    cases data with
    | none => simp [Inbound.wellFormed, Inbound.isUnknown, Inbound.undecodable] at hwf
    | some x =>
      simp [World.handleMessage, World.handleClientAlarm, DB.createAlarm, he]

/-- With the store available and the queue unavailable every handler that
publishes returns the error of the publish. -/
theorem World.handleMessage_queue_unavailable (env : Env) (w : World) (p : Ptr) (now : Int)
    (msg : Inbound) (e : String) (hwf : msg.wellFormed = true) (hpub : msg.publishes = true)
    (hs : w.db.queryError = none) (he : w.queueError = some e) :
    (w.handleMessage env p now msg).map Prod.snd =
      some (some ("failed to publish message: " ++ e)) := by
  cases msg with
  | incomingSMS data =>
    cases data with
    | none => simp [Inbound.wellFormed, Inbound.isUnknown, Inbound.undecodable] at hwf
    | some x =>
      simp [World.handleMessage, World.handleIncomingSMS, World.createSMS, DB.createSMS,
        hs, World.publish, World.log, he]
  | alarm data =>
    cases data with
    | none => simp [Inbound.wellFormed, Inbound.isUnknown, Inbound.undecodable] at hwf
    | some x =>
      simp [World.handleMessage, World.handleClientAlarm, DB.createAlarm, hs,
        World.publish, he]
  | _ => simp [Inbound.publishes] at hpub

/-- A frame that does not decode makes `handleMessage` return an error. -/
theorem World.handleMessage_undecodable (env : Env) (w : World) (p : Ptr) (now : Int)
    (msg : Inbound) (hm : msg.undecodable = true) :
    w.handleMessage env p now msg = some (w, some unmarshalError) := by
  cases msg with
  | malformed => rfl
  | unknown tag => simp [Inbound.undecodable] at hm
  | auth data => cases data with
    | none => rfl
    | some x => simp [Inbound.undecodable] at hm
  | deviceRegistration data => cases data with
    | none => rfl
    | some x => simp [Inbound.undecodable] at hm
  | deviceStatus data => cases data with
    | none => rfl
    | some x => simp [Inbound.undecodable] at hm
  | incomingSMS data => cases data with
    | none => rfl
    | some x => simp [Inbound.undecodable] at hm
  | smsDeliveryReport data => cases data with
    | none => rfl
    | some x => simp [Inbound.undecodable] at hm
  | ussdResult data => cases data with
    | none => rfl
    | some x => simp [Inbound.undecodable] at hm
  | phoneNumberResult data => cases data with
    | none => rfl
    | some x => simp [Inbound.undecodable] at hm
  | alarm data => cases data with
    | none => rfl
    | some x => simp [Inbound.undecodable] at hm

/-- Only an unknown type makes `handleMessage` log by itself. -/
theorem unknownTypeLog_of_known (msg : Inbound) (h : msg.isUnknown = false) :
    unknownTypeLog msg = [] := by
  cases msg <;> first | rfl | simp [Inbound.isUnknown] at h

/-- The loop over frames that were read: it goes through all of them and is
then still reading, the client still registered as before. -/
theorem ReadPump_frames (env : Env) (p : Ptr) (frames : List (Int × Inbound)) :
    ∀ s : Session, (s.world.hub.heap p).Send.closed = false →
      ∃ s', ReadPump env p s (frames.map (fun f => ReadResult.frame f.1 f.2)) = some s' ∧
        s'.unregisterSent = s.unregisterSent ∧ s'.connClosed = s.connClosed ∧
        s'.world.hub.Clients = s.world.hub.Clients ∧
        (s'.world.hub.heap p).Send.closed = false := by
  induction frames with
  | nil => intro s hopen; exact ⟨s, rfl, rfl, rfl, rfl, hopen⟩
  | cons f rest ih =>
    intro s hopen
    obtain ⟨w', err, hstep, hC, hopen'⟩ := s.world.handleMessage_keeps env p f.1 f.2 hopen
    obtain ⟨s', hrun, h1, h2, h3, h4⟩ := ih
      { s with
        world := w'
        LastSeen := f.1
        logs := s.logs ++ unknownTypeLog f.2 ++ handlerErrorLog (s.world.hub.heap p).ID err }
      hopen'
    refine ⟨s', ?_, h1, h2, h3.trans hC, h4⟩
    simp only [List.map_cons, ReadPump, hstep]
    exact hrun

/-- One pass through the loop, for a frame that `handleMessage` handles. -/
theorem ReadPump_frame (env : Env) (p : Ptr) (s : Session) (now : Int) (msg : Inbound)
    (w' : World) (err : Option String)
    (h : s.world.handleMessage env p now msg = some (w', err)) :
    ReadPump env p s [ReadResult.frame now msg] =
      some { s with
        world := w'
        LastSeen := now
        logs := s.logs ++ unknownTypeLog msg ++ handlerErrorLog (s.world.hub.heap p).ID err } := by
  simp only [ReadPump, h]

/-- One frame whose handler returns an error: the loop logs the error and
goes on. -/
theorem ReadPump_logs_handler_error (env : Env) (p : Ptr) (s : Session) (now : Int)
    (msg : Inbound) (e : String) (hknown : msg.isUnknown = false)
    (h : (s.world.handleMessage env p now msg).map Prod.snd = some (some e)) :
    ∃ s1 line, ReadPump env p s [ReadResult.frame now msg] = some s1 ∧
      s1.logs = s.logs ++ [line] ∧ s1.unregisterSent = s.unregisterSent ∧
      s1.connClosed = s.connClosed := by
  obtain ⟨r, hr, he⟩ := Option.map_eq_some'.mp h
  obtain ⟨w', err⟩ := r
  simp only at he
  subst he
  refine ⟨_, "Error handling message from client " ++ (s.world.hub.heap p).ID ++ ": " ++ e,
    ReadPump_frame env p s now msg w' (some e) hr, ?_, rfl, rfl⟩
  simp only [unknownTypeLog_of_known msg hknown, handlerErrorLog, List.append_nil]

/-- A read error: the loop ends and the deferred function runs. -/
theorem ReadPump_error (env : Env) (p : Ptr) (s : Session) (err : String)
    (rest : List ReadResult) (hub' : Hub) (h : s.world.hub.handleUnregister p = some hub') :
    ReadPump env p s (ReadResult.error err :: rest) =
      some { s with
        world := { s.world with hub := hub' }
        logs := s.logs ++
          ["WebSocket read error for client " ++ (s.world.hub.heap p).ID ++ ": " ++ err]
        unregisterSent := true
        connClosed := true } := by
  simp only [ReadPump, h]

/-- The deferred function of `ReadPump`, on a client whose buffer is open:
`Hub.Run` handles the unregistration, after which the registry does not hold
the client. -/
theorem Hub.handleUnregister_open (h : Hub) (p : Ptr)
    (hopen : (h.heap p).Send.closed = false) :
    ∃ h1, h.handleUnregister p = some h1 ∧ mapContains h1.Clients (h.heap p).ID = false := by
  cases hc : mapContains h.Clients (h.heap p).ID with
  | false => exact ⟨h, by simp only [Hub.handleUnregister, hc]; rfl, hc⟩
  | true =>
    refine ⟨{ (h.setSend p { (h.heap p).Send with closed := true }) with
        Clients := mapDelete h.Clients (h.heap p).ID
        deviceConnection := kvSet h.deviceConnection (h.heap p).DeviceID none
        deviceStatus := kvSet h.deviceStatus (h.heap p).DeviceID (some "offline") }, ?_,
      mapContains_mapDelete _ _⟩
    simp only [Hub.handleUnregister, hc, Chan.close_of_open _ hopen, if_true]

theorem Inbound.isUnknown_of_wellFormed (msg : Inbound) (h : msg.wellFormed = true) :
    msg.isUnknown = false := by
  unfold Inbound.wellFormed at h
  cases hu : msg.isUnknown with
  | false => rfl
  | true => simp [hu] at h

theorem Inbound.isUnknown_of_undecodable (msg : Inbound) (h : msg.undecodable = true) :
    msg.isUnknown = false := by
  cases msg <;> first | rfl | simp [Inbound.undecodable] at h

/-- C26 (amended): on a connection whose outbound buffer is open, `ReadPump`
goes through every sequence of frames that were read successfully and is
then still in its loop: it has not sent the connection to `Unregister`, has
not closed the transport, and the registry is as it was.  A frame whose
type is unknown, whose envelope or inner payload does not decode, or whose
handler meets an unavailable store or (when it publishes) an unavailable
queue, adds one line to the log.  A frame of unknown type changes nothing
of the store, the registry, the queue or the connection; of the session it
changes only the last-activity time, which every frame read refreshes.  A
read error ends the loop: the connection is sent to `Unregister`, after
which the registry does not hold it, and the transport is closed. -/
theorem ReadPump_leaves_loop_only_on_read_error (env : Env) (p : Ptr) (s : Session)
    (hopen : (s.world.hub.heap p).Send.closed = false) :
    (∀ frames : List (Int × Inbound),
      ∃ s', ReadPump env p s (frames.map (fun f => ReadResult.frame f.1 f.2)) = some s' ∧
        s'.unregisterSent = s.unregisterSent ∧ s'.connClosed = s.connClosed ∧
        s'.world.hub.Clients = s.world.hub.Clients ∧
        (s'.world.hub.heap p).Send.closed = false) ∧
    (∀ now msg,
      (msg.isUnknown = true ∨ msg.undecodable = true ∨
        (msg.wellFormed = true ∧ s.world.db.queryError ≠ none) ∨
        (msg.wellFormed = true ∧ msg.publishes = true ∧ s.world.queueError ≠ none)) →
      ∃ s1 line, ReadPump env p s [ReadResult.frame now msg] = some s1 ∧
        s1.logs = s.logs ++ [line] ∧ s1.unregisterSent = s.unregisterSent ∧
        s1.connClosed = s.connClosed) ∧
    (∀ now tag, ∃ s1, ReadPump env p s [ReadResult.frame now (Inbound.unknown tag)] = some s1 ∧
      s1.world = s.world ∧ s1.LastSeen = now ∧ s1.unregisterSent = s.unregisterSent ∧
      s1.connClosed = s.connClosed) ∧
    (∀ err rest, ∃ s2, ReadPump env p s (ReadResult.error err :: rest) = some s2 ∧
      s2.unregisterSent = true ∧ s2.connClosed = true ∧
      mapContains s2.world.hub.Clients (s.world.hub.heap p).ID = false) := by
  refine ⟨fun frames => ReadPump_frames env p frames s hopen, ?_, ?_, ?_⟩
  · intro now msg hproblem
    rcases hproblem with hu | hd | ⟨hwf, hq⟩ | ⟨hwf, hpub, hq⟩
    · cases msg with
      | unknown tag =>
        exact ⟨_, "Unknown message type: " ++ tag, rfl,
          by simp [unknownTypeLog, handlerErrorLog], rfl, rfl⟩
      | _ => simp [Inbound.isUnknown] at hu
    · exact ReadPump_logs_handler_error env p s now msg _
        (Inbound.isUnknown_of_undecodable msg hd)
        (by rw [World.handleMessage_undecodable env _ p now msg hd]; rfl)
    · obtain ⟨e, he⟩ := Option.ne_none_iff_exists'.mp hq
      exact ReadPump_logs_handler_error env p s now msg e
        (Inbound.isUnknown_of_wellFormed msg hwf)
        (World.handleMessage_store_unavailable env _ p now msg e hwf he)
    · obtain ⟨e, he⟩ := Option.ne_none_iff_exists'.mp hq
      cases hs : s.world.db.queryError with
      | none =>
        exact ReadPump_logs_handler_error env p s now msg _
          (Inbound.isUnknown_of_wellFormed msg hwf)
          (World.handleMessage_queue_unavailable env _ p now msg e hwf hpub hs he)
      | some e' =>
        exact ReadPump_logs_handler_error env p s now msg e'
          (Inbound.isUnknown_of_wellFormed msg hwf)
          (World.handleMessage_store_unavailable env _ p now msg e' hwf hs)
  · intro now tag
    exact ⟨_, rfl, rfl, rfl, rfl, rfl⟩
  · intro err rest
    obtain ⟨h1, hun, hgone⟩ := s.world.hub.handleUnregister_open p hopen
    exact ⟨_, ReadPump_error env p s err rest h1 hun, rfl, rfl, hgone⟩

/-- C26 witness: the statement for the session `sessionStart`, whose client
has just been registered. -/
theorem ReadPump_leaves_loop_only_on_read_error_witness :
    (sessionStart.world.hub.heap 1).Send.closed = false ∧
    ((∀ frames : List (Int × Inbound),
      ∃ s', ReadPump sampleEnv 1 sessionStart
          (frames.map (fun f => ReadResult.frame f.1 f.2)) = some s' ∧
        s'.unregisterSent = sessionStart.unregisterSent ∧
        s'.connClosed = sessionStart.connClosed ∧
        s'.world.hub.Clients = sessionStart.world.hub.Clients ∧
        (s'.world.hub.heap 1).Send.closed = false) ∧
    (∀ now msg,
      (msg.isUnknown = true ∨ msg.undecodable = true ∨
        (msg.wellFormed = true ∧ sessionStart.world.db.queryError ≠ none) ∨
        (msg.wellFormed = true ∧ msg.publishes = true ∧
          sessionStart.world.queueError ≠ none)) →
      ∃ s1 line, ReadPump sampleEnv 1 sessionStart [ReadResult.frame now msg] = some s1 ∧
        s1.logs = sessionStart.logs ++ [line] ∧
        s1.unregisterSent = sessionStart.unregisterSent ∧
        s1.connClosed = sessionStart.connClosed) ∧
    (∀ now tag, ∃ s1,
      ReadPump sampleEnv 1 sessionStart [ReadResult.frame now (Inbound.unknown tag)] =
        some s1 ∧
      s1.world = sessionStart.world ∧ s1.LastSeen = now ∧
      s1.unregisterSent = sessionStart.unregisterSent ∧
      s1.connClosed = sessionStart.connClosed) ∧
    (∀ err rest, ∃ s2,
      ReadPump sampleEnv 1 sessionStart (ReadResult.error err :: rest) = some s2 ∧
      s2.unregisterSent = true ∧ s2.connClosed = true ∧
      mapContains s2.world.hub.Clients (sessionStart.world.hub.heap 1).ID = false)) :=
  ⟨rfl, ReadPump_leaves_loop_only_on_read_error sampleEnv 1 sessionStart rfl⟩

set_option maxRecDepth 100000 in
/-- C26 counterexample: a frame of unknown type, read at time 7 by the
session `sessionStart` (last active at time 0), leaves the loop running and
sets the session's `LastSeen` to 7; and on the session `sessionEvicted`,
whose outbound buffer the Hub has closed, an `auth` frame that was read
successfully makes `ReadPump` panic in `sendMessage`. -/
theorem unknown_frame_refreshes_last_seen :
    sessionStart.LastSeen = 0 ∧
    (ReadPump sampleEnv 1 sessionStart [ReadResult.frame 7 (Inbound.unknown "ping")]).map
      (fun s1 => (s1.LastSeen, s1.logs, s1.unregisterSent, s1.connClosed)) =
      some (7, ["Unknown message type: ping"], false, false) ∧
    (sessionEvicted.world.hub.heap 1).Send.closed = true ∧
    sessionEvicted.unregisterSent = false ∧
    (ReadPump sampleEnv 1 sessionEvicted
      [ReadResult.frame 7 (Inbound.auth (some { ConnectKey := "K1" }))]).isNone = true := by
  refine ⟨rfl, rfl, ?_, rfl, ?_⟩
  · decide
  · rfl

/-! ## Accepted phone numbers -/

/-- The test of the validation loop accepts exactly the ASCII digits. -/
theorem isASCIIDigit_iff (c : Char) :
    (!(decide (c < '0') || decide (c > '9'))) = true ↔ isASCIIDigit c := by
  unfold isASCIIDigit
  simp only [Bool.not_eq_true', Bool.or_eq_false_iff, decide_eq_false_iff_not, not_lt, gt_iff_lt]

/-- An ASCII digit takes one byte. -/
theorem utf8Size_of_isASCIIDigit (c : Char) (h : isASCIIDigit c) : c.utf8Size = 1 := by
  obtain ⟨_, h9⟩ := h
  have h9' : c.val.toNat ≤ 57 := h9
  have : c.val ≤ UInt32.ofNatCore 127 (by decide) := by
    show c.val.toNat ≤ 127
    omega
  unfold Char.utf8Size
  exact if_pos this

/-- The byte length of a string of ASCII digits is its number of
characters. -/
theorem byteLen_of_digits (l : List Char) (h : ∀ c ∈ l, isASCIIDigit c) :
    byteLen l = l.length := by
  induction l with
  | nil => rfl
  | cons c rest ih =>
    have hc := utf8Size_of_isASCIIDigit c (h c (List.mem_cons_self _ _))
    have hr := ih (fun x hx => h x (List.mem_cons_of_mem _ hx))
    unfold byteLen at hr ⊢
    simp only [List.map_cons, List.sum_cons, List.length_cons, hc, hr]
    omega

/-- C27: `isValidPhoneNumber s` is true if and only if the string obtained
from `s` by deleting every space, `-`, `(` and `)` is a `+` followed by at
least 10 characters, all of them ASCII decimal digits. -/
theorem isValidPhoneNumber_iff_plus_and_ten_digits (s : String) :
    isValidPhoneNumber s = true ↔
      ∃ digits : List Char, (cleanedPhoneNumber s).data = '+' :: digits ∧
        10 ≤ digits.length ∧ ∀ c ∈ digits, isASCIIDigit c := by
  unfold isValidPhoneNumber cleanedPhoneNumber
  simp only []
  generalize removeChar ')' (removeChar '(' (removeChar '-' (removeChar ' ' s.data))) = cleaned
  cases cleaned with
  | nil => simp
  | cons c rest =>
    constructor
    · intro h
      split at h
      · rename_i hc
        simp only [Bool.and_eq_true, decide_eq_true_eq] at hc
        obtain ⟨hplus, hlen⟩ := hc
        have hcp : c = '+' := by
          have : '+' = c := by simpa [List.isPrefixOf] using hplus
          exact this.symm
        subst hcp
        have hd : ∀ x ∈ rest, isASCIIDigit x := by
          intro x hx
          have := (List.all_eq_true.mp h) x (by simpa using hx)
          exact (isASCIIDigit_iff x).mp this
        refine ⟨rest, rfl, ?_, hd⟩
        have hb := byteLen_of_digits rest hd
        have : byteLen ('+' :: rest) = 1 + byteLen rest := by
          unfold byteLen; simp [List.sum_cons]; rfl
        omega
      · exact absurd h (by simp)
    · rintro ⟨digits, heq, hlen, hd⟩
      have hc : c = '+' := (List.cons.inj heq).1
      have hr : rest = digits := (List.cons.inj heq).2
      subst hc; subst hr
      have hb := byteLen_of_digits rest hd
      have hbl : byteLen ('+' :: rest) = 1 + byteLen rest := by
        unfold byteLen; simp [List.sum_cons]; rfl
      have hcond : (['+'].isPrefixOf ('+' :: rest) && decide (byteLen ('+' :: rest) ≥ 11)) = true := by
        simp [List.isPrefixOf, hbl, hb]; omega
      rw [if_pos hcond]
      simp only [List.drop_succ_cons, List.drop_zero]
      rw [List.all_eq_true]
      intro x hx
      exact (isASCIIDigit_iff x).mpr (hd x hx)

/-! ## Buffer lifetime -/

theorem Hub.Lifetime.congr_seen (ident : Ptr → String) (seen seen' : Ptr → Prop) (h : Hub)
    (hs : ∀ p, seen p ↔ seen' p) (hL : h.Lifetime ident seen) : h.Lifetime ident seen' :=
  ⟨hL.ids, fun e he => ⟨(hL.entries e he).1, (hs _).mp (hL.entries e he).2⟩, hL.nodup, hL.cap,
    fun p => by rw [hL.closed p, hs p]⟩

/-- A registered client has an open buffer. -/
theorem Hub.Lifetime.open_of_mem (ident : Ptr → String) (seen : Ptr → Prop) (h : Hub)
    (hL : h.Lifetime ident seen) (e : String × Ptr) (he : e ∈ h.Clients) :
    (h.heap e.2).Send.closed = false := by
  cases hc : (h.heap e.2).Send.closed with
  | false => rfl
  | true => exact absurd rfl (((hL.closed e.2).mp hc).2 e he)

/-- The registry holds the token of `p` exactly when it holds an entry for
`p`. -/
theorem Hub.Lifetime.contains_iff (ident : Ptr → String) (hinj : Function.Injective ident)
    (seen : Ptr → Prop) (h : Hub) (hL : h.Lifetime ident seen) (p : Ptr) :
    mapContains h.Clients (ident p) = true ↔ ∃ e ∈ h.Clients, e.2 = p := by
  rw [mapContains_iff]
  constructor
  · rintro ⟨e, he, hk⟩
    exact ⟨e, he, hinj (((hL.entries e he).1).symm.trans hk)⟩
  · rintro ⟨e, he, hp⟩
    exact ⟨e, he, by rw [(hL.entries e he).1, hp]⟩

/-- Closing the buffer of a registered client and deleting its entry keeps
the invariant. -/
theorem Hub.Lifetime.of_evict (ident : Ptr → String) (hinj : Function.Injective ident)
    (seen : Ptr → Prop) (h h1 : Hub) (hL : h.Lifetime ident seen) (p : Ptr)
    (hreg : ∃ e ∈ h.Clients, e.2 = p)
    (hp : h1.heap p = (h.heap p).closeSend) (hq : ∀ q, q ≠ p → h1.heap q = h.heap q)
    (hC : h1.Clients = mapDelete h.Clients (ident p)) : h1.Lifetime ident seen := by
  have hmem : ∀ e, e ∈ h1.Clients ↔ e ∈ h.Clients ∧ e.2 ≠ p := by
    intro e
    rw [hC]
    unfold mapDelete
    rw [List.mem_filter]
    constructor
    · rintro ⟨he, hk⟩
      refine ⟨he, fun hep => ?_⟩
      have : e.1 = ident p := by rw [(hL.entries e he).1, hep]
      simp [this] at hk
    · rintro ⟨he, hep⟩
      refine ⟨he, ?_⟩
      have : e.1 ≠ ident p := fun hk => hep (hinj (((hL.entries e he).1).symm.trans hk))
      simpa using this
  refine ⟨?_, ?_, ?_, ?_, ?_⟩
  · intro q
    by_cases hqp : q = p
    · subst hqp; rw [hp]; exact hL.ids q
    · rw [hq q hqp]; exact hL.ids q
  · intro e he
    exact hL.entries e ((hmem e).mp he).1
  · unfold Hub.KeysNodup
    rw [hC]
    exact List.Nodup.sublist (List.Sublist.map _ (List.filter_sublist _)) hL.nodup
  · intro q
    by_cases hqp : q = p
    · subst hqp; rw [hp]; exact hL.cap q
    · rw [hq q hqp]; exact hL.cap q
  · intro q
    by_cases hqp : q = p
    · subst hqp
      obtain ⟨e, he, hep⟩ := hreg
      rw [hp]
      simp only [Client.closeSend, true_iff]
      exact ⟨hep ▸ (hL.entries e he).2, fun e' he' => ((hmem e').mp he').2⟩
    · rw [hq q hqp, hL.closed q]
      constructor
      · rintro ⟨hs, hno⟩
        exact ⟨hs, fun e he => hno e ((hmem e).mp he).1⟩
      · rintro ⟨hs, hno⟩
        refine ⟨hs, fun e he heq => ?_⟩
        exact hno e ((hmem e).mpr ⟨he, fun hep => hqp (heq.symm.trans hep)⟩) heq

/-- Appending an item to a buffer with room keeps the invariant. -/
theorem Hub.Lifetime.of_enqueue (ident : Ptr → String) (seen : Ptr → Prop) (h h1 : Hub)
    (hL : h.Lifetime ident seen) (p : Ptr) (m : String) (hroom : h.hasRoom p = true)
    (hp : h1.heap p = (h.heap p).enqueue m) (hq : ∀ q, q ≠ p → h1.heap q = h.heap q)
    (hC : h1.Clients = h.Clients) : h1.Lifetime ident seen := by
  refine ⟨?_, ?_, ?_, ?_, ?_⟩
  · intro q
    by_cases hqp : q = p
    · subst hqp; rw [hp]; exact hL.ids q
    · rw [hq q hqp]; exact hL.ids q
  · intro e he
    rw [hC] at he
    exact hL.entries e he
  · unfold Hub.KeysNodup
    rw [hC]
    exact hL.nodup
  · intro q
    by_cases hqp : q = p
    · subst hqp
      rw [hp]
      have hc := hL.cap q
      have hr : (h.heap q).Send.buf.length < (h.heap q).Send.cap := by
        simpa [Hub.hasRoom] using hroom
      simp only [Client.enqueue, List.length_append, List.length_singleton]
      exact ⟨hc.1, by omega⟩
    · rw [hq q hqp]; exact hL.cap q
  · intro q
    rw [hC]
    by_cases hqp : q = p
    · subst hqp
      rw [hp]
      exact hL.closed q
    · rw [hq q hqp]; exact hL.closed q

/-- One `select` on a registered client does not panic and keeps the
invariant. -/
theorem Hub.Lifetime.sendOrEvict_keeps (ident : Ptr → String) (hinj : Function.Injective ident)
    (seen : Ptr → Prop) (h : Hub) (hL : h.Lifetime ident seen) (e : String × Ptr)
    (he : e ∈ h.Clients) (m : String) :
    ∃ h1, h.sendOrEvict e.2 m = some h1 ∧ h1.Lifetime ident seen := by
  obtain ⟨h1, hstep, hheap, hheape, hcl, _, _⟩ :=
    h.sendOrEvict_spec e.2 m (hL.open_of_mem ident seen h e he)
  refine ⟨h1, hstep, ?_⟩
  cases hroom : h.hasRoom e.2 with
  | true =>
    rw [hroom] at hheape hcl
    exact hL.of_enqueue ident seen h h1 e.2 m hroom hheape hheap hcl
  | false =>
    rw [hroom] at hheape hcl
    rw [hL.ids e.2] at hcl
    exact hL.of_evict ident hinj seen h h1 e.2 ⟨e, he, rfl⟩ hheape hheap hcl

/-- The Register case, for a client that has not been registered before. -/
theorem Hub.Lifetime.handleRegister_keeps (ident : Ptr → String) (hinj : Function.Injective ident)
    (seen : Ptr → Prop) (h : Hub) (hL : h.Lifetime ident seen) (p : Ptr) (hnew : ¬ seen p) :
    (h.handleRegister p).Lifetime ident (fun q => q = p ∨ seen q) := by
  have hno : ∀ e ∈ h.Clients, e.2 ≠ p := fun e he hep => hnew (hep ▸ (hL.entries e he).2)
  have hnc : mapContains h.Clients (ident p) = false := by
    rw [Bool.eq_false_iff]
    intro hc
    obtain ⟨e, he, hep⟩ := (hL.contains_iff ident hinj seen h p).mp hc
    exact hno e he hep
  have hC : (h.handleRegister p).Clients = (ident p, p) :: h.Clients := by
    have hd := mapDelete_of_not_contains h.Clients (ident p) hnc
    unfold mapDelete at hd
    simp only [Hub.handleRegister, mapInsert, hL.ids p, hd]
  have hopen : (h.heap p).Send.closed = false := by
    cases hc : (h.heap p).Send.closed with
    | false => rfl
    | true => exact absurd ((hL.closed p).mp hc).1 hnew
  refine ⟨hL.ids, ?_, ?_, hL.cap, ?_⟩
  · intro e he
    rw [hC] at he
    rcases List.mem_cons.mp he with rfl | he
    · exact ⟨rfl, Or.inl rfl⟩
    · exact ⟨(hL.entries e he).1, Or.inr (hL.entries e he).2⟩
  · unfold Hub.KeysNodup
    rw [hC, List.map_cons, List.nodup_cons]
    refine ⟨fun hin => ?_, hL.nodup⟩
    obtain ⟨e, he, hk⟩ := List.mem_map.mp hin
    have := (mapContains_iff h.Clients (ident p)).mpr ⟨e, he, hk⟩
    simp [hnc] at this
  · intro q
    show (h.heap q).Send.closed = true ↔ _
    rw [hC]
    by_cases hqp : q = p
    · subst hqp
      rw [hopen]
      constructor
      · intro hc; cases hc
      · rintro ⟨_, hall⟩
        exact absurd rfl (hall (ident q, q) (List.mem_cons_self _ _))
    · rw [hL.closed q]
      constructor
      · rintro ⟨hs, hall⟩
        refine ⟨Or.inr hs, fun e he => ?_⟩
        rcases List.mem_cons.mp he with rfl | he
        · exact fun hpq => hqp hpq.symm
        · exact hall e he
      · rintro ⟨hs, hall⟩
        refine ⟨hs.resolve_left hqp, fun e he => hall e (List.mem_cons_of_mem _ he)⟩

/-- The Unregister case. -/
theorem Hub.Lifetime.handleUnregister_keeps (ident : Ptr → String) (hinj : Function.Injective ident)
    (seen : Ptr → Prop) (h : Hub) (hL : h.Lifetime ident seen) (p : Ptr) :
    ∃ h1, h.handleUnregister p = some h1 ∧ h1.Lifetime ident seen := by
  unfold Hub.handleUnregister
  simp only [hL.ids p]
  cases hc : mapContains h.Clients (ident p) with
  | false => exact ⟨h, by simp, hL⟩
  | true =>
    obtain ⟨e, he, hep⟩ := (hL.contains_iff ident hinj seen h p).mp hc
    have hopen : (h.heap p).Send.closed = false := hep ▸ hL.open_of_mem ident seen h e he
    rw [Chan.close_of_open _ hopen]
    refine ⟨_, rfl, ?_⟩
    apply hL.of_evict ident hinj seen h _ p ⟨e, he, hep⟩
    · simp [Hub.setSend, Hub.store, Client.closeSend]
    · intro q hq; simp [Hub.setSend, Hub.store, hq]
    · rfl

/-- The Broadcast loop over entries filed under the tokens of their clients. -/
theorem Hub.Lifetime.broadcastLoop_keeps (ident : Ptr → String) (hinj : Function.Injective ident)
    (seen : Ptr → Prop) (m : String) (l : List (String × Ptr))
    (hl : ∀ e ∈ l, e.1 = ident e.2) :
    ∀ h : Hub, h.Lifetime ident seen →
      ∃ h1, TSim.broadcastLoop m l h = some h1 ∧ h1.Lifetime ident seen := by
  induction l with
  | nil => intro h hL; exact ⟨h, rfl, hL⟩
  | cons e rest ih =>
    intro h hL
    have hrest : ∀ x ∈ rest, x.1 = ident x.2 := fun x hx => hl x (List.mem_cons_of_mem _ hx)
    cases hc : mapContains h.Clients e.1 with
    | false =>
      obtain ⟨h1, hrun, hL1⟩ := ih hrest h hL
      exact ⟨h1, by simp only [TSim.broadcastLoop, hc]; exact hrun, hL1⟩
    | true =>
      rw [hl e (List.mem_cons_self _ _)] at hc
      obtain ⟨e', he', hep⟩ := (hL.contains_iff ident hinj seen h e.2).mp hc
      obtain ⟨h1, hstep, hL1⟩ := hL.sendOrEvict_keeps ident hinj seen h e' he' m
      rw [hep] at hstep
      obtain ⟨h2, hrun, hL2⟩ := ih hrest h1 hL1
      refine ⟨h2, ?_, hL2⟩
      have hc' : mapContains h.Clients e.1 = true := by
        rw [hl e (List.mem_cons_self _ _)]; exact hc
      simp only [TSim.broadcastLoop, hc', hstep, if_true]
      exact hrun

/-- `sendToDevice` does not panic and keeps the invariant. -/
theorem Hub.Lifetime.sendToDevice_keeps (ident : Ptr → String) (hinj : Function.Injective ident)
    (seen : Ptr → Prop) (h : Hub) (hL : h.Lifetime ident seen) (d m : String) :
    ∃ h1, h.sendToDevice d m = some h1 ∧ h1.Lifetime ident seen := by
  unfold Hub.sendToDevice
  rcases exists_first_bound h d h.Clients with hno | ⟨pre, e, post, hsplit, hpre, hb⟩
  · exact ⟨h, sendToDeviceLoop_no_match h d m _ hno, hL⟩
  · rw [hsplit, sendToDeviceLoop_first h d m pre post e hpre hb]
    exact hL.sendOrEvict_keeps ident hinj seen h e (by rw [hsplit]; simp) m

/-- The binding of a client to a device keeps the invariant. -/
theorem Hub.Lifetime.bind_keeps (ident : Ptr → String) (seen : Ptr → Prop) (h : Hub)
    (hL : h.Lifetime ident seen) (p : Ptr) (d : String) :
    (h.store p { h.heap p with DeviceID := d }).Lifetime ident seen := by
  refine ⟨?_, hL.entries, hL.nodup, ?_, ?_⟩
  · intro q
    by_cases hqp : q = p
    · subst hqp; simpa [Hub.store] using hL.ids q
    · simpa [Hub.store, hqp] using hL.ids q
  · intro q
    by_cases hqp : q = p
    · subst hqp; simpa [Hub.store] using hL.cap q
    · simpa [Hub.store, hqp] using hL.cap q
  · intro q
    by_cases hqp : q = p
    · subst hqp; simpa [Hub.store] using hL.closed q
    · simpa [Hub.store, hqp] using hL.closed q

/-- A run of the event loop in which no client is registered twice does not
panic and keeps the invariant. -/
theorem Hub.Lifetime.run_keeps (ident : Ptr → String) (hinj : Function.Injective ident) :
    ∀ (events : List HubEvent) (seen : Ptr → Prop) (h : Hub), h.Lifetime ident seen →
      (events.filterMap HubEvent.registered).Nodup →
      (∀ p ∈ events.filterMap HubEvent.registered, ¬ seen p) →
      ∃ h1, h.run events = some h1 ∧
        h1.Lifetime ident (fun q => seen q ∨ q ∈ events.filterMap HubEvent.registered) := by
  intro events
  induction events with
  | nil =>
    intro seen h hL _ _
    exact ⟨h, rfl, hL.congr_seen ident seen _ h (fun p => by simp)⟩
  | cons ev rest ih =>
    intro seen h hL hnd hfresh
    cases ev with
    | register p =>
      simp only [List.filterMap_cons, HubEvent.registered, List.nodup_cons] at hnd
      have hp : ¬ seen p := hfresh p (by simp [HubEvent.registered])
      have hL1 := hL.handleRegister_keeps ident hinj seen h p hp
      obtain ⟨h2, hrun, hL2⟩ := ih _ _ hL1 hnd.2 (by
        intro q hq hs
        rcases hs with rfl | hs
        · exact hnd.1 hq
        · exact hfresh q (by simp [HubEvent.registered, hq]) hs)
      refine ⟨h2, by simp only [Hub.run, Hub.step]; exact hrun, ?_⟩
      apply hL2.congr_seen ident _ _ h2
      intro q
      simp only [List.filterMap_cons, HubEvent.registered, List.mem_cons]
      tauto
    | unregister p =>
      obtain ⟨h1, hstep, hL1⟩ := hL.handleUnregister_keeps ident hinj seen h p
      obtain ⟨h2, hrun, hL2⟩ := ih seen h1 hL1 (by simpa [HubEvent.registered] using hnd)
        (fun q hq => hfresh q (by simpa [HubEvent.registered] using hq))
      exact ⟨h2, by simp only [Hub.run, Hub.step, hstep]; exact hrun,
        by simpa [HubEvent.registered] using hL2⟩
    | broadcast m =>
      obtain ⟨h1, hstep, hL1⟩ := Hub.Lifetime.broadcastLoop_keeps ident hinj seen m h.Clients
        (fun e he => (hL.entries e he).1) h hL
      obtain ⟨h2, hrun, hL2⟩ := ih seen h1 hL1 (by simpa [HubEvent.registered] using hnd)
        (fun q hq => hfresh q (by simpa [HubEvent.registered] using hq))
      refine ⟨h2, ?_, by simpa [HubEvent.registered] using hL2⟩
      have hstep' : h.handleBroadcast m = some h1 := hstep
      simp only [Hub.run, Hub.step, hstep']
      exact hrun
    | sendToDevice d m =>
      obtain ⟨h1, hstep, hL1⟩ := hL.sendToDevice_keeps ident hinj seen h d m
      obtain ⟨h2, hrun, hL2⟩ := ih seen h1 hL1 (by simpa [HubEvent.registered] using hnd)
        (fun q hq => hfresh q (by simpa [HubEvent.registered] using hq))
      exact ⟨h2, by simp only [Hub.run, Hub.step, hstep]; exact hrun,
        by simpa [HubEvent.registered] using hL2⟩
    | bind p d =>
      have hL1 := hL.bind_keeps ident seen h p d
      obtain ⟨h2, hrun, hL2⟩ := ih seen _ hL1 (by simpa [HubEvent.registered] using hnd)
        (fun q hq => hfresh q (by simpa [HubEvent.registered] using hq))
      exact ⟨h2, by simp only [Hub.run, Hub.step]; exact hrun,
        by simpa [HubEvent.registered] using hL2⟩

/-- The starting state satisfies the invariant. -/
theorem hubOf_lifetime (ident : Ptr → String) :
    (hubOf ident).Lifetime ident (fun _ => False) := by
  refine ⟨fun _ => rfl, ?_, ?_, ?_, ?_⟩
  · intro e he; simp [hubOf, NewHub] at he
  · simp [Hub.KeysNodup, hubOf, NewHub]
  · intro p; simp [hubOf, NewClient, Chan.make]
  · intro p; simp [hubOf, NewClient, Chan.make]

theorem tokenOf_injective : Function.Injective tokenOf := by
  intro a b hab
  have h := congrArg String.length hab
  simpa [tokenOf, String.length] using h

/-- C29: start from the Hub `NewHub` returns, with client objects as
`NewClient` makes them (distinct identity tokens, empty open buffers of
capacity 256), and let `Hub.Run` handle any sequence of Register,
Unregister, Broadcast and SendToDevice events (and handshake bindings) in
which no client is registered twice.  Then no step panics, that is, no step
closes a closed buffer or enqueues onto one, and in the state reached every
client in the registry has an open outbound buffer holding at most 256
items, while every client that was registered and is no longer in the
registry has a closed buffer.  The state also satisfies the registry
invariants: entries are filed under the tokens of their clients and keys are
distinct. -/
theorem hub_run_keeps_buffer_lifetime (ident : Ptr → String)
    (hinj : Function.Injective ident) (events : List HubEvent)
    (honce : (events.filterMap HubEvent.registered).Nodup) :
    ∃ h, (hubOf ident).run events = some h ∧
      (∀ e ∈ h.Clients, (h.heap e.2).Send.closed = false ∧
        (h.heap e.2).Send.buf.length ≤ 256 ∧ (h.heap e.2).Send.cap = 256) ∧
      (∀ p ∈ events.filterMap HubEvent.registered, (∀ e ∈ h.Clients, e.2 ≠ p) →
        (h.heap p).Send.closed = true) ∧
      h.KeysMatch ∧ h.KeysNodup ∧ h.RegisteredOpen := by
  obtain ⟨h, hrun, hL⟩ := Hub.Lifetime.run_keeps ident hinj events (fun _ => False) (hubOf ident)
    (hubOf_lifetime ident) honce (fun _ _ hs => hs)
  refine ⟨h, hrun, ?_, ?_, ?_, hL.nodup, ?_⟩
  · intro e he
    exact ⟨hL.open_of_mem ident _ h e he, (hL.cap e.2).2, (hL.cap e.2).1⟩
  · intro p hp hgone
    exact (hL.closed p).mpr ⟨Or.inr hp, hgone⟩
  · intro e he
    rw [hL.ids e.2]
    exact ((hL.entries e he).1).symm
  · intro e he
    exact hL.open_of_mem ident _ h e he

/-- C29 witness: the statement for the run `eventsTwoClients` over clients
whose tokens are `tokenOf`. -/
theorem hub_run_keeps_buffer_lifetime_witness :
    Function.Injective tokenOf ∧
    (eventsTwoClients.filterMap HubEvent.registered).Nodup ∧
    ∃ h, (hubOf tokenOf).run eventsTwoClients = some h ∧
      (∀ e ∈ h.Clients, (h.heap e.2).Send.closed = false ∧
        (h.heap e.2).Send.buf.length ≤ 256 ∧ (h.heap e.2).Send.cap = 256) ∧
      (∀ p ∈ eventsTwoClients.filterMap HubEvent.registered, (∀ e ∈ h.Clients, e.2 ≠ p) →
        (h.heap p).Send.closed = true) ∧
      h.KeysMatch ∧ h.KeysNodup ∧ h.RegisteredOpen :=
  ⟨tokenOf_injective, by decide,
    hub_run_keeps_buffer_lifetime tokenOf tokenOf_injective eventsTwoClients (by decide)⟩

/-! ## A serialized trace that ends in a panic -/

set_option maxRecDepth 1000000 in
/-- C28: the claim says that no operation panics.  Start from
`worldRegistered`, where one connection, made by `NewClient`, has been
registered.  The serialized trace `operationsFillBuffer` (its handshake with
the connect-key of `DEV1`, then 256 messages for `DEV1` while nothing is
taken from its buffer) runs without a panic: the handshake reply and 255
messages fill the 256 places of the buffer, and the last message makes the
Hub close the buffer and delete the connection from the registry.  The next
operation, a second handshake frame read on the same session, panics:
`sendMessage` sends on the buffer the Hub has closed. -/
theorem handshake_after_eviction_panics :
    (World.operateAll sampleEnv worldRegistered operationsFillBuffer).map
      (fun w => (w.hub.Clients, (w.hub.heap 1).DeviceID, (w.hub.heap 1).Send.closed,
        (w.hub.heap 1).Send.buf.length)) = some ([], "DEV1", true, 256) ∧
    (World.operateAll sampleEnv worldRegistered
      (operationsFillBuffer ++
        [Operation.frame 1 9 (Inbound.auth (some { ConnectKey := "K1" }))])).isNone = true := by
  exact ⟨rfl, rfl⟩

end TSim
